import Mathlib

/-!
JobConnect: the job search/filter predicate of `JobListings.js`, the error
hub and the interceptors of `GlobalErrorHandler.js`, the route guard of
`ProtectedRoute.js` and the form validation of `JobPostForm.js`.

A shallow embedding of the `filteredJobs` computation of `src/JobListings.js`
(lines 118-153) together with the JavaScript string and number primitives it
calls, of the object `ErrorUtils` of `src/GlobalErrorHandler.js` (lines
187-354) and of `initializeErrorTracking` (lines 72-184: the fetch and
XMLHttpRequest wrappers and the online/offline listeners), of the component
`ProtectedRoute` of `src/ProtectedRoute.js` (lines 5-51) and of `validateForm`
and `handleSubmit` of `src/JobPostForm.js` (lines 59-99), followed by the
properties the specification states about them.

Modelling conventions.

* A JavaScript string is a list of characters (`Str`).
* A text field or the `remote` flag of a job that is `null` or `undefined` is
  `none`.
* `job.salary` is an integer when present; a missing (`undefined`) salary is
  `none` and, like `NaN`, fails every numeric comparison; a salary stored as
  `null` is compared as 0 by JavaScript and is `some 0` here.
* A number that `parseInt` returns is a `JSNumber`: `NaN`, an integer-valued
  double or an infinity. The integer that the digits denote is rounded to the
  nearest double, ties to even (`numberValue`), so it is returned unchanged
  when it is below 2^53; `-0` is identified with `0`.
* `toLowerCase` is modelled character by character on the ASCII letters; text
  with letters outside ASCII that have a lower case is outside the model.
* The error hub is a state (`World`) passed explicitly; `Date.now()` is an
  argument, a `setTimeout` callback runs at its due time when `advance` is
  applied, and subscriber callbacks do not themselves change the hub.
* A promise is modelled by how and when it settles (`Settled`); the 30 s timer
  of the fetch wrapper wins the race when the underlying call has not settled
  before it is due.
* A rendered component is modelled by which of its views it returns (`View`).
-/

namespace JobConnect

/-- A JavaScript string, as the list of its characters. -/
abbrev Str := List Char

/-! ## JavaScript primitives used by the filter -/

/-- The method `String.prototype.toLowerCase`, on the ASCII letters `A`-`Z`. -/
def toLowerCase (s : Str) : Str := s.map Char.toLower

/-- The test `field.includes(term)`: `term` occurs in `field` as a contiguous run. -/
def includes : Str → Str → Bool
  | [], term => term.isEmpty
  | c :: cs, term => term.isPrefixOf (c :: cs) || includes cs term

/-- The call `s.split(sep)` for a one-character separator: the pieces between the
occurrences of `sep`, empty pieces included; the empty string gives `['']`. -/
def split (sep : Char) : Str → List Str
  | [] => [[]]
  | c :: cs =>
    if c = sep then [] :: split sep cs
    else
      match split sep cs with
      | [] => [[c]]
      | piece :: pieces => (c :: piece) :: pieces

/-- The characters `parseInt` and `trim` skip and `\s` matches: the ECMAScript
`WhiteSpace` and `LineTerminator` code points. -/
def isWhiteSpace (c : Char) : Bool :=
  let n := c.toNat
  n = 0x09 || n = 0x0A || n = 0x0B || n = 0x0C || n = 0x0D || n = 0x20 ||
  n = 0xA0 || n = 0x1680 || (0x2000 ≤ n && n ≤ 0x200A) || n = 0x2028 ||
  n = 0x2029 || n = 0x202F || n = 0x205F || n = 0x3000 || n = 0xFEFF

/-- The value of `c` as a digit of the given radix, if it is one. -/
def digitValue (radix : Nat) (c : Char) : Option Nat :=
  let n := c.toNat
  let v : Option Nat :=
    if 48 ≤ n ∧ n ≤ 57 then some (n - 48)
    else if 97 ≤ n ∧ n ≤ 122 then some (n - 87)
    else if 65 ≤ n ∧ n ≤ 90 then some (n - 55)
    else none
  v.bind fun d => if d < radix then some d else none

/-- The longest prefix of `s` made of digits of the radix, as digit values. -/
def takeDigits (radix : Nat) : Str → List Nat
  | [] => []
  | c :: cs =>
    match digitValue radix c with
    | some d => d :: takeDigits radix cs
    | none => []

/-- The number a list of digit values denotes, most significant digit first. -/
def digitsValue (radix : Nat) (ds : List Nat) : Nat :=
  ds.foldl (fun acc d => acc * radix + d) 0

/-- A JavaScript number as `parseInt` returns it: `NaN`, an integer-valued
finite double, or an infinity. -/
inductive JSNumber where
  | nan
  | finite (value : Int)
  | infinity (negative : Bool)
  deriving DecidableEq, Repr

/-- The number of low binary digits of `n` that do not fit in the 53-bit
significand of a double: the least `sh` with `n / 2 ^ sh < 2 ^ 53`. The first
argument bounds the number of halvings. -/
def significandShift : Nat → Nat → Nat
  | 0, _ => 0
  | fuel + 1, n => if n < 2 ^ 53 then 0 else significandShift fuel (n / 2) + 1

/-- The integer `n` rounded to 53 significant binary digits, to the nearest
such value and to the one with an even significand when two are equally near
(IEEE 754 round-to-nearest, ties-to-even, with no bound on the exponent). -/
def roundToDouble (n : Nat) : Nat :=
  let sh := significandShift n n
  let q := n / 2 ^ sh
  let r := n % 2 ^ sh
  if 2 ^ sh < 2 * r ∨ (2 ^ sh = 2 * r ∧ q % 2 = 1) then (q + 1) * 2 ^ sh else q * 2 ^ sh

/-- The Number value of the integer `n` with the given sign: the nearest double,
an infinity when rounding reaches `2 ^ 1024`. -/
def numberValue (negative : Bool) (n : Nat) : JSNumber :=
  let v := roundToDouble n
  if 2 ^ 1024 ≤ v then JSNumber.infinity negative
  else JSNumber.finite (if negative then -(v : Int) else (v : Int))

/-- The call `parseInt(s)` with no radix argument: leading white space is skipped, an
optional sign and an optional `0x`/`0X` are read, then the longest run of
digits; the result is `NaN` when no digit was found, else the Number value of
the integer the digits denote. -/
def parseInt (s : Str) : JSNumber :=
  let s1 := s.dropWhile isWhiteSpace
  let negative := s1.head? == some '-'
  let s2 := if s1.head? == some '-' || s1.head? == some '+' then s1.tail else s1
  let hex := s2.take 2 == ['0', 'x'] || s2.take 2 == ['0', 'X']
  let radix := if hex then 16 else 10
  let s3 := if hex then s2.drop 2 else s2
  let z := takeDigits radix s3
  if z.isEmpty then JSNumber.nan
  else numberValue negative (digitsValue radix z)

/-- The call `s.trim()`: white space removed from both ends. -/
def trim (s : Str) : Str :=
  (s.dropWhile isWhiteSpace).rdropWhile isWhiteSpace

/-- The call `s.split(/\s+/)`: the pieces between the maximal runs of white space.
`inRun` tells that the previous character was white space. -/
def splitWhiteSpaceAux (inRun : Bool) : Str → List Str
  | [] => [[]]
  | c :: cs =>
    if isWhiteSpace c then
      if inRun then splitWhiteSpaceAux true cs else [] :: splitWhiteSpaceAux true cs
    else
      match splitWhiteSpaceAux false cs with
      | [] => [[c]]
      | piece :: pieces => (c :: piece) :: pieces

/-- The call `s.split(/\s+/)`. -/
def splitWhiteSpace (s : Str) : List Str := splitWhiteSpaceAux false s

/-! ## The data model -/

/-- A job document as the filter reads it (`jobs/{id}`). -/
structure Job where
  id : Str
  title : Option Str
  description : Option Str
  company : Option Str
  location : Option Str
  skills : Option Str
  category : Option Str
  type : Option Str
  experience : Option Str
  education : Option Str
  benefits : Option Str
  salary : Option Int
  remote : Option Bool
  deriving DecidableEq, Repr

/-- The state `filterSalaryRange`: the two bounds as typed, `''` when unset. -/
structure SalaryRange where
  min : Str
  max : Str
  deriving DecidableEq, Repr

/-- The filter state of the `JobListings` component (lines 11-22). -/
structure Criteria where
  searchTerm : Str
  filterCategory : Str
  filterType : Str
  filterRemote : Bool
  filterEducation : Str
  filterSalaryRange : SalaryRange
  filterExperience : Str
  filterLocation : Str
  filterSkills : Str
  deriving DecidableEq, Repr

/-- The initial state, which `Clear All Filters` restores. -/
def defaultCriteria : Criteria :=
  { searchTerm := []
    filterCategory := "all".toList
    filterType := "all".toList
    filterRemote := false
    filterEducation := "all".toList
    filterSalaryRange := { min := [], max := [] }
    filterExperience := "all".toList
    filterLocation := "all".toList
    filterSkills := "all".toList }

/-! ## The filter (lines 118-153) -/

/-- The ten searchable fields, each `field?.toLowerCase() || ''`. -/
def searchFields (job : Job) : List Str :=
  [job.title, job.description, job.company, job.location, job.skills,
   job.category, job.type, job.experience, job.education, job.benefits].map
    fun field => (field.map toLowerCase).getD []

/-- The tokens `searchTerm.toLowerCase().split(' ')`. -/
def searchTerms (c : Criteria) : List Str :=
  split ' ' (toLowerCase c.searchTerm)

/-- The test `searchTerms.every(term => searchFields.some(field => field.includes(term)))`. -/
def matchesSearch (c : Criteria) (job : Job) : Bool :=
  (searchTerms c).all fun term => (searchFields job).any fun field => includes field term

/-- The test `filterCategory === 'all' || job.category === filterCategory`. -/
def matchesCategory (c : Criteria) (job : Job) : Bool :=
  c.filterCategory == "all".toList || job.category == some c.filterCategory

/-- The test `filterType === 'all' || job.type === filterType`. -/
def matchesType (c : Criteria) (job : Job) : Bool :=
  c.filterType == "all".toList || job.type == some c.filterType

/-- The test `!filterRemote || job.remote === true`. -/
def matchesRemote (c : Criteria) (job : Job) : Bool :=
  !c.filterRemote || job.remote == some true

/-- The test `filterEducation === 'all' || job.education?.toLowerCase() === filterEducation`. -/
def matchesEducation (c : Criteria) (job : Job) : Bool :=
  c.filterEducation == "all".toList ||
    job.education.map toLowerCase == some c.filterEducation

/-- The comparison `job.salary >= bound` for a parsed bound; false when the salary is
missing (`undefined`) or the bound is `NaN`. -/
def salaryGe (salary : Option Int) (bound : JSNumber) : Bool :=
  match salary, bound with
  | some x, JSNumber.finite b => decide (b ≤ x)
  | some _, JSNumber.infinity negative => negative
  | _, _ => false

/-- The comparison `job.salary <= bound` for a parsed bound; false when the salary is
missing (`undefined`) or the bound is `NaN`. -/
def salaryLe (salary : Option Int) (bound : JSNumber) : Bool :=
  match salary, bound with
  | some x, JSNumber.finite b => decide (x ≤ b)
  | some _, JSNumber.infinity negative => !negative
  | _, _ => false

/-- The salary range test:
`(!min || job.salary >= parseInt(min)) && (!max || job.salary <= parseInt(max))`. -/
def matchesSalary (c : Criteria) (job : Job) : Bool :=
  (c.filterSalaryRange.min.isEmpty || salaryGe job.salary (parseInt c.filterSalaryRange.min)) &&
  (c.filterSalaryRange.max.isEmpty || salaryLe job.salary (parseInt c.filterSalaryRange.max))

/-- The callback of `jobs.filter`: the conjunction returned at lines 151-152. -/
def keeps (c : Criteria) (job : Job) : Bool :=
  matchesSearch c job && matchesCategory c job && matchesType c job &&
    matchesRemote c job && matchesEducation c job && matchesSalary c job

/-- The list `filteredJobs = jobs.filter(job => ...)`. -/
def filteredJobs (jobs : List Job) (c : Criteria) : List Job :=
  jobs.filter (keeps c)

/-! ## Auxiliary definitions used to state the properties -/

/-- The tokens of a search string as the specification words them: the
lower-cased string is trimmed and split on white space. -/
def specSearchTokens (searchTerm : Str) : List Str :=
  splitWhiteSpace (trim (toLowerCase searchTerm))

/-- The text search as the specification words it: every token of
`specSearchTokens` occurs in at least one of the ten lower-cased fields. -/
def specMatchesSearch (c : Criteria) (job : Job) : Bool :=
  (specSearchTokens c.searchTerm).all fun term =>
    (searchFields job).any fun field => includes field term

/-- The decimal numeral of a natural number, most significant digit first. -/
def decimalNat (n : Nat) : Str :=
  if n = 0 then ['0'] else (Nat.digits 10 n).reverse.map Nat.digitChar

/-- The decimal numeral of an integer, with a leading `-` when negative. -/
def decimalString : Int → Str
  | Int.ofNat n => decimalNat n
  | Int.negSucc n => '-' :: decimalNat (n + 1)

/-- The text of a salary bound input: `''` when unset, else the numeral. -/
def boundString : Option Int → Str
  | none => []
  | some n => decimalString n

/-- The criteria `c` with the salary range replaced. -/
def withSalaryRange (c : Criteria) (min max : Str) : Criteria :=
  { c with filterSalaryRange := { min := min, max := max } }

/-- The default criteria with only the salary range set. -/
def salaryCriteria (min max : Str) : Criteria :=
  withSalaryRange defaultCriteria min max

/-- A job document with every optional field absent. -/
def emptyJob : Job :=
  { id := "job-1".toList
    title := none, description := none, company := none, location := none
    skills := none, category := none, type := none, experience := none
    education := none, benefits := none, salary := none, remote := none }

/-- A job whose only field is its title, `Senior React Developer`. -/
def seniorReactJob : Job :=
  { emptyJob with title := some "Senior React Developer".toList }

/-- The default criteria with the search string `senior react`. -/
def seniorReactCriteria : Criteria :=
  { defaultCriteria with searchTerm := "senior react".toList }

/-- A job whose only field is its title, `a b`. -/
def tabJob : Job :=
  { emptyJob with title := some "a b".toList }

/-- The default criteria with the search string `a`, TAB, `b`. -/
def tabCriteria : Criteria :=
  { defaultCriteria with searchTerm := ['a', Char.ofNat 9, 'b'] }

/-- A job whose only field is its education, `PhD`. -/
def phdJob : Job :=
  { emptyJob with education := some "PhD".toList }

/-- A job whose only field is its education, `phd`. -/
def phdLowerJob : Job :=
  { emptyJob with education := some "phd".toList }

/-- The default criteria with the education filter `PhD`. -/
def phdCriteria : Criteria :=
  { defaultCriteria with filterEducation := "PhD".toList }

/-- The default criteria with the education filter `phd`, the value the
select offers for the level `PhD`. -/
def phdLowerCriteria : Criteria :=
  { defaultCriteria with filterEducation := "phd".toList }

/-- The default criteria with the location select set to `London`. -/
def londonCriteria : Criteria :=
  { defaultCriteria with filterLocation := "London".toList }

/-- A job whose only field is its salary, 50000. -/
def salariedJob : Job :=
  { emptyJob with salary := some 50000 }

/-! ## The error hub of `GlobalErrorHandler.js`

The object `ErrorUtils` (lines 187-354) is embedded as functions on a `World`:
the five fields of `ErrorUtils` together with the parts of the browser it reads
and writes. Time is explicit: `Date.now()` is the argument `now`, and a
`setTimeout` call adds a `Timer` that `advance` runs once its delay has
elapsed. A thrown exception is the flag `threw` of an `Outcome`. -/

namespace ErrorTypes

/-- The constant `ErrorTypes.NETWORK`. -/
def NETWORK : Str := "network".toList

/-- The constant `ErrorTypes.API`. -/
def API : Str := "api".toList

/-- The constant `ErrorTypes.AUTH`. -/
def AUTH : Str := "auth".toList

/-- The constant `ErrorTypes.VALIDATION`. -/
def VALIDATION : Str := "validation".toList

/-- The constant `ErrorTypes.SYSTEM`. -/
def SYSTEM : Str := "system".toList

/-- The constant `ErrorTypes.DATABASE`. -/
def DATABASE : Str := "database".toList

/-- The constant `ErrorTypes.FORM`. -/
def FORM : Str := "form".toList

/-- The constant `ErrorTypes.UPLOAD`. -/
def UPLOAD : Str := "upload".toList

/-- The constant `ErrorTypes.PERMISSION`. -/
def PERMISSION : Str := "permission".toList

/-- The constant `ErrorTypes.TIMEOUT`. -/
def TIMEOUT : Str := "timeout".toList

end ErrorTypes

/-- An error descriptor passed to `handleError`; an absent property is `none`. -/
structure ErrorDescriptor where
  type : Option Str
  status : Option Int
  message : Option Str
  endpoint : Option Str
  duration : Option Int
  deriving DecidableEq, Repr

/-- The record `errorInfo` that `logError` stores (lines 335-342). -/
structure ErrorInfo where
  type : Option Str
  message : Option Str
  status : Option Int
  timestamp : Int
  url : Str
  userAgent : Str
  deriving DecidableEq, Repr

/-- A subscriber callback: its identity, and whether calling it throws. -/
structure Callback where
  id : Nat
  throws : Bool
  deriving DecidableEq, Repr

/-- What a pending `setTimeout` callback does when it runs. -/
inductive TimerAction where
  /-- The callback of line 230: `this.isHandlingError = false`. -/
  | resetHandling
  /-- The callback of line 310: start the slide-out and schedule the removal. -/
  | fadeOut (message : Str)
  /-- The callback of line 312: `this.activeNotifications.delete(message)`. -/
  | remove (message : Str)
  deriving DecidableEq, Repr

/-- A pending `setTimeout` callback and the time from which it may run. -/
structure Timer where
  due : Int
  action : TimerAction
  deriving DecidableEq, Repr

/-- The state of `ErrorUtils` and of the browser around it. The sets
`activeNotifications` and `subscribers` are duplicate-free lists in insertion
order; `shown` lists the calls of `showNotification` and `delivered` the calls
of subscriber callbacks, oldest first. -/
structure World where
  isHandlingError : Bool
  lastErrorTimestamp : Int
  activeNotifications : List Str
  errorLog : List ErrorInfo
  subscribers : List Callback
  onLine : Bool
  location : Str
  sessionStorage : List (Str × Str)
  storageThrows : Bool
  userAgent : Str
  shown : List (Str × Str)
  delivered : List (Callback × Option ErrorDescriptor)
  timers : List Timer
  deriving DecidableEq, Repr

/-- The result of a call: the state it leaves and whether it threw. -/
structure Outcome where
  world : World
  threw : Bool
  deriving DecidableEq, Repr

/-- The state when the module has just been loaded (lines 188-192), on line,
at the path `/`. -/
def initialWorld : World :=
  { isHandlingError := false
    lastErrorTimestamp := 0
    activeNotifications := []
    errorLog := []
    subscribers := []
    onLine := true
    location := "/".toList
    sessionStorage := []
    storageThrows := false
    userAgent := []
    shown := []
    delivered := []
    timers := [] }

/-- The expression `value || fallback` for an optional string: the fallback is
taken when the value is absent or empty. -/
def orElse (value : Option Str) (fallback : Str) : Str :=
  match value with
  | some s => if s.isEmpty then fallback else s
  | none => fallback

/-- The method `Set.prototype.add` on a duplicate-free list. -/
def setAdd {α : Type} [DecidableEq α] (s : List α) (a : α) : List α :=
  if a ∈ s then s else s ++ [a]

/-- The method `Set.prototype.delete` on a duplicate-free list. -/
def setDelete {α : Type} [DecidableEq α] (s : List α) (a : α) : List α :=
  s.filter fun b => b ≠ a

/-- The call `sessionStorage.setItem(key, value)`. -/
def setItem (store : List (Str × Str)) (key value : Str) : List (Str × Str) :=
  (store.filter fun kv => kv.1 ≠ key) ++ [(key, value)]

/-- The call `sessionStorage.getItem(key)`. -/
def getItem (store : List (Str × Str)) (key : Str) : Option Str :=
  (store.find? fun kv => kv.1 = key).map fun kv => kv.2

/-- The method `subscribeToErrors` (lines 194-197): the new state and the
function it returns. -/
def subscribeToErrors (w : World) (callback : Callback) : World × (World → World) :=
  ({ w with subscribers := setAdd w.subscribers callback },
   fun w2 => { w2 with subscribers := setDelete w2.subscribers callback })

/-- The method `unsubscribeFromErrors` (lines 199-201). -/
def unsubscribeFromErrors (w : World) (callback : Callback) : World :=
  { w with subscribers := setDelete w.subscribers callback }

/-- The method `getErrorMessage` (lines 236-271); `none` is a null or
undefined argument. -/
def getErrorMessage (onLine : Bool) (error : Option ErrorDescriptor) : Str :=
  match error with
  | none => "An unexpected error occurred".toList
  | some e =>
    if !onLine then "Network error: Please check your internet connection".toList
    else if e.type = some ErrorTypes.API then
      if e.status = some 400 then "Invalid request. Please check your input.".toList
      else if e.status = some 401 then "Your session has expired. Please log in again.".toList
      else if e.status = some 403 then
        "You don't have permission to perform this action.".toList
      else if e.status = some 404 then "The requested resource was not found.".toList
      else if e.status = some 429 then "Too many requests. Please try again later.".toList
      else if e.status = some 500 then "Server error. Our team has been notified.".toList
      else
        "Server error: ".toList ++
          (match e.status with
           | none => "Unknown".toList
           | some n => if n = 0 then "Unknown".toList else decimalString n)
    else if e.type = some ErrorTypes.NETWORK then
      "Network error: Unable to connect to the server".toList
    else if e.type = some ErrorTypes.AUTH then
      "Authentication required. Please log in.".toList
    else if e.type = some ErrorTypes.VALIDATION then
      orElse e.message "Please check your input and try again".toList
    else if e.type = some ErrorTypes.FORM then
      "Please fill in all required fields correctly".toList
    else if e.type = some ErrorTypes.UPLOAD then
      orElse e.message "File upload failed".toList
    else if e.type = some ErrorTypes.TIMEOUT then
      "Request timed out. Please try again".toList
    else if e.type = some ErrorTypes.PERMISSION then
      "You don't have permission to perform this action".toList
    else orElse e.message "An unexpected error occurred".toList

/-- The method `handleErrorAction` (lines 273-284). Writing to `sessionStorage`
throws when `storageThrows` is set. -/
def handleErrorAction (w : World) (error : ErrorDescriptor) : Outcome :=
  if error.type = some ErrorTypes.AUTH then
    if w.storageThrows then { world := w, threw := true }
    else
      { world :=
          { w with
            sessionStorage := setItem w.sessionStorage "redirectPath".toList w.location
            location := "/login".toList }
        threw := false }
  else if error.type = some ErrorTypes.PERMISSION then
    { world := { w with location := "/unauthorized".toList }, threw := false }
  else { world := w, threw := false }

/-- The method `showNotification` (lines 286-317), called at time `now`: the
notification is displayed and the timer of line 310 is set. An omitted or
undefined `type` is `'error'`. -/
def showNotification (w : World) (now : Int) (message : Str) (type : Option Str) : World :=
  { w with
    shown := w.shown ++ [(message, type.getD "error".toList)]
    timers := w.timers ++ [{ due := now + 5000, action := TimerAction.fadeOut message }] }

/-- The method `logError` (lines 334-345), called at time `now`. -/
def logError (w : World) (now : Int) (error : ErrorDescriptor) : World :=
  let errorInfo : ErrorInfo :=
    { type := error.type
      message := error.message
      status := error.status
      timestamp := now
      url := w.location
      userAgent := w.userAgent }
  let unshifted := errorInfo :: w.errorLog
  { w with errorLog := if unshifted.length > 100 then unshifted.dropLast else unshifted }

/-- The loop `this.subscribers.forEach(...)` (lines 220-226): every subscriber
is called with the original argument; what it throws is caught. -/
def notifySubscribers (w : World) (error : Option ErrorDescriptor) : World :=
  { w with delivered := w.delivered ++ w.subscribers.map fun callback => (callback, error) }

/-- The `try` block of `handleError` (lines 213-228). For a null argument the
property access `error.type` throws. -/
def handleErrorBody (w : World) (now : Int) (error : Option ErrorDescriptor) : Outcome :=
  let message := getErrorMessage w.onLine error
  match error with
  | none =>
    if message ∈ w.activeNotifications then
      { world := notifySubscribers w none, threw := true }
    else
      { world := { w with activeNotifications := setAdd w.activeNotifications message }
        threw := true }
  | some e =>
    let w2 :=
      if message ∈ w.activeNotifications then w
      else
        logError
          (showNotification
            { w with activeNotifications := setAdd w.activeNotifications message }
            now message e.type)
          now { e with message := some message }
    handleErrorAction (notifySubscribers w2 (some e)) e

/-- The method `handleError` (lines 203-234), called at time `now`. -/
def handleError (w : World) (now : Int) (error : Option ErrorDescriptor) : Outcome :=
  if w.isHandlingError || decide (now - w.lastErrorTimestamp < 100) then
    { world := w, threw := false }
  else
    let body := handleErrorBody { w with isHandlingError := true, lastErrorTimestamp := now }
      now error
    { world :=
        { body.world with
          timers := body.world.timers ++
            [{ due := now + 100, action := TimerAction.resetHandling }] }
      threw := body.threw }

/-- Running the callback of a timer. A `fadeOut` callback sets the removal
timer 500 ms after its own due time. -/
def fire (w : World) (timer : Timer) : World :=
  match timer.action with
  | TimerAction.resetHandling => { w with isHandlingError := false }
  | TimerAction.fadeOut message =>
    { w with timers := w.timers ++ [{ due := timer.due + 500, action := TimerAction.remove message }] }
  | TimerAction.remove message =>
    { w with activeNotifications := setDelete w.activeNotifications message }

/-- One pass of the event loop at time `t`: every pending timer that is due
runs, in the order in which it was set. -/
def fireDue (w : World) (t : Int) : World :=
  (w.timers.filter fun timer => decide (timer.due ≤ t)).foldl fire
    { w with timers := w.timers.filter fun timer => !decide (timer.due ≤ t) }

/-- The state at time `t` once every timer due by then has run: two passes,
the second for the removals that the first pass scheduled. -/
def advance (w : World) (t : Int) : World :=
  fireDue (fireDue w t) t

/-- An operation on the hub, for the reachable states. -/
inductive Op where
  | handleError (now : Int) (error : Option ErrorDescriptor)
  | logError (now : Int) (error : ErrorDescriptor)
  | showNotification (now : Int) (message : Str) (type : Option Str)
  | subscribe (callback : Callback)
  | unsubscribe (callback : Callback)
  | advance (t : Int)
  | setOnLine (onLine : Bool)

/-- The state after one operation. -/
def applyOp (w : World) : Op → World
  | Op.handleError now error => (handleError w now error).world
  | Op.logError now error => logError w now error
  | Op.showNotification now message type => showNotification w now message type
  | Op.subscribe callback => (subscribeToErrors w callback).1
  | Op.unsubscribe callback => unsubscribeFromErrors w callback
  | Op.advance t => advance w t
  | Op.setOnLine onLine => { w with onLine := onLine }

/-- The state after a sequence of operations. -/
def run (w : World) (ops : List Op) : World :=
  ops.foldl applyOp w

/-- The report `{ type: 'network' }`. -/
def networkError : ErrorDescriptor :=
  { type := some ErrorTypes.NETWORK, status := none, message := none,
    endpoint := none, duration := none }

/-- The report `{ type: 'api', status }`. -/
def apiError (status : Option Int) : ErrorDescriptor :=
  { type := some ErrorTypes.API, status := status, message := none,
    endpoint := none, duration := none }

/-- The descriptor `error` with its type set to `'api'` and the given status. -/
def withApiStatus (error : ErrorDescriptor) (status : Option Int) : ErrorDescriptor :=
  { error with type := some ErrorTypes.API, status := status }

/-- The descriptor `error` with its type set to `'auth'`. -/
def withAuthType (error : ErrorDescriptor) : ErrorDescriptor :=
  { error with type := some ErrorTypes.AUTH }

/-- The state at time `now` after the report `call.2` made at time `call.1`,
the timers due by then having run first. -/
def report (w : World) (call : Int × ErrorDescriptor) : World :=
  (handleError (advance w call.1) call.1 (some call.2)).world

/-- The state after a sequence of reports. -/
def reportAll (w : World) (calls : List (Int × ErrorDescriptor)) : World :=
  calls.foldl report w

/-- The function returned by `subscribeToErrors(callback)` called in the state
`w`, applied in the state `w2`. -/
def cancel (w : World) (callback : Callback) (w2 : World) : World :=
  (subscribeToErrors w callback).2 w2

/-- The state after `subscribeToErrors(first)` and then
`subscribeToErrors(second)`. -/
def subscribeBoth (w : World) (first second : Callback) : World :=
  (subscribeToErrors (subscribeToErrors w first).1 second).1

/-- A subscriber callback that returns normally. -/
def callbackA : Callback := { id := 1, throws := false }

/-- Another subscriber callback that returns normally. -/
def callbackB : Callback := { id := 2, throws := false }

/-- The initial state with `callbackA` and `callbackB` subscribed. -/
def twoSubscribers : World :=
  { initialWorld with subscribers := [callbackA, callbackB] }

/-- The message of a `network` error while on line. -/
def networkMessage : Str := "Network error: Unable to connect to the server".toList

/-- The record that `logError` stores for a `network` report at time `now`. -/
def networkInfo (w : World) (now : Int) : ErrorInfo :=
  { type := some ErrorTypes.NETWORK
    message := some networkMessage
    status := none
    timestamp := now
    url := w.location
    userAgent := w.userAgent }

/-- The state after a `network` report made at time `t1` in the state `w`. -/
def firstReport (w : World) (t1 : Int) : World :=
  (handleError w t1 (some networkError)).world

/-- The state after a second `network` report made at time `t2`, the timers
due by then having run. -/
def secondReport (w : World) (t1 t2 : Int) : World :=
  (handleError (advance (firstReport w t1) t2) t2 (some networkError)).world

/-- The type, message, status and time of a log record. -/
def summary (info : ErrorInfo) : Option Str × Option Str × Option Int × Int :=
  (info.type, info.message, info.status, info.timestamp)

/-- The type, message, status and time that the record of a report made on
line is expected to hold: the message is the one `getErrorMessage` computes. -/
def expectedSummary (call : Int × ErrorDescriptor) :
    Option Str × Option Str × Option Int × Int :=
  (call.2.type, some (getErrorMessage true (some call.2)), call.2.status, call.1)

/-- Two reports with different messages, 1000 ms apart. -/
def twoCalls : List (Int × ErrorDescriptor) :=
  [(1000, networkError), (2000, apiError (some 404))]

/-- The invariant kept by a sequence of reports made on line: the flag, when
set, has its reset timer due within 100 ms of the last accepted report; every
active message is one of `msgs`; the log holds the first 100 of `recs`. -/
def ReportInvariant (w : World) (msgs : List Str)
    (recs : List (Option Str × Option Str × Option Int × Int)) : Prop :=
  w.onLine = true ∧
  (w.isHandlingError = true →
    ∃ timer ∈ w.timers, timer.action = TimerAction.resetHandling ∧
      timer.due ≤ w.lastErrorTimestamp + 100) ∧
  (∀ m ∈ w.activeNotifications, m ∈ msgs) ∧
  w.errorLog.map summary = recs.take 100

/-! ## The subscriber loop, one callback at a time -/

/-- The call `callback(error)`: it is recorded, and it throws when the
callback is one that throws. -/
def callSubscriber (w : World) (callback : Callback) (error : Option ErrorDescriptor) :
    Outcome :=
  { world := { w with delivered := w.delivered ++ [(callback, error)] }
    threw := callback.throws }

/-- The body of the `forEach` callback (lines 221-225): the call inside
`try`/`catch`, so nothing is thrown out of it. -/
def callSubscriberCaught (w : World) (callback : Callback)
    (error : Option ErrorDescriptor) : Outcome :=
  { world := (callSubscriber w callback error).world, threw := false }

/-- The loop `this.subscribers.forEach(...)` run callback by callback; it
stops at the first iteration that throws. -/
def forEachSubscriber (w : World) (error : Option ErrorDescriptor) : Outcome :=
  w.subscribers.foldl
    (fun o callback => if o.threw then o else callSubscriberCaught o.world callback error)
    { world := w, threw := false }

/-- A subscriber callback that throws. -/
def throwingCallback : Callback := { id := 3, throws := true }

/-- The initial state with a throwing callback subscribed before `callbackB`. -/
def throwingSubscribers : World :=
  { initialWorld with subscribers := [throwingCallback, callbackB] }

/-- The initial state in which writing to `sessionStorage` throws. -/
def storageFailing : World :=
  { initialWorld with storageThrows := true }

/-- The message every report gets while the browser is off line. -/
def offlineMessage : Str := "Network error: Please check your internet connection".toList

/-- The initial state with the browser off line. -/
def offlineWorld : World :=
  { initialWorld with onLine := false }

/-! ## The interceptors installed by `initializeErrorTracking` (lines 72-184)

A wrapper reports to the hub by calling `handleError`; the calls it makes are
recorded, oldest first, in a list `reported` next to the state of the hub.
How a request settles is given from outside: `Settled` says whether the
promise resolves or rejects and after how many milliseconds. -/

/-- How a promise settles: it resolves with a response (its `ok` flag and
status), or rejects with an error (its message), after `elapsed` ms, or never
settles. -/
inductive Settled where
  | resolved (ok : Bool) (status : Int) (elapsed : Int)
  | rejected (message : Str) (elapsed : Int)
  | pending
  deriving DecidableEq, Repr

/-- The state of the hub and the `handleError` calls a wrapper has made. -/
structure Monitored where
  world : World
  reported : List ErrorDescriptor
  deriving DecidableEq, Repr

/-- The result of a call of `window.fetch`: the state, the `handleError` calls
made, and how the returned promise settles. -/
structure FetchOutcome where
  world : World
  reported : List ErrorDescriptor
  settled : Settled
  deriving DecidableEq, Repr

/-- A `fetch` function: from the state, the start time, the endpoint and the
behaviour of the network for this request. -/
abbrev Fetch := World → Int → Str → Settled → FetchOutcome

/-- The browser's own `fetch`: it reports nothing. -/
def originalFetch : Fetch :=
  fun w _ _ network => { world := w, reported := [], settled := network }

/-- The race of lines 78-83 between a promise and the 30000 ms timer, which
rejects with `Error('Request timeout')`; the promise wins when it settles
before the timer is due. -/
def raceTimeout (s : Settled) : Settled :=
  match s with
  | Settled.resolved ok status elapsed =>
    if elapsed < 30000 then Settled.resolved ok status elapsed
    else Settled.rejected "Request timeout".toList 30000
  | Settled.rejected message elapsed =>
    if elapsed < 30000 then Settled.rejected message elapsed
    else Settled.rejected "Request timeout".toList 30000
  | Settled.pending => Settled.rejected "Request timeout".toList 30000

/-- The descriptor of lines 86-92 for a response that is not ok. -/
def apiFailure (status : Int) (endpoint : Str) (duration : Int) : ErrorDescriptor :=
  { type := some ErrorTypes.API
    status := some status
    message := some ("API Error: ".toList ++ decimalString status)
    endpoint := some endpoint
    duration := some duration }

/-- The descriptor of lines 98-103 for a rejection with the given message. -/
def fetchFailure (message : Str) (endpoint : Str) (duration : Int) : ErrorDescriptor :=
  { type := some (if message = "Request timeout".toList then ErrorTypes.TIMEOUT
      else ErrorTypes.NETWORK)
    status := none
    message := some (if message = "Request timeout".toList then "Request timed out".toList
      else "Network request failed".toList)
    endpoint := some endpoint
    duration := some duration }

/-- The function assigned to `window.fetch` at line 75, around the previous
`window.fetch`. The wrapper returns the response or rethrows the error. -/
def fetchWrapper (inner : Fetch) : Fetch :=
  fun w startTime endpoint network =>
    let r := inner w startTime endpoint network
    match raceTimeout r.settled with
    | Settled.resolved ok status elapsed =>
      if !ok then
        { world := (handleError r.world (startTime + elapsed)
            (some (apiFailure status endpoint elapsed))).world
          reported := r.reported ++ [apiFailure status endpoint elapsed]
          settled := Settled.resolved ok status elapsed }
      else { world := r.world, reported := r.reported, settled := Settled.resolved ok status elapsed }
    | Settled.rejected message elapsed =>
      { world := (handleError r.world (startTime + elapsed)
          (some (fetchFailure message endpoint elapsed))).world
        reported := r.reported ++ [fetchFailure message endpoint elapsed]
        settled := Settled.rejected message elapsed }
    | Settled.pending => { world := r.world, reported := r.reported, settled := Settled.pending }

/-- The browser's `fetch` wrapped the given number of times. -/
def wrapTimes : Nat → Fetch
  | 0 => originalFetch
  | n + 1 => fetchWrapper (wrapTimes n)

/-- What is installed on `window` and `document`: how many wrappers surround
the browser's `fetch` and `XMLHttpRequest`, and how many listeners are
registered for each event. -/
structure Interceptors where
  fetchLayers : Nat
  xhrLayers : Nat
  onlineListeners : Nat
  offlineListeners : Nat
  submitListeners : Nat
  changeListeners : Nat
  deriving DecidableEq, Repr

/-- The page before the module is loaded. -/
def pristine : Interceptors :=
  { fetchLayers := 0, xhrLayers := 0, onlineListeners := 0, offlineListeners := 0,
    submitListeners := 0, changeListeners := 0 }

/-- The function `initializeErrorTracking` (lines 72-184): it wraps the current
`window.fetch` and `window.XMLHttpRequest` and registers four listeners. -/
def initializeErrorTracking (i : Interceptors) : Interceptors :=
  { fetchLayers := i.fetchLayers + 1
    xhrLayers := i.xhrLayers + 1
    onlineListeners := i.onlineListeners + 1
    offlineListeners := i.offlineListeners + 1
    submitListeners := i.submitListeners + 1
    changeListeners := i.changeListeners + 1 }

/-- The function `window.fetch` as installed. -/
def windowFetch (i : Interceptors) : Fetch := wrapTimes i.fetchLayers

/-- The descriptor that the `load` listener of lines 131-143 reports, if any. -/
def xhrLoadReport (status : Int) (statusText : Str) (duration : Int) :
    Option ErrorDescriptor :=
  if status ≥ 400 then
    some
      { type := some (if status = 401 then ErrorTypes.AUTH else ErrorTypes.API)
        status := some status
        message := some (orElse (some statusText) ("HTTP Error: ".toList ++ decimalString status))
        endpoint := none
        duration := some duration }
  else none

/-- The `load` listener of lines 131-143, run at time `now`. -/
def xhrOnLoad (m : Monitored) (now : Int) (status : Int) (statusText : Str)
    (duration : Int) : Monitored :=
  match xhrLoadReport status statusText duration with
  | none => m
  | some error =>
    { world := (handleError m.world now (some error)).world
      reported := m.reported ++ [error] }

/-- The events `online` and `offline` of `window`. -/
inductive ConnectivityEvent where
  | online
  | offline
  deriving DecidableEq, Repr

/-- The state of the hub, the variable `wasOffline` of line 109 and the
`handleError` calls the listeners have made. -/
structure Connectivity where
  world : World
  wasOffline : Bool
  reported : List ErrorDescriptor
  deriving DecidableEq, Repr

/-- The descriptor of lines 119-122. -/
def connectionLost : ErrorDescriptor :=
  { type := some ErrorTypes.NETWORK
    status := none
    message := some "Network connection lost".toList
    endpoint := none
    duration := none }

/-- The notification of line 112. -/
def connectionRestored : Str × Str := ("Connection restored".toList, "success".toList)

/-- The state when the listeners are registered: `wasOffline = !navigator.onLine`. -/
def startMonitoring (w : World) : Connectivity :=
  { world := w, wasOffline := !w.onLine, reported := [] }

/-- The `online` listener (lines 110-115), run at time `now`. -/
def onOnline (c : Connectivity) (now : Int) : Connectivity :=
  if c.wasOffline then
    { c with
      world := showNotification c.world now connectionRestored.1 (some connectionRestored.2)
      wasOffline := false }
  else c

/-- The `offline` listener (lines 117-123), run at time `now`. -/
def onOffline (c : Connectivity) (now : Int) : Connectivity :=
  { world := (handleError c.world now (some connectionLost)).world
    wasOffline := true
    reported := c.reported ++ [connectionLost] }

/-- An event at a time: the timers due by then have run, the browser updates
`navigator.onLine`, then the listener runs. -/
def dispatch (c : Connectivity) (event : Int × ConnectivityEvent) : Connectivity :=
  match event.2 with
  | ConnectivityEvent.online =>
    onOnline { c with world := { advance c.world event.1 with onLine := true } } event.1
  | ConnectivityEvent.offline =>
    onOffline { c with world := { advance c.world event.1 with onLine := false } } event.1

/-- The state after a sequence of connectivity events. -/
def dispatchAll (c : Connectivity) (events : List (Int × ConnectivityEvent)) : Connectivity :=
  events.foldl dispatch c

/-- The number of `Connection restored` notifications shown so far. -/
def successCount (w : World) : Nat :=
  (w.shown.filter fun shown => decide (shown = connectionRestored)).length

/-- The number of offline-then-online transitions of a sequence of events that
starts in the given connectivity state: the `online` events that directly
follow an `offline` event, or that come first when the start is off line. -/
def transitions : Bool → List ConnectivityEvent → Nat
  | _, [] => 0
  | offline, ConnectivityEvent.online :: rest =>
    (if offline then 1 else 0) + transitions false rest
  | _, ConnectivityEvent.offline :: rest => transitions true rest

/-- The interceptors once the module has been loaded: line 357 runs
`initializeErrorTracking` once. -/
def loaded : Interceptors := initializeErrorTracking pristine

/-- The endpoint of the example requests. -/
def jobsEndpoint : Str := "/api/jobs".toList

/-! ## The route guard of `ProtectedRoute.js` -/

/-- What `ProtectedRoute` returns. -/
inductive View where
  /-- The spinner of lines 10-15. -/
  | loading
  /-- The panel `Authentication Error` of lines 19-27, with the error text. -/
  | authError (message : Str)
  /-- The element `<Navigate to="/login" ... replace />` of line 31. -/
  | redirectLogin
  /-- The panel `Access Denied` of lines 39-47. -/
  | accessDenied
  /-- The protected children. -/
  | children
  deriving DecidableEq, Repr

/-- The truth value of an optional string in a condition: absent (null,
undefined) and the empty string are false. -/
def truthy (value : Option Str) : Bool :=
  match value with
  | some (_ :: _) => true
  | _ => false

/-- The component `ProtectedRoute` (lines 5-51) as a function of the values it
reads from `useAuth()` and of its property `requiredRole`; `currentUser` is the
user's id, or `none` for `null`. -/
def ProtectedRoute (loading : Bool) (error : Option Str) (currentUser : Option Str)
    (userRole : Option Str) (requiredRole : Option Str) : View :=
  if loading then View.loading
  else if truthy error then View.authError (error.getD [])
  else if currentUser.isNone then View.redirectLogin
  else if userRole = some "admin".toList then View.children
  else if truthy requiredRole && decide (userRole ≠ requiredRole) then View.accessDenied
  else View.children

/-! ## The form of `JobPostForm.js` -/

/-- The state `formData` (lines 10-24); a missing property is `none`. -/
structure JobForm where
  title : Option Str
  description : Option Str
  salary : Option Str
  category : Option Str
  company : Option Str
  location : Option Str
  type : Option Str
  experience : Option Str
  skills : Option Str
  benefits : Option Str
  deadline : Option Str
  remote : Bool
  education : Option Str
  deriving DecidableEq, Repr

/-- The test `!formData[field]?.trim()`: the value is missing or blank. -/
def isBlank (value : Option Str) : Bool :=
  match value with
  | some s => (trim s).isEmpty
  | none => true

/-- The class `\d` of a regular expression: the digits `0` to `9`. -/
def isDecimalDigit (c : Char) : Bool :=
  decide (48 ≤ c.toNat) && decide (c.toNat ≤ 57)

/-- The test `/^\d+$/.test(s)`: one or more digits and nothing else. -/
def isDigitString (s : Str) : Bool :=
  !s.isEmpty && s.all isDecimalDigit

/-- The text `field.charAt(0).toUpperCase() + field.slice(1)`. -/
def capitalize (field : Str) : Str :=
  match field with
  | [] => []
  | c :: cs => c.toUpper :: cs

/-- The array `requiredFields` (lines 61-70), each name with its value. -/
def requiredFields (form : JobForm) : List (Str × Option Str) :=
  [("title".toList, form.title), ("description".toList, form.description),
   ("category".toList, form.category), ("salary".toList, form.salary),
   ("deadline".toList, form.deadline), ("type".toList, form.type),
   ("company".toList, form.company), ("location".toList, form.location)]

/-- The object `newErrors` that `validateForm` builds (lines 60-80). -/
def newErrors (form : JobForm) : List (Str × Str) :=
  let required := (requiredFields form).foldl
    (fun errors field =>
      if isBlank field.2 then setItem errors field.1 (capitalize field.1 ++ " is required".toList)
      else errors)
    []
  if truthy form.salary && !isDigitString (form.salary.getD []) then
    setItem required "salary".toList "Salary must be a valid number".toList
  else required

/-- The function `validateForm` (lines 59-84): its result,
`Object.keys(newErrors).length === 0`. -/
def validateForm (form : JobForm) : Bool :=
  (newErrors form).isEmpty

/-- The document that `handleSubmit` passes to `addDoc` (lines 92-99), without
the dates and the owner. -/
structure PostedJob where
  form : JobForm
  salary : JSNumber
  status : Str
  deriving DecidableEq, Repr

/-- The function `handleSubmit` (lines 86-108): nothing is stored when
`validateForm` fails; otherwise the salary stored is `parseInt(formData.salary)`. -/
def handleSubmit (form : JobForm) : Option PostedJob :=
  if validateForm form then
    some { form := form, salary := parseInt (form.salary.getD []), status := "active".toList }
  else none

/-- The digit values of a string of digits. -/
def digitsOf (s : Str) : List Nat :=
  s.map fun c => c.toNat - 48

/-- A form with every required field filled in and the salary `50000`. -/
def sampleForm : JobForm :=
  { title := some "Engineer".toList
    description := some "Builds things".toList
    salary := some "50000".toList
    category := some "Technology".toList
    company := some "Acme".toList
    location := some "London".toList
    type := some "full-time".toList
    experience := none
    skills := none
    benefits := none
    deadline := some "2026-12-31".toList
    remote := false
    education := none }

/-! ## Normalising the spaces of a search string -/

/-- The string with each run of space characters collapsed to one space. -/
def collapseSpaces : Str → Str
  | [] => []
  | c :: cs =>
    if c = ' ' ∧ cs.head? = some ' ' then collapseSpaces cs else c :: collapseSpaces cs

/-- The string trimmed and with each run of spaces collapsed to one. -/
def normalizeSpaces (s : Str) : Str :=
  collapseSpaces (trim s)

/-- The criteria `c` with the search string replaced. -/
def withSearchTerm (c : Criteria) (s : Str) : Criteria :=
  { c with searchTerm := s }

/-- A search string with leading, repeated and trailing spaces. -/
def paddedSearch : Str := "  senior   react ".toList

/-! ## Theorems -/

/-! ### Facts about the string primitives -/

theorem includes_nil (field : Str) : includes field [] = true := by
  cases field <;> simp [includes]

theorem includes_iff (field term : Str) : includes field term = true ↔ term <:+: field := by
  induction field with
  | nil => simp [includes, List.isEmpty_iff]
  | cons c cs ih =>
    rw [includes, Bool.or_eq_true, ih, List.isPrefixOf_iff_prefix, List.infix_cons_iff]

theorem toNat_toLower (c : Char) :
    (Char.toLower c).toNat =
      if 65 ≤ c.toNat ∧ c.toNat ≤ 90 then c.toNat + 32 else c.toNat := by
  unfold Char.toLower
  simp only [ge_iff_le]
  split_ifs with h
  · obtain ⟨h1, h2⟩ := h
    generalize c.toNat = n at *
    interval_cases n <;> rfl
  · rfl

theorem isWhiteSpace_of_letter (c : Char) (h1 : 65 ≤ c.toNat) (h2 : c.toNat ≤ 122) :
    isWhiteSpace c = false := by
  unfold isWhiteSpace
  simp
  omega

/-- Lower-casing neither creates nor removes white space. -/
theorem isWhiteSpace_toLower (c : Char) : isWhiteSpace (Char.toLower c) = isWhiteSpace c := by
  by_cases h : 65 ≤ c.toNat ∧ c.toNat ≤ 90
  · have hl := toNat_toLower c
    rw [if_pos h] at hl
    rw [isWhiteSpace_of_letter c h.1 (by omega),
      isWhiteSpace_of_letter (Char.toLower c) (by omega) (by omega)]
  · have : Char.toLower c = c := by
      unfold Char.toLower
      simp only [ge_iff_le]
      rw [if_neg h]
    rw [this]

theorem toLower_of_isWhiteSpace (c : Char) (h : isWhiteSpace c = true) : Char.toLower c = c := by
  by_cases hl : 65 ≤ c.toNat ∧ c.toNat ≤ 90
  · rw [isWhiteSpace_of_letter c hl.1 (by omega)] at h
    exact absurd h (by simp)
  · unfold Char.toLower
    simp only [ge_iff_le]
    rw [if_neg hl]

theorem split_ne_nil (sep : Char) (s : Str) : split sep s ≠ [] := by
  cases s with
  | nil => simp [split]
  | cons c cs =>
    unfold split
    split_ifs
    · simp
    · split <;> simp

theorem split_cons_sep (sep : Char) (cs : Str) :
    split sep (sep :: cs) = [] :: split sep cs := by
  simp [split]

theorem split_cons_of_ne (sep c : Char) (cs : Str) (h : c ≠ sep) :
    split sep (c :: cs) = (c :: (split sep cs).headD []) :: (split sep cs).tail := by
  rw [split, if_neg h]
  cases hs : split sep cs with
  | nil => exact absurd hs (split_ne_nil sep cs)
  | cons piece pieces => simp

/-- The first piece of `split` is a prefix of the string. -/
theorem split_head_isPrefix (sep : Char) (s : Str) : (split sep s).headD [] <+: s := by
  induction s with
  | nil => simp [split]
  | cons c cs ih =>
    by_cases h : c = sep
    · subst h
      simp [split_cons_sep]
    · rw [split_cons_of_ne sep c cs h]
      simpa using ih

/-- Every piece of `split` is a run of the string without the separator. -/
theorem mem_split (sep : Char) (s u : Str) (hu : u ∈ split sep s) : u <:+: s ∧ sep ∉ u := by
  induction s generalizing u with
  | nil =>
    have : u = [] := by simpa [split] using hu
    subst this
    simp
  | cons c cs ih =>
    by_cases h : c = sep
    · subst h
      rw [split_cons_sep, List.mem_cons] at hu
      rcases hu with rfl | hu
      · simp
      · exact ⟨(ih u hu).1.trans (List.suffix_cons c cs).isInfix, (ih u hu).2⟩
    · rw [split_cons_of_ne sep c cs h, List.mem_cons] at hu
      have hne := split_ne_nil sep cs
      have hhead : (split sep cs).headD [] ∈ split sep cs := by
        cases hs : split sep cs with
        | nil => exact absurd hs hne
        | cons piece pieces => simp
      rcases hu with rfl | hu
      · refine ⟨?_, ?_⟩
        · exact ((List.cons_prefix_cons.mpr ⟨rfl, split_head_isPrefix sep cs⟩)).isInfix
        · intro hmem
          rcases List.mem_cons.mp hmem with heq | hmem
          · exact h heq.symm
          · exact (ih _ hhead).2 hmem
      · have hu2 : u ∈ split sep cs := List.mem_of_mem_tail hu
        exact ⟨(ih u hu2).1.trans (List.suffix_cons c cs).isInfix, (ih u hu2).2⟩

/-- A prefix of the string without the separator lies in the first piece. -/
theorem isPrefix_split_head (sep : Char) (s t : Str) (hsep : sep ∉ t) (ht : t <+: s) :
    t <+: (split sep s).headD [] := by
  induction s generalizing t with
  | nil =>
    have : t = [] := List.prefix_nil.mp ht
    subst this
    simp
  | cons c cs ih =>
    rcases List.prefix_cons_iff.mp ht with rfl | ⟨t2, rfl, ht2⟩
    · simp
    · have hc : c ≠ sep := fun heq => hsep (by simp [heq])
      have hsep2 : sep ∉ t2 := fun hmem => hsep (List.mem_cons_of_mem c hmem)
      rw [split_cons_of_ne sep c cs hc]
      simpa using ih t2 hsep2 ht2

/-- A run of the string without the separator lies inside one piece. -/
theorem isInfix_split (sep : Char) (s t : Str) (hsep : sep ∉ t) (ht : t <:+: s) :
    ∃ u ∈ split sep s, t <:+: u := by
  induction s with
  | nil =>
    have : t = [] := List.infix_nil.mp ht
    subst this
    exact ⟨[], by simp [split], List.nil_infix⟩
  | cons c cs ih =>
    rcases List.infix_cons_iff.mp ht with hp | hi
    · refine ⟨(split sep (c :: cs)).headD [], ?_, (isPrefix_split_head sep _ t hsep hp).isInfix⟩
      cases hs : split sep (c :: cs) with
      | nil => exact absurd hs (split_ne_nil sep _)
      | cons piece pieces => simp
    · obtain ⟨u, hu, htu⟩ := ih hi
      by_cases h : c = sep
      · subst h
        exact ⟨u, by simp [split_cons_sep, hu], htu⟩
      · rw [split_cons_of_ne sep c cs h]
        cases hs : split sep cs with
        | nil => exact absurd hs (split_ne_nil sep cs)
        | cons piece pieces =>
          rw [hs, List.mem_cons] at hu
          rcases hu with rfl | hu
          · exact ⟨c :: u, by simp, htu.trans (List.suffix_cons c u).isInfix⟩
          · exact ⟨u, by simp [hu], htu⟩

theorem splitWhiteSpaceAux_ne_nil (inRun : Bool) (s : Str) :
    splitWhiteSpaceAux inRun s ≠ [] := by
  induction s generalizing inRun with
  | nil => simp [splitWhiteSpaceAux]
  | cons c cs ih =>
    unfold splitWhiteSpaceAux
    split_ifs
    · exact ih true
    · simp
    · split <;> simp

theorem splitWhiteSpaceAux_cons_of_not (inRun : Bool) (c : Char) (cs : Str)
    (h : isWhiteSpace c = false) :
    splitWhiteSpaceAux inRun (c :: cs) =
      (c :: (splitWhiteSpaceAux false cs).headD []) :: (splitWhiteSpaceAux false cs).tail := by
  rw [splitWhiteSpaceAux]
  simp only [h, Bool.false_eq_true, if_false]
  cases hs : splitWhiteSpaceAux false cs with
  | nil => exact absurd hs (splitWhiteSpaceAux_ne_nil false cs)
  | cons piece pieces => simp

theorem headD_mem {l : List Str} (h : l ≠ []) : l.headD [] ∈ l := by
  cases l with
  | nil => exact absurd rfl h
  | cons a as => simp

/-- A prefix of the string without white space lies in the first piece. -/
theorem isPrefix_splitWhiteSpaceAux_head (inRun : Bool) (s t : Str)
    (hws : ∀ ch ∈ t, isWhiteSpace ch = false) (ht : t <+: s) :
    t <+: (splitWhiteSpaceAux inRun s).headD [] := by
  induction s generalizing t inRun with
  | nil =>
    have : t = [] := List.prefix_nil.mp ht
    subst this
    simp
  | cons c cs ih =>
    rcases List.prefix_cons_iff.mp ht with rfl | ⟨t2, rfl, ht2⟩
    · simp
    · have hc : isWhiteSpace c = false := hws c (by simp)
      have hws2 : ∀ ch ∈ t2, isWhiteSpace ch = false :=
        fun ch hch => hws ch (List.mem_cons_of_mem c hch)
      rw [splitWhiteSpaceAux_cons_of_not inRun c cs hc]
      simpa using ih false t2 hws2 ht2

/-- A run of the string without white space lies inside one piece of
`split(/\s+/)`. -/
theorem isInfix_splitWhiteSpaceAux (inRun : Bool) (s t : Str)
    (hws : ∀ ch ∈ t, isWhiteSpace ch = false) (ht : t <:+: s) :
    ∃ v ∈ splitWhiteSpaceAux inRun s, t <:+: v := by
  induction s generalizing inRun with
  | nil =>
    have : t = [] := List.infix_nil.mp ht
    subst this
    exact ⟨[], by simp [splitWhiteSpaceAux], List.nil_infix⟩
  | cons c cs ih =>
    rcases List.infix_cons_iff.mp ht with hp | hi
    · exact ⟨_, headD_mem (splitWhiteSpaceAux_ne_nil inRun (c :: cs)),
        (isPrefix_splitWhiteSpaceAux_head inRun _ t hws hp).isInfix⟩
    · cases hc : isWhiteSpace c with
      | true =>
        obtain ⟨v, hv, htv⟩ := ih true hi
        refine ⟨v, ?_, htv⟩
        rw [splitWhiteSpaceAux]
        simp only [hc, if_true]
        split_ifs
        · exact hv
        · exact List.mem_cons_of_mem _ hv
      | false =>
        obtain ⟨v, hv, htv⟩ := ih false hi
        rw [splitWhiteSpaceAux_cons_of_not inRun c cs hc]
        cases hs : splitWhiteSpaceAux false cs with
        | nil => exact absurd hs (splitWhiteSpaceAux_ne_nil false cs)
        | cons piece pieces =>
          rw [hs, List.mem_cons] at hv
          rcases hv with rfl | hv
          · exact ⟨c :: v, by simp, htv.trans (List.suffix_cons c v).isInfix⟩
          · exact ⟨v, by simp [hv], htv⟩

/-- The first piece of `split(/\s+/)` is a prefix of the string. -/
theorem splitWhiteSpaceAux_head_isPrefix (s : Str) :
    (splitWhiteSpaceAux false s).headD [] <+: s := by
  induction s with
  | nil => simp [splitWhiteSpaceAux]
  | cons c cs ih =>
    cases hc : isWhiteSpace c with
    | true => simp [splitWhiteSpaceAux, hc]
    | false =>
      rw [splitWhiteSpaceAux_cons_of_not false c cs hc]
      simpa using ih

/-- Every piece of `split(/\s+/)` is a run of the string without white space. -/
theorem mem_splitWhiteSpaceAux (inRun : Bool) (s t : Str)
    (ht : t ∈ splitWhiteSpaceAux inRun s) :
    t <:+: s ∧ ∀ ch ∈ t, isWhiteSpace ch = false := by
  induction s generalizing inRun t with
  | nil =>
    have : t = [] := by simpa [splitWhiteSpaceAux] using ht
    subst this
    simp
  | cons c cs ih =>
    cases hc : isWhiteSpace c with
    | true =>
      rw [splitWhiteSpaceAux] at ht
      simp only [hc, if_true] at ht
      have key : t = [] ∨ t ∈ splitWhiteSpaceAux true cs := by
        split_ifs at ht
        · exact Or.inr ht
        · exact List.mem_cons.mp ht
      rcases key with rfl | ht2
      · simp
      · exact ⟨(ih true t ht2).1.trans (List.suffix_cons c cs).isInfix, (ih true t ht2).2⟩
    | false =>
      rw [splitWhiteSpaceAux_cons_of_not inRun c cs hc, List.mem_cons] at ht
      have hhead := headD_mem (splitWhiteSpaceAux_ne_nil false cs)
      rcases ht with rfl | ht
      · refine ⟨?_, ?_⟩
        · exact (List.cons_prefix_cons.mpr ⟨rfl, splitWhiteSpaceAux_head_isPrefix cs⟩).isInfix
        · intro ch hch
          rcases List.mem_cons.mp hch with rfl | hch
          · exact hc
          · exact (ih false _ hhead).2 ch hch
      · have ht2 : t ∈ splitWhiteSpaceAux false cs := List.mem_of_mem_tail ht
        exact ⟨(ih false t ht2).1.trans (List.suffix_cons c cs).isInfix, (ih false t ht2).2⟩

theorem trim_isInfix (s : Str) : trim s <:+: s :=
  (List.rdropWhile_prefix isWhiteSpace (s.dropWhile isWhiteSpace)).isInfix.trans
    (List.dropWhile_suffix isWhiteSpace).isInfix

/-- A run without white space survives the removal of leading white space. -/
theorem isInfix_dropWhile (s t : Str) (hws : ∀ ch ∈ t, isWhiteSpace ch = false)
    (ht : t <:+: s) : t <:+: s.dropWhile isWhiteSpace := by
  induction s with
  | nil => simpa using ht
  | cons c cs ih =>
    cases hc : isWhiteSpace c with
    | false => simpa [List.dropWhile, hc] using ht
    | true =>
      have hd : (c :: cs).dropWhile isWhiteSpace = cs.dropWhile isWhiteSpace := by
        simp [List.dropWhile, hc]
      rw [hd]
      rcases List.infix_cons_iff.mp ht with hp | hi
      · rcases List.prefix_cons_iff.mp hp with rfl | ⟨t2, rfl, _⟩
        · exact List.nil_infix
        · have := hws c (by simp)
          rw [hc] at this
          exact absurd this (by simp)
      · exact ih hi

/-- A run without white space survives trimming. -/
theorem isInfix_trim (s t : Str) (hws : ∀ ch ∈ t, isWhiteSpace ch = false)
    (ht : t <:+: s) : t <:+: trim s := by
  have h1 : t <:+: s.dropWhile isWhiteSpace := isInfix_dropWhile s t hws ht
  have hws2 : ∀ ch ∈ t.reverse, isWhiteSpace ch = false :=
    fun ch hch => hws ch (List.mem_reverse.mp hch)
  have h2 := isInfix_dropWhile (s.dropWhile isWhiteSpace).reverse t.reverse hws2
    (List.reverse_infix.mpr h1)
  have h3 := List.reverse_infix.mpr h2
  simpa [trim, List.rdropWhile] using h3

theorem digitChar_facts : ∀ d, d < 10 →
    isWhiteSpace (Nat.digitChar d) = false ∧ Nat.digitChar d ≠ '-' ∧ Nat.digitChar d ≠ '+' ∧
    Nat.digitChar d ≠ 'x' ∧ Nat.digitChar d ≠ 'X' ∧
    digitValue 10 (Nat.digitChar d) = some d := by
  decide

theorem takeDigits_map_digitChar (ds : List Nat) (h : ∀ d ∈ ds, d < 10) :
    takeDigits 10 (ds.map Nat.digitChar) = ds := by
  induction ds with
  | nil => rfl
  | cons d ds ih =>
    have hd := (digitChar_facts d (h d (by simp))).2.2.2.2.2
    simp only [List.map_cons, takeDigits, hd]
    rw [ih (fun e he => h e (List.mem_cons_of_mem d he))]

theorem foldl_digits (ds : List Nat) (a : Nat) :
    ds.foldl (fun acc d => acc * 10 + d) a = a * 10 ^ ds.length + Nat.ofDigits 10 ds.reverse := by
  induction ds generalizing a with
  | nil => simp
  | cons d ds ih =>
    rw [List.foldl_cons, ih, List.reverse_cons, Nat.ofDigits_append, Nat.ofDigits_singleton,
      List.length_reverse, List.length_cons]
    ring

theorem digitsValue_eq_ofDigits (ds : List Nat) :
    digitsValue 10 ds = Nat.ofDigits 10 ds.reverse := by
  simp [digitsValue, foldl_digits]

theorem significandShift_of_lt (fuel n : Nat) (h : n < 2 ^ 53) :
    significandShift fuel n = 0 := by
  cases fuel with
  | zero => rfl
  | succ fuel => rw [significandShift, if_pos h]

/-- An integer below 2^53 is a double: rounding leaves it unchanged. -/
theorem roundToDouble_of_lt (n : Nat) (h : n < 2 ^ 53) : roundToDouble n = n := by
  unfold roundToDouble
  rw [significandShift_of_lt n n h]
  simp [Nat.mod_one]

/-- The Number value of an integer below 2^53 is that integer. -/
theorem numberValue_of_lt (negative : Bool) (n : Nat) (h : n < 2 ^ 53) :
    numberValue negative n = JSNumber.finite (if negative then -(n : Int) else (n : Int)) := by
  have hpow : ∀ a b : Nat, a < b → (2 : Nat) ^ a < 2 ^ b :=
    fun a b hab => Nat.pow_lt_pow_right Nat.one_lt_two hab
  have hlt : ¬ 2 ^ 1024 ≤ n := not_le.mpr (lt_trans h (hpow 53 1024 (by decide)))
  unfold numberValue
  rw [roundToDouble_of_lt n h]
  exact if_neg hlt

theorem parseInt_plain (s : Str) (hdrop : s.dropWhile isWhiteSpace = s)
    (hm : s.head? ≠ some '-') (hp : s.head? ≠ some '+')
    (hx : s.take 2 ≠ ['0', 'x']) (hX : s.take 2 ≠ ['0', 'X']) :
    parseInt s =
      if (takeDigits 10 s).isEmpty then JSNumber.nan
      else numberValue false (digitsValue 10 (takeDigits 10 s)) := by
  have hb : (s.head? == some '-') = false := by simpa using hm
  unfold parseInt
  simp [hdrop, hm, hp, hx, hX, hb]

theorem parseInt_minus (s : Str) (hx : s.take 2 ≠ ['0', 'x']) (hX : s.take 2 ≠ ['0', 'X']) :
    parseInt ('-' :: s) =
      if (takeDigits 10 s).isEmpty then JSNumber.nan
      else numberValue true (digitsValue 10 (takeDigits 10 s)) := by
  have hws : isWhiteSpace '-' = false := by decide
  unfold parseInt
  simp [List.dropWhile, hws, hx, hX]

theorem take_two_map_digitChar (ds : List Nat) (hlt : ∀ d ∈ ds, d < 10) (x : Char)
    (hx : ∀ d, d < 10 → Nat.digitChar d ≠ x) :
    (ds.map Nat.digitChar).take 2 ≠ ['0', x] := by
  match ds with
  | [] => simp
  | [d] => simp
  | d :: e :: ds =>
    have := hx e (hlt e (by simp))
    simp [this]

theorem parseInt_digits (ds : List Nat) (hne : ds ≠ []) (hlt : ∀ d ∈ ds, d < 10) :
    parseInt (ds.map Nat.digitChar) = numberValue false (Nat.ofDigits 10 ds.reverse) := by
  cases ds with
  | nil => exact absurd rfl hne
  | cons d ds =>
    obtain ⟨hws, hminus, hplus, -, -, -⟩ := digitChar_facts d (hlt d (by simp))
    have hdrop : ((d :: ds).map Nat.digitChar).dropWhile isWhiteSpace =
        (d :: ds).map Nat.digitChar := by
      simp [List.dropWhile, hws]
    rw [parseInt_plain _ hdrop (by simpa using hminus) (by simpa using hplus)
      (take_two_map_digitChar _ hlt 'x' (fun e he => (digitChar_facts e he).2.2.2.1))
      (take_two_map_digitChar _ hlt 'X' (fun e he => (digitChar_facts e he).2.2.2.2.1)),
      takeDigits_map_digitChar _ hlt, digitsValue_eq_ofDigits]
    simp

theorem parseInt_minus_digits (ds : List Nat) (hne : ds ≠ []) (hlt : ∀ d ∈ ds, d < 10) :
    parseInt ('-' :: ds.map Nat.digitChar) = numberValue true (Nat.ofDigits 10 ds.reverse) := by
  rw [parseInt_minus _
      (take_two_map_digitChar _ hlt 'x' (fun e he => (digitChar_facts e he).2.2.2.1))
      (take_two_map_digitChar _ hlt 'X' (fun e he => (digitChar_facts e he).2.2.2.2.1)),
      takeDigits_map_digitChar _ hlt, digitsValue_eq_ofDigits]
  cases ds with
  | nil => exact absurd rfl hne
  | cons d ds => simp

/-- The numeral of `n` is the image of a non-empty list of decimal digits that denotes `n`. -/
theorem decimalNat_eq (n : Nat) :
    ∃ ds : List Nat, ds ≠ [] ∧ (∀ d ∈ ds, d < 10) ∧ decimalNat n = ds.map Nat.digitChar ∧
      Nat.ofDigits 10 ds.reverse = n := by
  by_cases h : n = 0
  · subst h
    exact ⟨[0], by simp, by simp, by simp [decimalNat]; rfl, by simp⟩
  · refine ⟨(Nat.digits 10 n).reverse, ?_, ?_, ?_, ?_⟩
    · simpa [Nat.digits_eq_nil_iff_eq_zero] using h
    · intro d hd
      exact Nat.digits_lt_base (by norm_num) (List.mem_reverse.mp hd)
    · simp [decimalNat, h]
    · simp [Nat.ofDigits_digits]

theorem parseInt_decimalNat (n : Nat) : parseInt (decimalNat n) = numberValue false n := by
  obtain ⟨ds, hne, hlt, hs, hv⟩ := decimalNat_eq n
  rw [hs, parseInt_digits ds hne hlt, hv]

/-- The builtin `parseInt` reads the decimal numeral of an integer of absolute
value below 2^53 back as that integer. -/
theorem parseInt_decimalString (z : Int) (hz : z.natAbs < 2 ^ 53) :
    parseInt (decimalString z) = JSNumber.finite z := by
  cases z with
  | ofNat n =>
    have hn : n < 2 ^ 53 := hz
    rw [decimalString, parseInt_decimalNat n, numberValue_of_lt false n hn]
    rfl
  | negSucc n =>
    have hn : n + 1 < 2 ^ 53 := hz
    obtain ⟨ds, hne, hlt, hs, hv⟩ := decimalNat_eq (n + 1)
    rw [decimalString, hs, parseInt_minus_digits ds hne hlt, hv, numberValue_of_lt true (n + 1) hn]
    rfl

/-- The numerals of 50000, 0 and -7 are the usual ones. -/
theorem decimalString_examples :
    decimalString 50000 = "50000".toList ∧ decimalString 0 = "0".toList ∧
      decimalString (-7) = "-7".toList := by
  refine ⟨?_, ?_, ?_⟩
  · show decimalNat 50000 = _
    simp [decimalNat]
    decide
  · show decimalNat 0 = _
    simp [decimalNat]
  · show (Char.ofNat 45) :: decimalNat 7 = _
    simp [decimalNat]
    decide

theorem decimalString_ne_nil (z : Int) : decimalString z ≠ [] := by
  cases z with
  | ofNat n =>
    obtain ⟨ds, hne, -, hs, -⟩ := decimalNat_eq n
    rw [decimalString, hs]
    simpa using hne
  | negSucc n => simp [decimalString]

theorem toLower_of_not_upper (c : Char) (h : ¬(65 ≤ c.toNat ∧ c.toNat ≤ 90)) :
    Char.toLower c = c := by
  unfold Char.toLower
  simp only [ge_iff_le]
  rw [if_neg h]

theorem toLower_toLower (c : Char) : Char.toLower (Char.toLower c) = Char.toLower c := by
  by_cases h : 65 ≤ c.toNat ∧ c.toNat ≤ 90
  · have hl := toNat_toLower c
    rw [if_pos h] at hl
    exact toLower_of_not_upper _ (by omega)
  · rw [toLower_of_not_upper c h, toLower_of_not_upper c h]

/-- Lower-casing a lower-cased string changes nothing. -/
theorem toLowerCase_toLowerCase (s : Str) : toLowerCase (toLowerCase s) = toLowerCase s := by
  simp [toLowerCase, toLower_toLower]

theorem matchesSearch_iff (c : Criteria) (job : Job) :
    matchesSearch c job = true ↔
      ∀ term ∈ searchTerms c, ∃ field ∈ searchFields job, term <:+: field := by
  simp only [matchesSearch, List.all_eq_true, List.any_eq_true, includes_iff]

theorem mem_filteredJobs (J : List Job) (c : Criteria) (job : Job) :
    job ∈ filteredJobs J c ↔ job ∈ J ∧ keeps c job = true := by
  simp [filteredJobs]

theorem matchesSearch_of_searchTerm_nil (c : Criteria) (job : Job) (h : c.searchTerm = []) :
    matchesSearch c job = true := by
  rw [matchesSearch_iff]
  intro term hterm
  have : term = [] := by
    simpa [searchTerms, h, toLowerCase, split] using hterm
  subst this
  exact ⟨(job.title.map toLowerCase).getD [], by simp [searchFields], List.nil_infix⟩

/-- With every criterion but the salary range at its wildcard, only the salary
test decides. -/
theorem keeps_salaryCriteria (min max : Str) (job : Job) :
    keeps (salaryCriteria min max) job = matchesSalary (salaryCriteria min max) job := by
  have hs : matchesSearch (salaryCriteria min max) job = true :=
    matchesSearch_of_searchTerm_nil _ job rfl
  have hc : matchesCategory (salaryCriteria min max) job = true := by
    simp [matchesCategory, salaryCriteria, withSalaryRange, defaultCriteria]
  have ht : matchesType (salaryCriteria min max) job = true := by
    simp [matchesType, salaryCriteria, withSalaryRange, defaultCriteria]
  have hr : matchesRemote (salaryCriteria min max) job = true := by
    simp [matchesRemote, salaryCriteria, withSalaryRange, defaultCriteria]
  have he : matchesEducation (salaryCriteria min max) job = true := by
    simp [matchesEducation, salaryCriteria, withSalaryRange, defaultCriteria]
  simp [keeps, hs, hc, ht, hr, he]

theorem decimalString_isEmpty (z : Int) : (decimalString z).isEmpty = false := by
  have := decimalString_ne_nil z
  cases h : decimalString z with
  | nil => exact absurd h this
  | cons a as => rfl

theorem matchesSalary_boundString (c : Criteria) (job : Job) (x : Int) (lo hi : Option Int)
    (hlo : ∀ l ∈ lo, l.natAbs < 2 ^ 53) (hhi : ∀ h ∈ hi, h.natAbs < 2 ^ 53) :
    matchesSalary (withSalaryRange c (boundString lo) (boundString hi))
        { job with salary := some x } = true ↔
      (∀ l ∈ lo, l ≤ x) ∧ (∀ h ∈ hi, x ≤ h) := by
  cases lo with
  | none =>
    cases hi with
    | none => simp [matchesSalary, withSalaryRange, boundString]
    | some h =>
      simp [matchesSalary, withSalaryRange, boundString, parseInt_decimalString h (hhi h rfl),
        decimalString_isEmpty, salaryLe]
  | some l =>
    cases hi with
    | none =>
      simp [matchesSalary, withSalaryRange, boundString, parseInt_decimalString l (hlo l rfl),
        decimalString_isEmpty, salaryGe]
    | some h =>
      simp [matchesSalary, withSalaryRange, boundString, parseInt_decimalString l (hlo l rfl),
        parseInt_decimalString h (hhi h rfl), decimalString_isEmpty, salaryGe, salaryLe]

/-! ### The filter as a whole -/

/-- C1: the result of `filteredJobs` is a subsequence of the input list: the
returned jobs are jobs of `J`, unaltered, in the same relative order, none
repeated more often than in `J`. -/
theorem filteredJobs_sublist (J : List Job) (c : Criteria) :
    List.Sublist (filteredJobs J c) J := by
  unfold filteredJobs
  exact List.filter_sublist J

/-- C2: filtering is idempotent: filtering the result again with the same
criteria changes nothing. -/
theorem filteredJobs_idempotent (J : List Job) (c : Criteria) :
    filteredJobs (filteredJobs J c) c = filteredJobs J c := by
  unfold filteredJobs
  rw [List.filter_filter]
  congr 1
  funext job
  simp

/-- C3: with the all-wildcard criteria (the initial state) the filter returns
the whole input list, whatever fields the jobs have or lack. -/
theorem filteredJobs_default (J : List Job) : filteredJobs J defaultCriteria = J := by
  unfold filteredJobs
  rw [List.filter_eq_self]
  intro job _
  have hs : matchesSearch defaultCriteria job = true :=
    matchesSearch_of_searchTerm_nil _ job rfl
  have hc : matchesCategory defaultCriteria job = true := by
    simp [matchesCategory, defaultCriteria]
  have ht : matchesType defaultCriteria job = true := by
    simp [matchesType, defaultCriteria]
  have hr : matchesRemote defaultCriteria job = true := by
    simp [matchesRemote, defaultCriteria]
  have he : matchesEducation defaultCriteria job = true := by
    simp [matchesEducation, defaultCriteria]
  have hp : matchesSalary defaultCriteria job = true := by
    simp [matchesSalary, defaultCriteria]
  simp [keeps, hs, hc, ht, hr, he, hp]

/-- Every token of the specification's tokenisation lies inside one of the
pieces the code obtains with `split(' ')`. -/
theorem specSearchTokens_isInfix_searchTerms (c : Criteria) (t : Str)
    (ht : t ∈ specSearchTokens c.searchTerm) : ∃ u ∈ searchTerms c, t <:+: u := by
  obtain ⟨hrun, hws⟩ := mem_splitWhiteSpaceAux false _ t ht
  have hsp : ' ' ∉ t := by
    intro hmem
    have := hws ' ' hmem
    exact absurd this (by decide)
  exact isInfix_split ' ' _ t hsp (hrun.trans (trim_isInfix _))

/-- When the only white space of the search string is the space character,
every piece of `split(' ')` lies inside a token of the specification's
tokenisation. -/
theorem searchTerms_isInfix_specSearchTokens (c : Criteria)
    (h : ∀ ch ∈ c.searchTerm, isWhiteSpace ch = true → ch = ' ') (u : Str)
    (hu : u ∈ searchTerms c) : ∃ v ∈ specSearchTokens c.searchTerm, u <:+: v := by
  obtain ⟨hrun, hsep⟩ := mem_split ' ' _ u hu
  have hws : ∀ ch ∈ u, isWhiteSpace ch = false := by
    intro ch hch
    have hmem : ch ∈ toLowerCase c.searchTerm := hrun.subset hch
    obtain ⟨d, hd, rfl⟩ := List.mem_map.mp hmem
    cases hw : isWhiteSpace (Char.toLower d) with
    | false => rfl
    | true =>
      have hwd : isWhiteSpace d = true := by rw [← isWhiteSpace_toLower, hw]
      have hsp : d = ' ' := h d hd hwd
      rw [toLower_of_isWhiteSpace d hwd, hsp] at hch
      exact absurd hch hsep
  exact isInfix_splitWhiteSpaceAux false _ u hws (isInfix_trim _ u hws hrun)

/-- C5: free-text search is conjunctive. For every job in the result, each
token of the search string (each piece of the lower-cased string between
spaces, and likewise each white-space-delimited token) occurs in at least one
of the job's ten lower-cased searchable fields; so a job lacking some token in
all ten fields is never in the result. -/
theorem search_conjunctive (J : List Job) (c : Criteria) (job : Job)
    (h : job ∈ filteredJobs J c) :
    (∀ term ∈ searchTerms c, ∃ field ∈ searchFields job, term <:+: field) ∧
    (∀ term ∈ specSearchTokens c.searchTerm, ∃ field ∈ searchFields job, term <:+: field) := by
  have hk : keeps c job = true := ((mem_filteredJobs J c job).mp h).2
  have hs : matchesSearch c job = true := by
    simp only [keeps, Bool.and_eq_true] at hk
    exact hk.1.1.1.1.1
  have hcode := (matchesSearch_iff c job).mp hs
  refine ⟨hcode, ?_⟩
  intro term hterm
  obtain ⟨u, hu, htu⟩ := specSearchTokens_isInfix_searchTerms c term hterm
  obtain ⟨field, hfield, huf⟩ := hcode u hu
  exact ⟨field, hfield, htu.trans huf⟩

/-- Witness for C5: the search `senior react` keeps `Senior React Developer`. -/
theorem search_conjunctive_witness :
    seniorReactJob ∈ filteredJobs [seniorReactJob] seniorReactCriteria ∧
    ((∀ term ∈ searchTerms seniorReactCriteria,
        ∃ field ∈ searchFields seniorReactJob, term <:+: field) ∧
     (∀ term ∈ specSearchTokens seniorReactCriteria.searchTerm,
        ∃ field ∈ searchFields seniorReactJob, term <:+: field)) :=
  ⟨by decide, search_conjunctive [seniorReactJob] seniorReactCriteria seniorReactJob (by decide)⟩

/-- C6, as stated, fails: for the search string `a`, TAB, `b` and a job titled
`a b`, every white-space-delimited token occurs in the title, yet the code's
text search rejects the job, because the tab stays inside its single token. -/
theorem matchesSearch_tab_counterexample :
    matchesSearch tabCriteria tabJob = false ∧ specMatchesSearch tabCriteria tabJob = true := by
  decide

/-- C6, amended: the code passes a job iff every piece of the lower-cased
search string between space characters occurs in one of the ten lower-cased
fields; when the only white space of the search string is the space character
this is the same as requiring every token of the trimmed, lower-cased string
split on white space to occur in one of the fields. -/
theorem matchesSearch_iff_spec (c : Criteria) (job : Job)
    (h : ∀ ch ∈ c.searchTerm, isWhiteSpace ch = true → ch = ' ') :
    (matchesSearch c job = true ↔
      ∀ term ∈ split ' ' (toLowerCase c.searchTerm),
        ∃ field ∈ searchFields job, term <:+: field) ∧
    (matchesSearch c job = true ↔
      ∀ term ∈ specSearchTokens c.searchTerm,
        ∃ field ∈ searchFields job, term <:+: field) := by
  refine ⟨matchesSearch_iff c job, ?_⟩
  rw [matchesSearch_iff]
  constructor
  · intro hcode term hterm
    obtain ⟨u, hu, htu⟩ := specSearchTokens_isInfix_searchTerms c term hterm
    obtain ⟨field, hfield, huf⟩ := hcode u hu
    exact ⟨field, hfield, htu.trans huf⟩
  · intro hspec u hu
    obtain ⟨v, hv, huv⟩ := searchTerms_isInfix_specSearchTokens c h u hu
    obtain ⟨field, hfield, hvf⟩ := hspec v hv
    exact ⟨field, hfield, huv.trans hvf⟩

/-- Witness for the amended C6 at the search string `senior react`. -/
theorem matchesSearch_iff_spec_witness :
    (∀ ch ∈ seniorReactCriteria.searchTerm, isWhiteSpace ch = true → ch = ' ') ∧
    ((matchesSearch seniorReactCriteria seniorReactJob = true ↔
      ∀ term ∈ split ' ' (toLowerCase seniorReactCriteria.searchTerm),
        ∃ field ∈ searchFields seniorReactJob, term <:+: field) ∧
     (matchesSearch seniorReactCriteria seniorReactJob = true ↔
      ∀ term ∈ specSearchTokens seniorReactCriteria.searchTerm,
        ∃ field ∈ searchFields seniorReactJob, term <:+: field)) :=
  ⟨by decide, matchesSearch_iff_spec seniorReactCriteria seniorReactJob (by decide)⟩

set_option exponentiation.threshold 2048 in
/-- C4, as stated, fails for bounds beyond 2^53, which `parseInt` rounds to a
double: the minimum `9007199254740993` is read as 9007199254740992, so a job
whose salary is one unit below the minimum typed is kept; the maximum
`9007199254740995` is read as 9007199254740996, so a job whose salary is one
unit above the maximum typed is kept. -/
theorem salary_bounds_rounding_counterexample :
    decimalString 9007199254740993 = "9007199254740993".toList ∧
    decimalString 9007199254740995 = "9007199254740995".toList ∧
    parseInt "9007199254740993".toList = JSNumber.finite 9007199254740992 ∧
    parseInt "9007199254740995".toList = JSNumber.finite 9007199254740996 ∧
    filteredJobs [{ emptyJob with salary := some (9007199254740993 - 1) }]
        (salaryCriteria "9007199254740993".toList []) =
      [{ emptyJob with salary := some (9007199254740993 - 1) }] ∧
    filteredJobs [{ emptyJob with salary := some (9007199254740995 + 1) }]
        (salaryCriteria [] "9007199254740995".toList) =
      [{ emptyJob with salary := some (9007199254740995 + 1) }] := by
  refine ⟨?_, ?_, ?_, ?_, ?_, ?_⟩
  · show decimalNat 9007199254740993 = _
    simp [decimalNat]
    decide
  · show decimalNat 9007199254740995 = _
    simp [decimalNat]
    decide
  · decide
  · decide
  · decide
  · decide

/-- C4, amended: salary bounds are inclusive for bounds of absolute value
below 2^53. With every other criterion at its wildcard and such bounds typed as
decimal numerals (or left unset), a job with salary `x` is in the result iff
it is in the input and (min unset or `x >= min`) and (max unset or
`x <= max`); a salary equal to a bound passes and a salary one unit outside it
fails. For all criteria a job passes the salary test iff (min unset or
`salary >= parseInt(min)`) and (max unset or `salary <= parseInt(max)`). -/
theorem salary_bounds_inclusive (J : List Job) (c : Criteria) (job : Job) (x : Int)
    (lo hi : Option Int) (hx : x.natAbs < 2 ^ 53)
    (hlo : ∀ l ∈ lo, l.natAbs < 2 ^ 53) (hhi : ∀ h ∈ hi, h.natAbs < 2 ^ 53) :
    ({ job with salary := some x } ∈
        filteredJobs J (salaryCriteria (boundString lo) (boundString hi)) ↔
      { job with salary := some x } ∈ J ∧ (∀ l ∈ lo, l ≤ x) ∧ (∀ h ∈ hi, x ≤ h)) ∧
    matchesSalary (salaryCriteria (decimalString x) []) { job with salary := some x } = true ∧
    matchesSalary (salaryCriteria (decimalString x) [])
      { job with salary := some (x - 1) } = false ∧
    matchesSalary (salaryCriteria [] (decimalString x)) { job with salary := some x } = true ∧
    matchesSalary (salaryCriteria [] (decimalString x))
      { job with salary := some (x + 1) } = false ∧
    (matchesSalary c job = true ↔
      (c.filterSalaryRange.min = [] ∨
        salaryGe job.salary (parseInt c.filterSalaryRange.min) = true) ∧
      (c.filterSalaryRange.max = [] ∨
        salaryLe job.salary (parseInt c.filterSalaryRange.max) = true)) := by
  have hsome : ∀ l ∈ some x, l.natAbs < 2 ^ 53 := by
    intro l hl
    cases hl
    exact hx
  have hnone : ∀ l ∈ (none : Option Int), l.natAbs < 2 ^ 53 := by
    intro l hl
    cases hl
  refine ⟨?_, ?_, ?_, ?_, ?_, ?_⟩
  · rw [mem_filteredJobs, keeps_salaryCriteria, salaryCriteria,
      matchesSalary_boundString defaultCriteria job x lo hi hlo hhi]
  · exact (matchesSalary_boundString defaultCriteria job x (some x) none hsome hnone).mpr
      (by simp)
  · have h := matchesSalary_boundString defaultCriteria job (x - 1) (some x) none hsome hnone
    rw [← Bool.not_eq_true]
    intro hm
    have := (h.mp hm).1 x rfl
    omega
  · exact (matchesSalary_boundString defaultCriteria job x none (some x) hnone hsome).mpr
      (by simp)
  · have h := matchesSalary_boundString defaultCriteria job (x + 1) none (some x) hnone hsome
    rw [← Bool.not_eq_true]
    intro hm
    have := (h.mp hm).2 x rfl
    omega
  · simp [matchesSalary, List.isEmpty_iff]

/-- Witness for the amended C4 at the salary 50000 and the bounds 30000 and
80000. -/
theorem salary_bounds_inclusive_witness :
    (50000 : Int).natAbs < 2 ^ 53 ∧
    (∀ l ∈ (some 30000 : Option Int), l.natAbs < 2 ^ 53) ∧
    (∀ h ∈ (some 80000 : Option Int), h.natAbs < 2 ^ 53) ∧
    (({ emptyJob with salary := some 50000 } ∈
        filteredJobs [salariedJob] (salaryCriteria (boundString (some 30000))
          (boundString (some 80000))) ↔
      { emptyJob with salary := some 50000 } ∈ [salariedJob] ∧
        (∀ l ∈ (some 30000 : Option Int), l ≤ 50000) ∧
        (∀ h ∈ (some 80000 : Option Int), 50000 ≤ h)) ∧
    matchesSalary (salaryCriteria (decimalString 50000) [])
      { emptyJob with salary := some 50000 } = true ∧
    matchesSalary (salaryCriteria (decimalString 50000) [])
      { emptyJob with salary := some (50000 - 1) } = false ∧
    matchesSalary (salaryCriteria [] (decimalString 50000))
      { emptyJob with salary := some 50000 } = true ∧
    matchesSalary (salaryCriteria [] (decimalString 50000))
      { emptyJob with salary := some (50000 + 1) } = false ∧
    (matchesSalary defaultCriteria emptyJob = true ↔
      (defaultCriteria.filterSalaryRange.min = [] ∨
        salaryGe emptyJob.salary (parseInt defaultCriteria.filterSalaryRange.min) = true) ∧
      (defaultCriteria.filterSalaryRange.max = [] ∨
        salaryLe emptyJob.salary (parseInt defaultCriteria.filterSalaryRange.max) = true))) :=
  ⟨by decide, by intro l hl; cases hl; decide, by intro h hh; cases hh; decide,
    salary_bounds_inclusive [salariedJob] defaultCriteria emptyJob 50000 (some 30000)
      (some 80000) (by decide) (by intro l hl; cases hl; decide)
      (by intro h hh; cases hh; decide)⟩

/-- C7, as stated, fails: the education filter value `PhD` rejects a job whose
education is `PhD` and a job whose education is `phd`, although both equal the
filter value up to letter case. -/
theorem matchesEducation_upper_counterexample :
    phdCriteria.filterEducation ≠ "all".toList ∧
    (∃ e, phdJob.education = some e ∧
      toLowerCase e = toLowerCase phdCriteria.filterEducation) ∧
    (∃ e, phdLowerJob.education = some e ∧
      toLowerCase e = toLowerCase phdCriteria.filterEducation) ∧
    matchesEducation phdCriteria phdJob = false ∧
    matchesEducation phdCriteria phdLowerJob = false ∧
    filteredJobs [phdJob, phdLowerJob] phdCriteria = [] := by
  decide

/-- C7, amended: for a non-wildcard education filter value `f`, a job passes
the education filter iff `f` is in lower case (as every value the select
offers is) and the job has an education equal to `f` up to letter case; the
job's education is lower-cased before the comparison, the filter value is
not. Category and type pass iff the filter is the wildcard or the stored
value is exactly the filter value. -/
theorem matchesEducation_iff (c : Criteria) (job : Job)
    (hf : c.filterEducation ≠ "all".toList) :
    (matchesEducation c job = true ↔
      toLowerCase c.filterEducation = c.filterEducation ∧
        ∃ e, job.education = some e ∧ toLowerCase e = toLowerCase c.filterEducation) ∧
    (matchesEducation c job = true ↔
      ∃ e, job.education = some e ∧ toLowerCase e = c.filterEducation) ∧
    (matchesCategory c job = true ↔
      c.filterCategory = "all".toList ∨ job.category = some c.filterCategory) ∧
    (matchesType c job = true ↔
      c.filterType = "all".toList ∨ job.type = some c.filterType) := by
  have key : matchesEducation c job = true ↔
      ∃ e, job.education = some e ∧ toLowerCase e = c.filterEducation := by
    have hf2 : c.filterEducation ≠ ['a', 'l', 'l'] := hf
    cases he : job.education <;> simp [matchesEducation, hf2, he]
  refine ⟨?_, key, ?_, ?_⟩
  · rw [key]
    constructor
    · rintro ⟨e, he, hl⟩
      have hlow : toLowerCase c.filterEducation = c.filterEducation := by
        rw [← hl, toLowerCase_toLowerCase]
      exact ⟨hlow, e, he, by rw [hlow, hl]⟩
    · rintro ⟨hlow, e, he, hl⟩
      exact ⟨e, he, by rw [hl, hlow]⟩
  · simp [matchesCategory]
  · simp [matchesType]

/-- Witness for the amended C7: the filter value `phd` keeps a job whose
education is `PhD`. -/
theorem matchesEducation_iff_witness :
    phdLowerCriteria.filterEducation ≠ "all".toList ∧
    ((matchesEducation phdLowerCriteria phdJob = true ↔
      toLowerCase phdLowerCriteria.filterEducation = phdLowerCriteria.filterEducation ∧
        ∃ e, phdJob.education = some e ∧
          toLowerCase e = toLowerCase phdLowerCriteria.filterEducation) ∧
    (matchesEducation phdLowerCriteria phdJob = true ↔
      ∃ e, phdJob.education = some e ∧ toLowerCase e = phdLowerCriteria.filterEducation) ∧
    (matchesCategory phdLowerCriteria phdJob = true ↔
      phdLowerCriteria.filterCategory = "all".toList ∨
        phdJob.category = some phdLowerCriteria.filterCategory) ∧
    (matchesType phdLowerCriteria phdJob = true ↔
      phdLowerCriteria.filterType = "all".toList ∨
        phdJob.type = some phdLowerCriteria.filterType)) :=
  ⟨by decide, matchesEducation_iff phdLowerCriteria phdJob (by decide)⟩

/-- C8: the location select has no effect on the result. A job without a
location is kept although the location filter is `London`; changing the
location, skills or experience selects never changes the result. A missing
category, type or education does fail every non-wildcard value of its own
filter. -/
theorem filteredJobs_ignores_location :
    emptyJob.location = none ∧
    londonCriteria.filterLocation ≠ "all".toList ∧
    filteredJobs [emptyJob] londonCriteria = [emptyJob] ∧
    (∀ (J : List Job) (c : Criteria) (loc skill exp : Str),
      filteredJobs J { c with filterLocation := loc, filterSkills := skill,
                              filterExperience := exp } = filteredJobs J c) ∧
    (∀ (c : Criteria) (job : Job),
      matchesCategory c { job with category := none } = (c.filterCategory == "all".toList) ∧
      matchesType c { job with type := none } = (c.filterType == "all".toList) ∧
      matchesEducation c { job with education := none } =
        (c.filterEducation == "all".toList)) := by
  refine ⟨rfl, by decide, by decide, ?_, ?_⟩
  · intro J c loc skill exp
    rfl
  · intro c job
    simp [matchesCategory, matchesType, matchesEducation]

/-- C9, as stated, fails: a job with salary 50000 passes when the minimum (or
maximum) bound is unset but is rejected when the bound is the text `abc`, which
`parseInt` cannot read. -/
theorem matchesSalary_nan_counterexample :
    parseInt "abc".toList = JSNumber.nan ∧
    filteredJobs [salariedJob] (salaryCriteria [] []) = [salariedJob] ∧
    filteredJobs [salariedJob] (salaryCriteria "abc".toList []) = [] ∧
    filteredJobs [salariedJob] (salaryCriteria [] "abc".toList) = [] := by
  decide

/-- C9, amended: an unset (empty) salary bound imposes no constraint, the
salary test then being the test of the other bound alone; a non-empty bound
that `parseInt` cannot read is not treated as absent: no job passes the salary
test, so none is in the result. -/
theorem matchesSalary_unset_or_nan (J : List Job) (c : Criteria) (job : Job) (b other : Str)
    (hb : b ≠ []) (hp : parseInt b = JSNumber.nan) :
    matchesSalary (withSalaryRange c [] []) job = true ∧
    matchesSalary (withSalaryRange c [] other) job =
      (other.isEmpty || salaryLe job.salary (parseInt other)) ∧
    matchesSalary (withSalaryRange c other []) job =
      (other.isEmpty || salaryGe job.salary (parseInt other)) ∧
    matchesSalary (withSalaryRange c b other) job = false ∧
    matchesSalary (withSalaryRange c other b) job = false ∧
    job ∉ filteredJobs J (withSalaryRange c b other) ∧
    job ∉ filteredJobs J (withSalaryRange c other b) := by
  have hbe : b.isEmpty = false := by
    cases b with
    | nil => exact absurd rfl hb
    | cons a as => rfl
  have hge : salaryGe job.salary JSNumber.nan = false := by
    cases job.salary <;> rfl
  have hle : salaryLe job.salary JSNumber.nan = false := by
    cases job.salary <;> rfl
  have h1 : matchesSalary (withSalaryRange c b other) job = false := by
    simp [matchesSalary, withSalaryRange, hbe, hp, hge]
  have h2 : matchesSalary (withSalaryRange c other b) job = false := by
    simp [matchesSalary, withSalaryRange, hbe, hp, hle]
  refine ⟨by simp [matchesSalary, withSalaryRange], by simp [matchesSalary, withSalaryRange],
    by simp [matchesSalary, withSalaryRange], h1, h2, ?_, ?_⟩
  · rw [mem_filteredJobs]
    simp [keeps, h1]
  · rw [mem_filteredJobs]
    simp [keeps, h2]

/-- Witness for the amended C9 at the bound `abc` and a job with salary 50000. -/
theorem matchesSalary_unset_or_nan_witness :
    "abc".toList ≠ [] ∧ parseInt "abc".toList = JSNumber.nan ∧
    (matchesSalary (withSalaryRange defaultCriteria [] []) salariedJob = true ∧
    matchesSalary (withSalaryRange defaultCriteria [] []) salariedJob =
      (([] : Str).isEmpty || salaryLe salariedJob.salary (parseInt [])) ∧
    matchesSalary (withSalaryRange defaultCriteria [] []) salariedJob =
      (([] : Str).isEmpty || salaryGe salariedJob.salary (parseInt [])) ∧
    matchesSalary (withSalaryRange defaultCriteria "abc".toList []) salariedJob = false ∧
    matchesSalary (withSalaryRange defaultCriteria [] "abc".toList) salariedJob = false ∧
    salariedJob ∉ filteredJobs [salariedJob] (withSalaryRange defaultCriteria "abc".toList []) ∧
    salariedJob ∉ filteredJobs [salariedJob] (withSalaryRange defaultCriteria [] "abc".toList)) :=
  ⟨by decide, by decide,
    matchesSalary_unset_or_nan [salariedJob] defaultCriteria salariedJob "abc".toList []
      (by decide) (by decide)⟩

/-- C10: a job is in the result iff it is a job of the input that passes the
text search and the category, type, remote, education and salary filters; the
remote filter passes iff it is inactive or `job.remote` is exactly `true`. -/
theorem mem_filteredJobs_iff (J : List Job) (c : Criteria) (job : Job) :
    (job ∈ filteredJobs J c ↔
      job ∈ J ∧ matchesSearch c job = true ∧ matchesCategory c job = true ∧
        matchesType c job = true ∧ matchesRemote c job = true ∧
        matchesEducation c job = true ∧ matchesSalary c job = true) ∧
    (matchesRemote c job = true ↔ c.filterRemote = false ∨ job.remote = some true) := by
  constructor
  · rw [mem_filteredJobs]
    simp only [keeps, Bool.and_eq_true]
    tauto
  · cases hr : c.filterRemote <;> simp [matchesRemote, hr]

/-! ### The error hub -/

theorem handleError_of_accepted (w : World) (now : Int) (error : Option ErrorDescriptor)
    (hflag : w.isHandlingError = false) (htime : 100 ≤ now - w.lastErrorTimestamp) :
    handleError w now error =
      { world :=
          { (handleErrorBody { w with isHandlingError := true, lastErrorTimestamp := now }
              now error).world with
            timers :=
              (handleErrorBody { w with isHandlingError := true, lastErrorTimestamp := now }
                now error).world.timers ++
                [{ due := now + 100, action := TimerAction.resetHandling }] }
        threw :=
          (handleErrorBody { w with isHandlingError := true, lastErrorTimestamp := now }
            now error).threw } := by
  have hnot : ¬ (now - w.lastErrorTimestamp < 100) := by omega
  simp [handleError, hflag, hnot]

theorem getItem_setItem (store : List (Str × Str)) (key value : Str) :
    getItem (setItem store key value) key = some value := by
  have hnone : (store.filter fun kv => kv.1 ≠ key).find? (fun kv => decide (kv.1 = key)) = none := by
    rw [List.find?_eq_none]
    intro kv hkv
    have := (List.mem_filter.mp hkv).2
    simpa using this
  simp [getItem, setItem, List.find?_append, hnone]

/-! The corrective action touches only the location and `sessionStorage`. -/

theorem handleErrorAction_isHandlingError (w : World) (e : ErrorDescriptor) :
    (handleErrorAction w e).world.isHandlingError = w.isHandlingError := by
  unfold handleErrorAction
  split_ifs <;> rfl

theorem handleErrorAction_lastErrorTimestamp (w : World) (e : ErrorDescriptor) :
    (handleErrorAction w e).world.lastErrorTimestamp = w.lastErrorTimestamp := by
  unfold handleErrorAction
  split_ifs <;> rfl

theorem handleErrorAction_activeNotifications (w : World) (e : ErrorDescriptor) :
    (handleErrorAction w e).world.activeNotifications = w.activeNotifications := by
  unfold handleErrorAction
  split_ifs <;> rfl

theorem handleErrorAction_errorLog (w : World) (e : ErrorDescriptor) :
    (handleErrorAction w e).world.errorLog = w.errorLog := by
  unfold handleErrorAction
  split_ifs <;> rfl

theorem handleErrorAction_subscribers (w : World) (e : ErrorDescriptor) :
    (handleErrorAction w e).world.subscribers = w.subscribers := by
  unfold handleErrorAction
  split_ifs <;> rfl

theorem handleErrorAction_onLine (w : World) (e : ErrorDescriptor) :
    (handleErrorAction w e).world.onLine = w.onLine := by
  unfold handleErrorAction
  split_ifs <;> rfl

theorem handleErrorAction_shown (w : World) (e : ErrorDescriptor) :
    (handleErrorAction w e).world.shown = w.shown := by
  unfold handleErrorAction
  split_ifs <;> rfl

theorem handleErrorAction_delivered (w : World) (e : ErrorDescriptor) :
    (handleErrorAction w e).world.delivered = w.delivered := by
  unfold handleErrorAction
  split_ifs <;> rfl

theorem handleErrorAction_timers (w : World) (e : ErrorDescriptor) :
    (handleErrorAction w e).world.timers = w.timers := by
  unfold handleErrorAction
  split_ifs <;> rfl

/-- What an accepted report of a descriptor leaves in each part of the state
that does not depend on the corrective action. -/
theorem handleError_accepted_fields (w : World) (now : Int) (e : ErrorDescriptor)
    (hflag : w.isHandlingError = false) (htime : 100 ≤ now - w.lastErrorTimestamp) :
    (handleError w now (some e)).world.delivered =
      w.delivered ++ w.subscribers.map (fun callback => (callback, some e)) ∧
    (handleError w now (some e)).world.subscribers = w.subscribers ∧
    (handleError w now (some e)).world.lastErrorTimestamp = now ∧
    (handleError w now (some e)).world.isHandlingError = true ∧
    (handleError w now (some e)).world.onLine = w.onLine ∧
    (handleError w now (some e)).world.shown =
      (if getErrorMessage w.onLine (some e) ∈ w.activeNotifications then w.shown
       else w.shown ++ [(getErrorMessage w.onLine (some e), e.type.getD "error".toList)]) ∧
    (handleError w now (some e)).world.errorLog =
      (if getErrorMessage w.onLine (some e) ∈ w.activeNotifications then w.errorLog
       else (logError w now
          { e with message := some (getErrorMessage w.onLine (some e)) }).errorLog) ∧
    (handleError w now (some e)).world.activeNotifications =
      (if getErrorMessage w.onLine (some e) ∈ w.activeNotifications then w.activeNotifications
       else w.activeNotifications ++ [getErrorMessage w.onLine (some e)]) ∧
    (handleError w now (some e)).world.timers =
      (if getErrorMessage w.onLine (some e) ∈ w.activeNotifications then w.timers
       else w.timers ++
        [{ due := now + 5000,
           action := TimerAction.fadeOut (getErrorMessage w.onLine (some e)) }]) ++
        [{ due := now + 100, action := TimerAction.resetHandling }] := by
  rw [handleError_of_accepted w now (some e) hflag htime]
  by_cases hm : getErrorMessage w.onLine (some e) ∈ w.activeNotifications <;>
    simp [handleErrorBody, handleErrorAction_isHandlingError, handleErrorAction_lastErrorTimestamp,
      handleErrorAction_activeNotifications, handleErrorAction_errorLog,
      handleErrorAction_subscribers, handleErrorAction_onLine, handleErrorAction_shown,
      handleErrorAction_delivered, handleErrorAction_timers,
      notifySubscribers, logError, showNotification, setAdd, hm]

theorem handleErrorAction_of_other (w : World) (e : ErrorDescriptor)
    (h1 : e.type ≠ some ErrorTypes.AUTH) (h2 : e.type ≠ some ErrorTypes.PERMISSION) :
    handleErrorAction w e = { world := w, threw := false } := by
  simp [handleErrorAction, h1, h2]

theorem mem_setDelete {α : Type} [DecidableEq α] (s : List α) (a b : α) :
    b ∈ setDelete s a ↔ b ∈ s ∧ b ≠ a := by
  simp [setDelete]

theorem mem_setAdd {α : Type} [DecidableEq α] (s : List α) (a b : α) :
    b ∈ setAdd s a ↔ b ∈ s ∨ b = a := by
  unfold setAdd
  split_ifs with h
  · constructor
    · exact Or.inl
    · rintro (hb | rfl)
      · exact hb
      · exact h
  · simp

theorem setDelete_setAdd {α : Type} [DecidableEq α] (s : List α) (a : α) :
    setDelete (setAdd s a) a = setDelete s a := by
  unfold setAdd
  split_ifs with h
  · rfl
  · simp [setDelete]

theorem setAdd_setAdd {α : Type} [DecidableEq α] (s : List α) (a : α) :
    setAdd (setAdd s a) a = setAdd s a := by
  have h : a ∈ setAdd s a := (mem_setAdd s a a).mpr (Or.inr rfl)
  generalize setAdd s a = u at h ⊢
  simp [setAdd, h]

theorem handleError_none_errorLog (w : World) (now : Int) :
    (handleError w now none).world.errorLog = w.errorLog := by
  unfold handleError
  split_ifs
  · rfl
  · simp only [handleErrorBody]
    split_ifs <;> rfl

theorem logError_length (w : World) (now : Int) (e : ErrorDescriptor)
    (h : w.errorLog.length ≤ 100) : (logError w now e).errorLog.length ≤ 100 := by
  simp only [logError]
  split_ifs with hlen
  · simp only [List.length_dropLast, List.length_cons]
    omega
  · simp only [List.length_cons] at hlen ⊢
    omega

theorem handleError_length (w : World) (now : Int) (error : Option ErrorDescriptor)
    (h : w.errorLog.length ≤ 100) : (handleError w now error).world.errorLog.length ≤ 100 := by
  cases error with
  | none => rw [handleError_none_errorLog]; exact h
  | some e =>
    by_cases hg : w.isHandlingError = true ∨ now - w.lastErrorTimestamp < 100
    · have : handleError w now (some e) = { world := w, threw := false } := by
        rcases hg with hg | hg <;> simp [handleError, hg]
      rw [this]
      exact h
    · have hflag : w.isHandlingError = false := by
        cases hf : w.isHandlingError with
        | false => rfl
        | true => exact absurd (Or.inl hf) hg
      have htime : 100 ≤ now - w.lastErrorTimestamp := by
        by_contra hlt
        exact hg (Or.inr (by omega))
      rw [(handleError_accepted_fields w now e hflag htime).2.2.2.2.2.2.1]
      split_ifs
      · exact h
      · exact logError_length w now _ h

theorem fire_errorLog (w : World) (timer : Timer) : (fire w timer).errorLog = w.errorLog := by
  unfold fire
  split <;> rfl

theorem foldl_fire_errorLog (timers : List Timer) (w : World) :
    (timers.foldl fire w).errorLog = w.errorLog := by
  induction timers generalizing w with
  | nil => rfl
  | cons timer rest ih => rw [List.foldl_cons, ih, fire_errorLog]

theorem fireDue_errorLog (w : World) (t : Int) : (fireDue w t).errorLog = w.errorLog := by
  unfold fireDue
  rw [foldl_fire_errorLog]

theorem advance_errorLog (w : World) (t : Int) : (advance w t).errorLog = w.errorLog := by
  unfold advance
  rw [fireDue_errorLog, fireDue_errorLog]

theorem applyOp_length (w : World) (op : Op) (h : w.errorLog.length ≤ 100) :
    (applyOp w op).errorLog.length ≤ 100 := by
  cases op with
  | handleError now error => exact handleError_length w now error h
  | logError now error => exact logError_length w now error h
  | showNotification now message type => exact h
  | subscribe callback => exact h
  | unsubscribe callback => exact h
  | advance t =>
    show (advance w t).errorLog.length ≤ 100
    rw [advance_errorLog]
    exact h
  | setOnLine onLine => exact h

theorem run_length (ops : List Op) (w : World) (h : w.errorLog.length ≤ 100) :
    (run w ops).errorLog.length ≤ 100 := by
  induction ops generalizing w with
  | nil => exact h
  | cons op rest ih =>
    show (run (applyOp w op) rest).errorLog.length ≤ 100
    exact ih _ (applyOp_length w op h)

theorem fire_userAgent (w : World) (timer : Timer) : (fire w timer).userAgent = w.userAgent := by
  unfold fire
  split <;> rfl

theorem foldl_fire_userAgent (timers : List Timer) (w : World) :
    (timers.foldl fire w).userAgent = w.userAgent := by
  induction timers generalizing w with
  | nil => rfl
  | cons timer rest ih => rw [List.foldl_cons, ih, fire_userAgent]

theorem advance_userAgent (w : World) (t : Int) : (advance w t).userAgent = w.userAgent := by
  simp only [advance, fireDue, foldl_fire_userAgent]

theorem fire_shown (w : World) (timer : Timer) : (fire w timer).shown = w.shown := by
  unfold fire
  split <;> rfl

theorem foldl_fire_shown (timers : List Timer) (w : World) :
    (timers.foldl fire w).shown = w.shown := by
  induction timers generalizing w with
  | nil => rfl
  | cons timer rest ih => rw [List.foldl_cons, ih, fire_shown]

theorem advance_shown (w : World) (t : Int) : (advance w t).shown = w.shown := by
  simp only [advance, fireDue, foldl_fire_shown]

theorem fire_delivered (w : World) (timer : Timer) : (fire w timer).delivered = w.delivered := by
  unfold fire
  split <;> rfl

theorem foldl_fire_delivered (timers : List Timer) (w : World) :
    (timers.foldl fire w).delivered = w.delivered := by
  induction timers generalizing w with
  | nil => rfl
  | cons timer rest ih => rw [List.foldl_cons, ih, fire_delivered]

theorem advance_delivered (w : World) (t : Int) : (advance w t).delivered = w.delivered := by
  simp only [advance, fireDue, foldl_fire_delivered]

theorem fire_subscribers (w : World) (timer : Timer) : (fire w timer).subscribers = w.subscribers := by
  unfold fire
  split <;> rfl

theorem foldl_fire_subscribers (timers : List Timer) (w : World) :
    (timers.foldl fire w).subscribers = w.subscribers := by
  induction timers generalizing w with
  | nil => rfl
  | cons timer rest ih => rw [List.foldl_cons, ih, fire_subscribers]

theorem advance_subscribers (w : World) (t : Int) : (advance w t).subscribers = w.subscribers := by
  simp only [advance, fireDue, foldl_fire_subscribers]

theorem fire_lastErrorTimestamp (w : World) (timer : Timer) : (fire w timer).lastErrorTimestamp = w.lastErrorTimestamp := by
  unfold fire
  split <;> rfl

theorem foldl_fire_lastErrorTimestamp (timers : List Timer) (w : World) :
    (timers.foldl fire w).lastErrorTimestamp = w.lastErrorTimestamp := by
  induction timers generalizing w with
  | nil => rfl
  | cons timer rest ih => rw [List.foldl_cons, ih, fire_lastErrorTimestamp]

theorem advance_lastErrorTimestamp (w : World) (t : Int) : (advance w t).lastErrorTimestamp = w.lastErrorTimestamp := by
  simp only [advance, fireDue, foldl_fire_lastErrorTimestamp]

theorem fire_onLine (w : World) (timer : Timer) : (fire w timer).onLine = w.onLine := by
  unfold fire
  split <;> rfl

theorem foldl_fire_onLine (timers : List Timer) (w : World) :
    (timers.foldl fire w).onLine = w.onLine := by
  induction timers generalizing w with
  | nil => rfl
  | cons timer rest ih => rw [List.foldl_cons, ih, fire_onLine]

theorem advance_onLine (w : World) (t : Int) : (advance w t).onLine = w.onLine := by
  simp only [advance, fireDue, foldl_fire_onLine]

theorem fire_location (w : World) (timer : Timer) : (fire w timer).location = w.location := by
  unfold fire
  split <;> rfl

theorem foldl_fire_location (timers : List Timer) (w : World) :
    (timers.foldl fire w).location = w.location := by
  induction timers generalizing w with
  | nil => rfl
  | cons timer rest ih => rw [List.foldl_cons, ih, fire_location]

theorem advance_location (w : World) (t : Int) : (advance w t).location = w.location := by
  simp only [advance, fireDue, foldl_fire_location]

/-! Timers never add an active notification and never set the flag. -/

theorem fire_activeNotifications_subset (w : World) (timer : Timer) (m : Str)
    (h : m ∈ (fire w timer).activeNotifications) : m ∈ w.activeNotifications := by
  unfold fire at h
  split at h
  · exact h
  · exact h
  · exact ((mem_setDelete _ _ _).mp h).1

theorem foldl_fire_activeNotifications_subset (timers : List Timer) (w : World) (m : Str)
    (h : m ∈ (timers.foldl fire w).activeNotifications) : m ∈ w.activeNotifications := by
  induction timers generalizing w with
  | nil => exact h
  | cons timer rest ih =>
    exact fire_activeNotifications_subset w timer m (ih (fire w timer) h)

theorem fireDue_activeNotifications_subset (w : World) (t : Int) (m : Str)
    (h : m ∈ (fireDue w t).activeNotifications) : m ∈ w.activeNotifications := by
  unfold fireDue at h
  have key := foldl_fire_activeNotifications_subset _ _ m h
  exact key

theorem advance_activeNotifications_subset (w : World) (t : Int) (m : Str)
    (h : m ∈ (advance w t).activeNotifications) : m ∈ w.activeNotifications :=
  fireDue_activeNotifications_subset w t m
    (fireDue_activeNotifications_subset (fireDue w t) t m h)

theorem fire_isHandlingError_false (w : World) (timer : Timer)
    (h : w.isHandlingError = false) : (fire w timer).isHandlingError = false := by
  unfold fire
  split
  · rfl
  · exact h
  · exact h

theorem foldl_fire_isHandlingError_false (timers : List Timer) (w : World)
    (h : w.isHandlingError = false) : (timers.foldl fire w).isHandlingError = false := by
  induction timers generalizing w with
  | nil => exact h
  | cons timer rest ih => exact ih _ (fire_isHandlingError_false w timer h)

theorem foldl_fire_resetHandling (timers : List Timer) (w : World)
    (h : ∃ timer ∈ timers, timer.action = TimerAction.resetHandling) :
    (timers.foldl fire w).isHandlingError = false := by
  induction timers generalizing w with
  | nil =>
    obtain ⟨timer, hmem, -⟩ := h
    exact absurd hmem (List.not_mem_nil _)
  | cons timer rest ih =>
    obtain ⟨x, hmem, hx⟩ := h
    rcases List.mem_cons.mp hmem with rfl | hrest
    · rw [List.foldl_cons]
      apply foldl_fire_isHandlingError_false
      simp [fire, hx]
    · exact ih _ ⟨x, hrest, hx⟩

theorem fireDue_isHandlingError_false (w : World) (t : Int)
    (h : w.isHandlingError = false) : (fireDue w t).isHandlingError = false := by
  unfold fireDue
  exact foldl_fire_isHandlingError_false _ _ h

/-- Once the timer that clears `isHandlingError` is due, the flag is clear. -/
theorem advance_isHandlingError (w : World) (t : Int)
    (h : w.isHandlingError = true →
      ∃ timer ∈ w.timers, timer.action = TimerAction.resetHandling ∧ timer.due ≤ t) :
    (advance w t).isHandlingError = false := by
  have h1 : (fireDue w t).isHandlingError = false := by
    cases hf : w.isHandlingError with
    | false => exact fireDue_isHandlingError_false w t hf
    | true =>
      obtain ⟨timer, hmem, haction, hdue⟩ := h hf
      unfold fireDue
      apply foldl_fire_resetHandling
      exact ⟨timer, List.mem_filter.mpr ⟨hmem, by simpa using hdue⟩, haction⟩
  exact fireDue_isHandlingError_false (fireDue w t) t h1

/-! What the timers do to one message. -/

theorem fire_timers_mono (w : World) (timer x : Timer) (h : x ∈ w.timers) :
    x ∈ (fire w timer).timers := by
  unfold fire
  split
  · exact h
  · exact List.mem_append_left _ h
  · exact h

theorem foldl_fire_timers_mono (timers : List Timer) (w : World) (x : Timer)
    (h : x ∈ w.timers) : x ∈ (timers.foldl fire w).timers := by
  induction timers generalizing w with
  | nil => exact h
  | cons timer rest ih => exact ih _ (fire_timers_mono w timer x h)

/-- A `fadeOut` timer that runs schedules the removal 500 ms later. -/
theorem foldl_fire_schedules (timers : List Timer) (w : World) (y : Timer) (m : Str)
    (hy : y ∈ timers) (hm : y.action = TimerAction.fadeOut m) :
    { due := y.due + 500, action := TimerAction.remove m } ∈ (timers.foldl fire w).timers := by
  induction timers generalizing w with
  | nil => exact absurd hy (List.not_mem_nil _)
  | cons timer rest ih =>
    rcases List.mem_cons.mp hy with rfl | hrest
    · rw [List.foldl_cons]
      apply foldl_fire_timers_mono
      simp [fire, hm]
    · exact ih _ hrest

/-- A `remove` timer that runs leaves its message inactive. -/
theorem foldl_fire_removes (timers : List Timer) (w : World) (x : Timer) (m : Str)
    (hx : x ∈ timers) (hm : x.action = TimerAction.remove m) :
    m ∉ (timers.foldl fire w).activeNotifications := by
  induction timers generalizing w with
  | nil => exact absurd hx (List.not_mem_nil _)
  | cons timer rest ih =>
    rcases List.mem_cons.mp hx with rfl | hrest
    · intro hmem
      have h1 := foldl_fire_activeNotifications_subset rest _ m hmem
      simp [fire, hm, mem_setDelete] at h1
    · exact ih _ hrest

/-- Every timer pending after a pass was pending before it or is the removal
scheduled by a `fadeOut` timer that ran. -/
theorem foldl_fire_timers (timers : List Timer) (w : World) (x : Timer)
    (h : x ∈ (timers.foldl fire w).timers) :
    x ∈ w.timers ∨ ∃ y ∈ timers, ∃ m, y.action = TimerAction.fadeOut m ∧
      x = { due := y.due + 500, action := TimerAction.remove m } := by
  induction timers generalizing w with
  | nil => exact Or.inl h
  | cons timer rest ih =>
    rcases ih (fire w timer) h with h1 | ⟨y, hy, m, hm, hxy⟩
    · cases ha : timer.action with
      | resetHandling =>
        simp [fire, ha] at h1
        exact Or.inl h1
      | fadeOut m =>
        simp [fire, ha] at h1
        rcases h1 with h1 | h1
        · exact Or.inl h1
        · exact Or.inr ⟨timer, List.mem_cons_self _ _, m, ha, h1⟩
      | remove m =>
        simp [fire, ha] at h1
        exact Or.inl h1
    · exact Or.inr ⟨y, List.mem_cons_of_mem _ hy, m, hm, hxy⟩

/-- A message stays active through a pass in which no `remove` timer for it
runs. -/
theorem foldl_fire_keeps (timers : List Timer) (w : World) (m : Str)
    (hm : m ∈ w.activeNotifications)
    (hno : ∀ x ∈ timers, x.action ≠ TimerAction.remove m) :
    m ∈ (timers.foldl fire w).activeNotifications := by
  induction timers generalizing w with
  | nil => exact hm
  | cons timer rest ih =>
    apply ih
    · cases ha : timer.action with
      | resetHandling => simpa [fire, ha] using hm
      | fadeOut m2 => simpa [fire, ha] using hm
      | remove m2 =>
        have hne : m ≠ m2 := by
          intro heq
          exact hno timer (List.mem_cons_self _ _) (by rw [ha, heq])
        simp [fire, ha, mem_setDelete, hm, hne]
    · intro x hx
      exact hno x (List.mem_cons_of_mem _ hx)

theorem fireDue_schedules (w : World) (t : Int) (y : Timer) (m : Str)
    (hy : y ∈ w.timers) (hm : y.action = TimerAction.fadeOut m) (hdue : y.due ≤ t) :
    { due := y.due + 500, action := TimerAction.remove m } ∈ (fireDue w t).timers := by
  unfold fireDue
  apply foldl_fire_schedules _ _ y m _ hm
  exact List.mem_filter.mpr ⟨hy, by simpa using hdue⟩

theorem fireDue_removes (w : World) (t : Int) (x : Timer) (m : Str)
    (hx : x ∈ w.timers) (hm : x.action = TimerAction.remove m) (hdue : x.due ≤ t) :
    m ∉ (fireDue w t).activeNotifications := by
  unfold fireDue
  apply foldl_fire_removes _ _ x m _ hm
  exact List.mem_filter.mpr ⟨hx, by simpa using hdue⟩

theorem fireDue_keeps (w : World) (t : Int) (m : Str) (hm : m ∈ w.activeNotifications)
    (hremove : ∀ x ∈ w.timers, x.action = TimerAction.remove m → t < x.due) :
    m ∈ (fireDue w t).activeNotifications := by
  unfold fireDue
  refine foldl_fire_keeps (w.timers.filter fun timer => decide (timer.due ≤ t))
    { w with timers := w.timers.filter fun timer => !decide (timer.due ≤ t) } m hm ?_
  intro x hx ha
  have hx2 := List.mem_filter.mp hx
  have := hremove x hx2.1 ha
  have hd : x.due ≤ t := by simpa using hx2.2
  omega

theorem fireDue_timers (w : World) (t : Int) (x : Timer) (h : x ∈ (fireDue w t).timers) :
    (x ∈ w.timers ∧ t < x.due) ∨ ∃ y ∈ w.timers, y.due ≤ t ∧ ∃ m,
      y.action = TimerAction.fadeOut m ∧
      x = { due := y.due + 500, action := TimerAction.remove m } := by
  unfold fireDue at h
  rcases foldl_fire_timers _ _ x h with hrest | ⟨y, hy, m, hy2, hxy⟩
  · have hr := List.mem_filter.mp hrest
    have hnd := hr.2
    simp at hnd
    exact Or.inl ⟨hr.1, hnd⟩
  · have hy3 := List.mem_filter.mp hy
    exact Or.inr ⟨y, hy3.1, by simpa using hy3.2, m, hy2, hxy⟩

/-- The removal of a message has run by 500 ms after its `fadeOut` timer was
due. -/
theorem advance_removes (w : World) (t : Int) (y : Timer) (m : Str)
    (hy : y ∈ w.timers) (hm : y.action = TimerAction.fadeOut m) (hdue : y.due + 500 ≤ t) :
    m ∉ (advance w t).activeNotifications :=
  fireDue_removes (fireDue w t) t { due := y.due + 500, action := TimerAction.remove m } m
    (fireDue_schedules w t y m hy hm (by omega)) rfl hdue

/-- A message stays active while neither a `remove` timer for it is due nor a
`fadeOut` timer for it has been due for 500 ms. -/
theorem advance_keeps (w : World) (t : Int) (m : Str) (hm : m ∈ w.activeNotifications)
    (hremove : ∀ x ∈ w.timers, x.action = TimerAction.remove m → t < x.due)
    (hfade : ∀ x ∈ w.timers, x.action = TimerAction.fadeOut m → t < x.due + 500) :
    m ∈ (advance w t).activeNotifications := by
  apply fireDue_keeps (fireDue w t) t m (fireDue_keeps w t m hm hremove)
  intro x hx ha
  rcases fireDue_timers w t x hx with ⟨-, hlt⟩ | ⟨y, hy, -, m2, hy2, hxy⟩
  · exact hlt
  · have hm2 : m2 = m := by
      rw [hxy] at ha
      simpa using ha
    subst hm2
    have := hfade y hy hy2
    rw [hxy]
    exact this

theorem handleError_of_dropped (w : World) (now : Int) (error : Option ErrorDescriptor)
    (h : w.isHandlingError = true ∨ now - w.lastErrorTimestamp < 100) :
    handleError w now error = { world := w, threw := false } := by
  rcases h with h | h
  · simp [handleError, h]
  · simp [handleError, h]

/-- C20: a rate-limited report is silently dropped. When `handleError` is
called while `isHandlingError` is set, or less than 100 ms after
`lastErrorTimestamp`, it returns without throwing and leaves the whole state
as it was (log, active notifications, subscribers, timestamp, flag,
notifications shown, subscriber calls, location, storage, timers), whatever
its argument. -/
theorem handleError_rate_limited (w : World) (now : Int) (error : Option ErrorDescriptor)
    (h : w.isHandlingError = true ∨ now - w.lastErrorTimestamp < 100) :
    handleError w now error = { world := w, threw := false } :=
  handleError_of_dropped w now error h

/-- Witness for C20: a null report 50 ms after the last accepted one. -/
theorem handleError_rate_limited_witness :
    (initialWorld.isHandlingError = true ∨ (50 : Int) - initialWorld.lastErrorTimestamp < 100) ∧
    handleError initialWorld 50 none = { world := initialWorld, threw := false } :=
  ⟨by decide, handleError_rate_limited initialWorld 50 none (by decide)⟩

/-- C19: the corrective action depends only on the kind. For `auth` the
current path is stored under `redirectPath` and the location becomes `/login`
(the write to `sessionStorage` succeeding); for `permission` the location
becomes `/unauthorized` and `sessionStorage` is unchanged; for every other
kind nothing changes. -/
theorem handleErrorAction_by_kind (w : World) (error : ErrorDescriptor) :
    (error.type = some ErrorTypes.AUTH → w.storageThrows = false →
      handleErrorAction w error =
        { world :=
            { w with
              sessionStorage := setItem w.sessionStorage "redirectPath".toList w.location
              location := "/login".toList }
          threw := false } ∧
      getItem (handleErrorAction w error).world.sessionStorage "redirectPath".toList =
        some w.location) ∧
    (error.type = some ErrorTypes.PERMISSION →
      handleErrorAction w error =
        { world := { w with location := "/unauthorized".toList }, threw := false }) ∧
    (error.type ≠ some ErrorTypes.AUTH → error.type ≠ some ErrorTypes.PERMISSION →
      handleErrorAction w error = { world := w, threw := false }) ∧
    (∀ other : ErrorDescriptor, other.type = error.type →
      handleErrorAction w other = handleErrorAction w error) := by
  refine ⟨?_, ?_, ?_, ?_⟩
  · intro ht hs
    have h1 : handleErrorAction w error =
        { world :=
            { w with
              sessionStorage := setItem w.sessionStorage "redirectPath".toList w.location
              location := "/login".toList }
          threw := false } := by
      simp [handleErrorAction, ht, hs]
    refine ⟨h1, ?_⟩
    rw [h1]
    exact getItem_setItem _ _ _
  · intro ht
    have hne : some ErrorTypes.PERMISSION ≠ some ErrorTypes.AUTH := by decide
    simp [handleErrorAction, ht, hne]
  · intro h1 h2
    simp [handleErrorAction, h1, h2]
  · intro other ho
    simp [handleErrorAction, ho]

/-- Witness for C19: an `auth`, a `permission` and a `network` report in the
initial state. -/
theorem handleErrorAction_by_kind_witness :
    (handleErrorAction initialWorld { networkError with type := some ErrorTypes.AUTH }).world.location
      = "/login".toList ∧
    (handleErrorAction initialWorld
      { networkError with type := some ErrorTypes.PERMISSION }).world.location
      = "/unauthorized".toList ∧
    handleErrorAction initialWorld networkError = { world := initialWorld, threw := false } := by
  refine ⟨?_, ?_, ?_⟩
  · rw [((handleErrorAction_by_kind initialWorld
      { networkError with type := some ErrorTypes.AUTH }).1 rfl rfl).1]
  · rw [(handleErrorAction_by_kind initialWorld
      { networkError with type := some ErrorTypes.PERMISSION }).2.1 rfl]
  · exact (handleErrorAction_by_kind initialWorld networkError).2.2.1 (by decide) (by decide)

/-- C17, as stated, fails: an `api` error whose status is present but is 0
gets `Server error: Unknown`, not `Server error: 0`; and while the browser is
off line an `api` error with status 404 gets the connection message, not the
message of its status. -/
theorem getErrorMessage_api_counterexample :
    getErrorMessage true (some (apiError (some 0))) = "Server error: Unknown".toList ∧
    getErrorMessage true (some (apiError (some 0))) ≠ "Server error: ".toList ++ decimalString 0 ∧
    getErrorMessage false (some (apiError (some 404))) =
      "Network error: Please check your internet connection".toList ∧
    getErrorMessage false (some (apiError (some 404))) ≠
      "The requested resource was not found.".toList := by
  decide

/-- C17, amended: while the browser is on line, an `api` error with status
400, 401, 403, 404, 429 or 500 gets the fixed message of that status, any
other status `n` that is not 0 gets `Server error: n`, and an absent status or
the status 0 gets `Server error: Unknown`; while off line every error gets the
connection message. -/
theorem getErrorMessage_api (error : ErrorDescriptor) (n : Int)
    (hn : n ∉ [400, 401, 403, 404, 429, 500]) (h0 : n ≠ 0) :
    getErrorMessage true (some (withApiStatus error (some 400))) =
      "Invalid request. Please check your input.".toList ∧
    getErrorMessage true (some (withApiStatus error (some 401))) =
      "Your session has expired. Please log in again.".toList ∧
    getErrorMessage true (some (withApiStatus error (some 403))) =
      "You don't have permission to perform this action.".toList ∧
    getErrorMessage true (some (withApiStatus error (some 404))) =
      "The requested resource was not found.".toList ∧
    getErrorMessage true (some (withApiStatus error (some 429))) =
      "Too many requests. Please try again later.".toList ∧
    getErrorMessage true (some (withApiStatus error (some 500))) =
      "Server error. Our team has been notified.".toList ∧
    getErrorMessage true (some (withApiStatus error (some n))) =
      "Server error: ".toList ++ decimalString n ∧
    getErrorMessage true (some (withApiStatus error none)) = "Server error: Unknown".toList ∧
    getErrorMessage true (some (withApiStatus error (some 0))) = "Server error: Unknown".toList ∧
    getErrorMessage false (some (withApiStatus error (some n))) =
      "Network error: Please check your internet connection".toList := by
  simp only [List.mem_cons, List.mem_singleton, not_or, List.not_mem_nil, or_false] at hn
  obtain ⟨h400, h401, h403, h404, h429, h500⟩ := hn
  refine ⟨?_, ?_, ?_, ?_, ?_, ?_, ?_, ?_, ?_, ?_⟩ <;>
    simp [getErrorMessage, withApiStatus, h400, h401, h403, h404, h429, h500, h0]

/-- Witness for the amended C17 at the status 418. -/
theorem getErrorMessage_api_witness :
    (418 : Int) ∉ [400, 401, 403, 404, 429, 500] ∧ (418 : Int) ≠ 0 ∧
    getErrorMessage true (some (withApiStatus networkError (some 418))) =
      "Server error: ".toList ++ decimalString 418 ∧
    getErrorMessage true (some (withApiStatus networkError (some 404))) =
      "The requested resource was not found.".toList :=
  ⟨by decide, by decide,
    (getErrorMessage_api networkError 418 (by decide) (by decide)).2.2.2.2.2.2.1,
    (getErrorMessage_api networkError 418 (by decide) (by decide)).2.2.2.1⟩

/-- C18, as stated, fails: the accepted report `{ type: 'api', status: 401 }`
shows the session-expired message but leaves the location where it was; it
does not become `/login`. -/
theorem handleError_api401_counterexample :
    initialWorld.isHandlingError = false ∧
    (100 : Int) ≤ 1000 - initialWorld.lastErrorTimestamp ∧
    (handleError initialWorld 1000 (some (apiError (some 401)))).world.shown =
      [("Your session has expired. Please log in again.".toList, "api".toList)] ∧
    (handleError initialWorld 1000 (some (apiError (some 401)))).world.location = "/".toList ∧
    (handleError initialWorld 1000 (some (apiError (some 401)))).world.location ≠
      "/login".toList := by
  decide

/-- C18, amended: an accepted report of type `api` with status 401 gets the
session-expired message (on line) and returns normally, but it performs no
navigation and leaves `sessionStorage` unchanged; the forced navigation to
`/login` is the corrective action of the type `auth`. -/
theorem handleError_api401_no_navigation (w : World) (now : Int) (e : ErrorDescriptor)
    (hflag : w.isHandlingError = false) (htime : 100 ≤ now - w.lastErrorTimestamp)
    (hstore : w.storageThrows = false) :
    (handleError w now (some (withApiStatus e (some 401)))).world.location = w.location ∧
    (handleError w now (some (withApiStatus e (some 401)))).world.sessionStorage =
      w.sessionStorage ∧
    (handleError w now (some (withApiStatus e (some 401)))).threw = false ∧
    getErrorMessage true (some (withApiStatus e (some 401))) =
      "Your session has expired. Please log in again.".toList ∧
    (handleError w now (some (withAuthType e))).world.location = "/login".toList := by
  have hne1 : (withApiStatus e (some 401)).type ≠ some ErrorTypes.AUTH := by
    simp [withApiStatus]
    decide
  have hne2 : (withApiStatus e (some 401)).type ≠ some ErrorTypes.PERMISSION := by
    simp [withApiStatus]
    decide
  refine ⟨?_, ?_, ?_, ?_, ?_⟩
  · rw [handleError_of_accepted w now _ hflag htime]
    simp only [handleErrorBody, handleErrorAction_of_other _ _ hne1 hne2]
    split_ifs <;> rfl
  · rw [handleError_of_accepted w now _ hflag htime]
    simp only [handleErrorBody, handleErrorAction_of_other _ _ hne1 hne2]
    split_ifs <;> rfl
  · rw [handleError_of_accepted w now _ hflag htime]
    simp only [handleErrorBody, handleErrorAction_of_other _ _ hne1 hne2]
  · simp [getErrorMessage, withApiStatus]
  · rw [handleError_of_accepted w now _ hflag htime]
    simp only [handleErrorBody]
    split_ifs <;> simp [handleErrorAction, withAuthType, notifySubscribers, logError,
      showNotification, hstore]

/-- Witness for the amended C18 in the initial state at time 1000. -/
theorem handleError_api401_no_navigation_witness :
    initialWorld.isHandlingError = false ∧
    (100 : Int) ≤ 1000 - initialWorld.lastErrorTimestamp ∧
    initialWorld.storageThrows = false ∧
    (handleError initialWorld 1000 (some (withApiStatus networkError (some 401)))).world.location =
      initialWorld.location ∧
    (handleError initialWorld 1000 (some (withAuthType networkError))).world.location =
      "/login".toList :=
  ⟨rfl, by decide, rfl,
    (handleError_api401_no_navigation initialWorld 1000 networkError rfl (by decide) rfl).1,
    (handleError_api401_no_navigation initialWorld 1000 networkError rfl (by decide)
      rfl).2.2.2.2⟩

/-- C13: the error history never exceeds 100 entries. From a state whose log
has at most 100 entries, a call of `logError` or of `handleError` leaves at
most 100, and so does every sequence of operations on the hub; this holds in
particular from the empty log. -/
theorem errorLog_bounded (w : World) (h : w.errorLog.length ≤ 100) :
    (∀ now error, (logError w now error).errorLog.length ≤ 100) ∧
    (∀ now error, (handleError w now error).world.errorLog.length ≤ 100) ∧
    (∀ ops, (run w ops).errorLog.length ≤ 100) :=
  ⟨fun now error => logError_length w now error h,
   fun now error => handleError_length w now error h,
   fun ops => run_length ops w h⟩

/-- Witness for C13: the states reachable from the initial state. -/
theorem errorLog_bounded_witness :
    initialWorld.errorLog.length ≤ 100 ∧
    ((∀ now error, (logError initialWorld now error).errorLog.length ≤ 100) ∧
     (∀ now error, (handleError initialWorld now error).world.errorLog.length ≤ 100) ∧
     (∀ ops, (run initialWorld ops).errorLog.length ≤ 100)) :=
  ⟨by decide, errorLog_bounded initialWorld (by decide)⟩

/-- C15: unsubscribing removes exactly one subscriber. Invoking the function
returned by `subscribeToErrors(c)`, or calling `unsubscribeFromErrors(c)`,
leaves the subscriber set `S` without `c` and nothing else changed; an accepted
report made afterwards is delivered to every other callback of `S`, in order,
and not to `c`. -/
theorem unsubscribe_removes (w : World) (c : Callback) :
    cancel w c (subscribeToErrors w c).1 = unsubscribeFromErrors w c ∧
    (∀ w2, cancel w c w2 = unsubscribeFromErrors w2 c) ∧
    (unsubscribeFromErrors w c).subscribers = setDelete w.subscribers c ∧
    (∀ d, d ∈ setDelete w.subscribers c ↔ d ∈ w.subscribers ∧ d ≠ c) ∧
    (∀ now e, w.isHandlingError = false → 100 ≤ now - w.lastErrorTimestamp →
      (handleError (unsubscribeFromErrors w c) now (some e)).world.delivered =
          w.delivered ++ (setDelete w.subscribers c).map (fun d => (d, some e)) ∧
        (c, some e) ∉ (setDelete w.subscribers c).map (fun d => (d, some e)) ∧
        ∀ d, d ∈ w.subscribers → d ≠ c →
          (d, some e) ∈ (setDelete w.subscribers c).map (fun d => (d, some e))) := by
  refine ⟨?_, fun w2 => rfl, rfl, fun d => mem_setDelete _ _ _, ?_⟩
  · simp [cancel, subscribeToErrors, unsubscribeFromErrors, setDelete_setAdd]
  · intro now e hflag htime
    refine ⟨?_, ?_, ?_⟩
    · exact (handleError_accepted_fields (unsubscribeFromErrors w c) now e hflag htime).1
    · simp [mem_setDelete]
    · intro d hd hne
      simp [mem_setDelete, hd, hne]

/-- Witness for C15: `callbackA` is removed from the set of `callbackA` and
`callbackB`; a report at time 1000 reaches `callbackB` only. -/
theorem unsubscribe_removes_witness :
    twoSubscribers.isHandlingError = false ∧
    (100 : Int) ≤ 1000 - twoSubscribers.lastErrorTimestamp ∧
    (handleError (unsubscribeFromErrors twoSubscribers callbackA) 1000
        (some networkError)).world.delivered =
      twoSubscribers.delivered ++
        (setDelete twoSubscribers.subscribers callbackA).map
          (fun d => (d, some networkError)) :=
  ⟨rfl, by decide,
    ((unsubscribe_removes twoSubscribers callbackA).2.2.2.2 1000 networkError rfl
      (by decide)).1⟩

/-- C16, as stated, fails: after two calls of `subscribeToErrors` with the same
callback, invoking the function returned by the first call leaves no
subscriber, and the next accepted report is delivered to nobody. -/
theorem subscribe_twice_counterexample :
    callbackA ∈ (subscribeBoth initialWorld callbackA callbackA).subscribers ∧
    (cancel initialWorld callbackA
      (subscribeBoth initialWorld callbackA callbackA)).subscribers = [] ∧
    (handleError
      (cancel initialWorld callbackA (subscribeBoth initialWorld callbackA callbackA))
      1000 (some networkError)).world.delivered = [] := by
  decide

/-- C16, amended: subscriptions of two different callbacks are independent:
invoking the function returned for one of them removes that callback and keeps
the other, which receives every accepted report made afterwards. Two calls
with the same callback register it once, and invoking either returned
function removes it. -/
theorem subscriptions_independent (w : World) (c d : Callback) (h : c ≠ d) :
    (d ∈ (cancel w c (subscribeBoth w c d)).subscribers ∧
      c ∉ (cancel w c (subscribeBoth w c d)).subscribers) ∧
    (c ∈ (cancel (subscribeToErrors w c).1 d (subscribeBoth w c d)).subscribers ∧
      d ∉ (cancel (subscribeToErrors w c).1 d (subscribeBoth w c d)).subscribers) ∧
    (∀ now e, w.isHandlingError = false → 100 ≤ now - w.lastErrorTimestamp →
      (d, some e) ∈
        (handleError (cancel w c (subscribeBoth w c d)) now (some e)).world.delivered) ∧
    subscribeBoth w c c = (subscribeToErrors w c).1 ∧
    c ∉ (cancel w c (subscribeBoth w c c)).subscribers ∧
    c ∉ (cancel (subscribeToErrors w c).1 c (subscribeBoth w c c)).subscribers := by
  have hd : d ∈ (cancel w c (subscribeBoth w c d)).subscribers := by
    simp [cancel, subscribeBoth, subscribeToErrors, mem_setDelete, mem_setAdd, Ne.symm h]
  refine ⟨⟨hd, ?_⟩, ⟨?_, ?_⟩, ?_, ?_, ?_, ?_⟩
  · simp [cancel, subscribeBoth, subscribeToErrors, mem_setDelete]
  · simp [cancel, subscribeBoth, subscribeToErrors, mem_setDelete, mem_setAdd, h]
  · simp [cancel, subscribeBoth, subscribeToErrors, mem_setDelete]
  · intro now e hflag htime
    rw [(handleError_accepted_fields (cancel w c (subscribeBoth w c d)) now e hflag htime).1]
    exact List.mem_append_right _ (List.mem_map.mpr ⟨d, hd, rfl⟩)
  · simp [subscribeBoth, subscribeToErrors, setAdd_setAdd]
  · simp [cancel, subscribeBoth, subscribeToErrors, mem_setDelete]
  · simp [cancel, subscribeBoth, subscribeToErrors, mem_setDelete]

/-- Witness for the amended C16 with `callbackA` and `callbackB`. -/
theorem subscriptions_independent_witness :
    callbackA ≠ callbackB ∧
    callbackB ∈ (cancel initialWorld callbackA
      (subscribeBoth initialWorld callbackA callbackB)).subscribers ∧
    callbackA ∉ (cancel initialWorld callbackA
      (subscribeBoth initialWorld callbackA callbackB)).subscribers :=
  ⟨by decide, (subscriptions_independent initialWorld callbackA callbackB (by decide)).1⟩

/-- C11: two `network` reports less than 100 ms apart give one notification
and one log entry. From a quiescent hub, on line, the first call shows the
`network` message and puts its record at the head of the log (dropping the
last entry when the log would exceed 100); the second call, whether or not
timers have run in between, returns with the state unchanged. -/
theorem handleError_debounced (w : World) (t1 t2 : Int)
    (hflag : w.isHandlingError = false) (htime : 100 ≤ t1 - w.lastErrorTimestamp)
    (hactive : networkMessage ∉ w.activeNotifications) (honline : w.onLine = true)
    (hclose : t2 - t1 < 100) :
    (handleError w t1 (some networkError)).threw = false ∧
    (handleError w t1 (some networkError)).world.shown =
      w.shown ++ [(networkMessage, ErrorTypes.NETWORK)] ∧
    (handleError w t1 (some networkError)).world.errorLog =
      (if (networkInfo w t1 :: w.errorLog).length > 100
       then (networkInfo w t1 :: w.errorLog).dropLast else networkInfo w t1 :: w.errorLog) ∧
    (w.errorLog.length < 100 →
      (handleError w t1 (some networkError)).world.errorLog.length = w.errorLog.length + 1) ∧
    handleError (handleError w t1 (some networkError)).world t2 (some networkError) =
      { world := (handleError w t1 (some networkError)).world, threw := false } ∧
    handleError (advance (handleError w t1 (some networkError)).world t2) t2
        (some networkError) =
      { world := advance (handleError w t1 (some networkError)).world t2, threw := false } ∧
    (advance (handleError w t1 (some networkError)).world t2).shown =
      (handleError w t1 (some networkError)).world.shown ∧
    (advance (handleError w t1 (some networkError)).world t2).errorLog =
      (handleError w t1 (some networkError)).world.errorLog := by
  have hmsg : getErrorMessage w.onLine (some networkError) = networkMessage := by
    rw [honline]
    decide
  have hf := handleError_accepted_fields w t1 networkError hflag htime
  rw [hmsg] at hf
  simp only [hactive, if_false] at hf
  obtain ⟨-, -, hlast, -, -, hshown, hlog, -, -⟩ := hf
  have hlog2 : (handleError w t1 (some networkError)).world.errorLog =
      (if (networkInfo w t1 :: w.errorLog).length > 100
       then (networkInfo w t1 :: w.errorLog).dropLast else networkInfo w t1 :: w.errorLog) := by
    rw [hlog]
    rfl
  refine ⟨?_, ?_, hlog2, ?_, ?_, ?_, advance_shown _ _, advance_errorLog _ _⟩
  · rw [handleError_of_accepted w t1 _ hflag htime]
    simp only [handleErrorBody]
    rw [handleErrorAction_of_other _ _ (by decide) (by decide)]
  · rw [hshown]
    rfl
  · intro hlen
    rw [hlog2]
    have : ¬ (networkInfo w t1 :: w.errorLog).length > 100 := by
      simp only [List.length_cons]
      omega
    rw [if_neg this, List.length_cons]
  · exact handleError_of_dropped _ _ _ (Or.inr (by rw [hlast]; exact hclose))
  · exact handleError_of_dropped _ _ _
      (Or.inr (by rw [advance_lastErrorTimestamp, hlast]; exact hclose))

/-- Witness for C11: reports at times 1000 and 1050 in the initial state. -/
theorem handleError_debounced_witness :
    initialWorld.isHandlingError = false ∧
    (100 : Int) ≤ 1000 - initialWorld.lastErrorTimestamp ∧
    networkMessage ∉ initialWorld.activeNotifications ∧
    initialWorld.onLine = true ∧
    (1050 : Int) - 1000 < 100 ∧
    (handleError initialWorld 1000 (some networkError)).world.shown =
      initialWorld.shown ++ [(networkMessage, ErrorTypes.NETWORK)] ∧
    handleError (handleError initialWorld 1000 (some networkError)).world 1050
        (some networkError) =
      { world := (handleError initialWorld 1000 (some networkError)).world, threw := false } :=
  ⟨rfl, by decide, by decide, rfl, by decide,
    (handleError_debounced initialWorld 1000 1050 rfl (by decide) (by decide) rfl
      (by decide)).2.1,
    (handleError_debounced initialWorld 1000 1050 rfl (by decide) (by decide) rfl
      (by decide)).2.2.2.2.1⟩

/-- C12, as stated, fails: a second `network` report 200 ms after an accepted
one is itself accepted (the timestamp moves to 1200), but the message is still
active, so there is still one notification and one log entry, not two. -/
theorem handleError_second_report_counterexample :
    (100 : Int) ≤ 1200 - 1000 ∧
    (firstReport initialWorld 1000).errorLog.length = 1 ∧
    (firstReport initialWorld 1000).shown.length = 1 ∧
    (secondReport initialWorld 1000 1200).lastErrorTimestamp = 1200 ∧
    (secondReport initialWorld 1000 1200).errorLog.length = 1 ∧
    (secondReport initialWorld 1000 1200).shown.length = 1 := by
  decide

/-- C12, amended: after an accepted `network` report at time `t1`, an identical
report made at `t2`, at least 100 ms later, is accepted (its time becomes
`lastErrorTimestamp` and the subscribers are called). It produces a second
notification and a second log entry only when the message is no longer
active, that is from 5500 ms after the first report, when the removal timer
has run; before that it produces neither. -/
theorem handleError_after_debounce (w : World) (t1 t2 : Int)
    (hflag : w.isHandlingError = false) (htime : 100 ≤ t1 - w.lastErrorTimestamp)
    (hactive : networkMessage ∉ w.activeNotifications) (honline : w.onLine = true)
    (hpending : ∀ x ∈ w.timers, x.action ≠ TimerAction.fadeOut networkMessage ∧
      x.action ≠ TimerAction.remove networkMessage)
    (hlater : t1 + 100 ≤ t2) :
    (secondReport w t1 t2).lastErrorTimestamp = t2 ∧
    (secondReport w t1 t2).delivered =
      (firstReport w t1).delivered ++
        w.subscribers.map (fun callback => (callback, some networkError)) ∧
    (t2 < t1 + 5500 →
      (secondReport w t1 t2).shown = (firstReport w t1).shown ∧
      (secondReport w t1 t2).errorLog = (firstReport w t1).errorLog) ∧
    (t1 + 5500 ≤ t2 →
      (secondReport w t1 t2).shown =
        (firstReport w t1).shown ++ [(networkMessage, ErrorTypes.NETWORK)] ∧
      (secondReport w t1 t2).errorLog =
        (if (networkInfo (firstReport w t1) t2 :: (firstReport w t1).errorLog).length > 100
         then (networkInfo (firstReport w t1) t2 :: (firstReport w t1).errorLog).dropLast
         else networkInfo (firstReport w t1) t2 :: (firstReport w t1).errorLog)) := by
  have hmsg : getErrorMessage w.onLine (some networkError) = networkMessage := by
    rw [honline]
    decide
  have hf := handleError_accepted_fields w t1 networkError hflag htime
  rw [hmsg] at hf
  simp only [hactive, if_false] at hf
  obtain ⟨-, hsubs1, hlast1, -, honline1, -, -, hactive1, htimers1⟩ := hf
  have hflag2 : (advance (firstReport w t1) t2).isHandlingError = false := by
    apply advance_isHandlingError
    intro _
    refine ⟨{ due := t1 + 100, action := TimerAction.resetHandling }, ?_, rfl, hlater⟩
    show _ ∈ (handleError w t1 (some networkError)).world.timers
    rw [htimers1]
    simp
  have hlast2 : (advance (firstReport w t1) t2).lastErrorTimestamp = t1 := by
    rw [advance_lastErrorTimestamp]
    exact hlast1
  have htime2 : 100 ≤ t2 - (advance (firstReport w t1) t2).lastErrorTimestamp := by
    rw [hlast2]
    omega
  have honline2 : (advance (firstReport w t1) t2).onLine = true := by
    rw [advance_onLine]
    exact honline1.trans honline
  have hmsg2 : getErrorMessage (advance (firstReport w t1) t2).onLine (some networkError) =
      networkMessage := by
    rw [honline2]
    decide
  have hf2 := handleError_accepted_fields (advance (firstReport w t1) t2) t2 networkError
    hflag2 htime2
  rw [hmsg2] at hf2
  obtain ⟨hdel2, -, hlastr, -, -, hshown2, hlog2, -, -⟩ := hf2
  refine ⟨hlastr, ?_, ?_, ?_⟩
  · show (handleError (advance (firstReport w t1) t2) t2 (some networkError)).world.delivered = _
    rw [hdel2, advance_delivered, advance_subscribers]
    show _ ++ List.map _ (handleError w t1 (some networkError)).world.subscribers = _
    rw [hsubs1]
  · intro hsoon
    have hkeep : networkMessage ∈ (advance (firstReport w t1) t2).activeNotifications := by
      apply advance_keeps
      · show _ ∈ (handleError w t1 (some networkError)).world.activeNotifications
        rw [hactive1]
        simp
      · intro x hx ha
        have hx2 : x ∈ (handleError w t1 (some networkError)).world.timers := hx
        rw [htimers1] at hx2
        simp only [List.mem_append, List.mem_singleton] at hx2
        rcases hx2 with (hx2 | rfl) | rfl
        · exact absurd ha (hpending x hx2).2
        · simp at ha
        · simp at ha
      · intro x hx ha
        have hx2 : x ∈ (handleError w t1 (some networkError)).world.timers := hx
        rw [htimers1] at hx2
        simp only [List.mem_append, List.mem_singleton] at hx2
        rcases hx2 with (hx2 | rfl) | rfl
        · exact absurd ha (hpending x hx2).1
        · show t2 < t1 + 5000 + 500
          omega
        · simp at ha
    refine ⟨?_, ?_⟩
    · show (handleError (advance (firstReport w t1) t2) t2 (some networkError)).world.shown = _
      rw [hshown2, if_pos hkeep, advance_shown]
    · show (handleError (advance (firstReport w t1) t2) t2 (some networkError)).world.errorLog = _
      rw [hlog2, if_pos hkeep, advance_errorLog]
  · intro hlate
    have hgone : networkMessage ∉ (advance (firstReport w t1) t2).activeNotifications := by
      apply advance_removes (firstReport w t1) t2
        { due := t1 + 5000, action := TimerAction.fadeOut networkMessage } networkMessage _ rfl
      · show t1 + 5000 + 500 ≤ t2
        omega
      · show _ ∈ (handleError w t1 (some networkError)).world.timers
        rw [htimers1]
        simp
    refine ⟨?_, ?_⟩
    · show (handleError (advance (firstReport w t1) t2) t2 (some networkError)).world.shown = _
      rw [hshown2, if_neg hgone, advance_shown]
      rfl
    · show (handleError (advance (firstReport w t1) t2) t2 (some networkError)).world.errorLog = _
      rw [hlog2, if_neg hgone]
      simp only [logError, advance_errorLog, advance_location, advance_userAgent]
      rfl

/-- Witness for the amended C12: second reports 200 ms and 6000 ms after a
first report at time 1000 in the initial state. -/
theorem handleError_after_debounce_witness :
    initialWorld.isHandlingError = false ∧
    (100 : Int) ≤ 1000 - initialWorld.lastErrorTimestamp ∧
    networkMessage ∉ initialWorld.activeNotifications ∧
    initialWorld.onLine = true ∧
    ((secondReport initialWorld 1000 1200).shown = (firstReport initialWorld 1000).shown ∧
      (secondReport initialWorld 1000 1200).errorLog =
        (firstReport initialWorld 1000).errorLog) ∧
    (secondReport initialWorld 1000 7000).shown =
      (firstReport initialWorld 1000).shown ++ [(networkMessage, ErrorTypes.NETWORK)] :=
  ⟨rfl, by decide, by decide, rfl,
    (handleError_after_debounce initialWorld 1000 1200 rfl (by decide) (by decide) rfl
      (by decide) (by decide)).2.2.1 (by decide),
    ((handleError_after_debounce initialWorld 1000 7000 rfl (by decide) (by decide) rfl
      (by decide) (by decide)).2.2.2 (by decide)).1⟩

/-! The log after a sequence of accepted reports. -/

theorem cons_take_pop {α : Type} (r : α) (l : List α) :
    (if (r :: l.take 100).length > 100 then (r :: l.take 100).dropLast else r :: l.take 100) =
      (r :: l).take 100 := by
  by_cases h : 100 ≤ l.length
  · have hlen : (l.take 100).length = 100 := by
      rw [List.length_take]
      omega
    have hgt : (r :: l.take 100).length > 100 := by
      rw [List.length_cons, hlen]
      omega
    rw [if_pos hgt]
    have hne : l.take 100 ≠ [] := by
      intro hnil
      rw [hnil] at hlen
      simp at hlen
    rw [List.dropLast_cons_of_ne_nil hne, List.dropLast_eq_take, hlen, List.take_take]
    rfl
  · have hlen : (l.take 100).length = l.length := by
      rw [List.length_take]
      omega
    have hle : ¬ (r :: l.take 100).length > 100 := by
      rw [List.length_cons, hlen]
      omega
    rw [if_neg hle, List.take_of_length_le (by omega)]
    rw [List.take_of_length_le (by rw [List.length_cons]; omega)]

theorem report_invariant (w : World) (msgs : List Str)
    (recs : List (Option Str × Option Str × Option Int × Int)) (call : Int × ErrorDescriptor)
    (hinv : ReportInvariant w msgs recs) (hlater : w.lastErrorTimestamp + 100 ≤ call.1)
    (hnew : getErrorMessage true (some call.2) ∉ msgs) :
    ReportInvariant (report w call) (getErrorMessage true (some call.2) :: msgs)
      (expectedSummary call :: recs) ∧
    (report w call).lastErrorTimestamp = call.1 := by
  obtain ⟨honline, hreset, hsub, hlog⟩ := hinv
  have hflag : (advance w call.1).isHandlingError = false := by
    apply advance_isHandlingError
    intro hf
    obtain ⟨timer, hmem, haction, hdue⟩ := hreset hf
    exact ⟨timer, hmem, haction, by omega⟩
  have htime : 100 ≤ call.1 - (advance w call.1).lastErrorTimestamp := by
    rw [advance_lastErrorTimestamp]
    omega
  have honline2 : (advance w call.1).onLine = true := by
    rw [advance_onLine]
    exact honline
  have hfresh : getErrorMessage true (some call.2) ∉ (advance w call.1).activeNotifications :=
    fun hmem => hnew (hsub _ (advance_activeNotifications_subset w call.1 _ hmem))
  have hf := handleError_accepted_fields (advance w call.1) call.1 call.2 hflag htime
  rw [honline2] at hf
  simp only [hfresh, if_false] at hf
  obtain ⟨-, -, hlast, -, honline3, -, hlog3, hactive3, htimers3⟩ := hf
  refine ⟨⟨?_, ?_, ?_, ?_⟩, hlast⟩
  · exact honline3
  · intro _
    refine ⟨{ due := call.1 + 100, action := TimerAction.resetHandling }, ?_, rfl, ?_⟩
    · show _ ∈ (handleError (advance w call.1) call.1 (some call.2)).world.timers
      rw [htimers3]
      simp
    · show call.1 + 100 ≤
        (handleError (advance w call.1) call.1 (some call.2)).world.lastErrorTimestamp + 100
      rw [hlast]
  · intro m hm
    have hm2 : m ∈ (handleError (advance w call.1) call.1 (some call.2)).world.activeNotifications :=
      hm
    rw [hactive3] at hm2
    rcases List.mem_append.mp hm2 with hm3 | hm3
    · exact List.mem_cons_of_mem _ (hsub m (advance_activeNotifications_subset w call.1 m hm3))
    · rw [List.mem_singleton.mp hm3]
      exact List.mem_cons_self _ _
  · show List.map summary
      (handleError (advance w call.1) call.1 (some call.2)).world.errorLog = _
    rw [hlog3]
    simp only [logError, advance_errorLog]
    rw [← cons_take_pop, ← hlog]
    split_ifs with h1 h2 h2
    · rw [List.map_dropLast]
      rfl
    · simp only [List.length_cons, List.length_map] at h1 h2
      exact absurd h1 h2
    · simp only [List.length_cons, List.length_map] at h1 h2
      exact absurd h2 h1
    · rfl

theorem reportAll_errorLog (calls : List (Int × ErrorDescriptor)) (w : World)
    (msgs : List Str) (recs : List (Option Str × Option Str × Option Int × Int))
    (hinv : ReportInvariant w msgs recs)
    (hspaced : List.Chain (fun a b => a + 100 ≤ b) w.lastErrorTimestamp (calls.map Prod.fst))
    (hnew : ∀ call ∈ calls, getErrorMessage true (some call.2) ∉ msgs)
    (hdistinct : (calls.map fun call => getErrorMessage true (some call.2)).Nodup) :
    (reportAll w calls).errorLog.map summary =
      ((calls.map expectedSummary).reverse ++ recs).take 100 := by
  induction calls generalizing w msgs recs with
  | nil => simpa [reportAll] using hinv.2.2.2
  | cons call rest ih =>
    rw [List.map_cons, List.chain_cons] at hspaced
    rw [List.map_cons, List.nodup_cons] at hdistinct
    obtain ⟨hinv2, hlast⟩ := report_invariant w msgs recs call hinv hspaced.1
      (hnew call (List.mem_cons_self _ _))
    have hstep := ih (report w call) (getErrorMessage true (some call.2) :: msgs)
      (expectedSummary call :: recs) hinv2 (by rw [hlast]; exact hspaced.2)
      (by
        intro c hc hmem
        rcases List.mem_cons.mp hmem with heq | hmem
        · exact hdistinct.1 (List.mem_map.mpr ⟨c, hc, heq⟩)
        · exact hnew c (List.mem_cons_of_mem _ hc) hmem)
      hdistinct.2
    show (reportAll (report w call) rest).errorLog.map summary = _
    rw [hstep, List.map_cons, List.reverse_cons, List.append_assoc]
    rfl

theorem initialWorld_invariant : ReportInvariant initialWorld [] [] := by
  refine ⟨rfl, ?_, ?_, rfl⟩
  · intro h
    exact absurd h (by decide)
  · intro m hm
    exact absurd hm (List.not_mem_nil _)

/-- C14: from the initial state (empty log), on line, after reports at least
100 ms apart whose computed messages are pairwise distinct, the log holds the
records of the min(n, 100) most recent reports, most recent first, each with
the type, status and time of its report and the message `getErrorMessage`
computes; after 101 reports these are the records of reports 2 to 101. -/
theorem errorLog_most_recent_first (calls : List (Int × ErrorDescriptor))
    (hspaced : List.Chain (fun a b => a + 100 ≤ b) initialWorld.lastErrorTimestamp
      (calls.map Prod.fst))
    (hdistinct : (calls.map fun call => getErrorMessage true (some call.2)).Nodup) :
    (reportAll initialWorld calls).errorLog.map summary =
      ((calls.map expectedSummary).reverse).take 100 ∧
    (reportAll initialWorld calls).errorLog.length = min calls.length 100 ∧
    (calls.length = 101 →
      (reportAll initialWorld calls).errorLog.map summary =
        (calls.tail.map expectedSummary).reverse) := by
  have key := reportAll_errorLog calls initialWorld [] [] initialWorld_invariant hspaced
    (fun call _ hmem => absurd hmem (List.not_mem_nil _)) hdistinct
  rw [List.append_nil] at key
  refine ⟨key, ?_, ?_⟩
  · have := congrArg List.length key
    rw [Nat.min_comm]
    simpa using this
  · intro hlen
    rw [key]
    cases calls with
    | nil => simp at hlen
    | cons call rest =>
      have hrest : rest.length = 100 := by simpa using hlen
      rw [List.map_cons, List.reverse_cons, List.tail_cons]
      rw [List.take_append_of_le_length (by simp [hrest])]
      rw [List.take_of_length_le (by simp [hrest])]

theorem twoCalls_spaced :
    List.Chain (fun a b => a + 100 ≤ b) initialWorld.lastErrorTimestamp
      (twoCalls.map Prod.fst) := by
  show List.Chain (fun a b : Int => a + 100 ≤ b) 0 [1000, 2000]
  exact List.Chain.cons (by decide) (List.Chain.cons (by decide) List.Chain.nil)

/-- Witness for C14: a `network` report at time 1000 and an `api` report with
status 404 at time 2000. -/
theorem errorLog_most_recent_first_witness :
    List.Chain (fun a b => a + 100 ≤ b) initialWorld.lastErrorTimestamp
      (twoCalls.map Prod.fst) ∧
    (twoCalls.map fun call => getErrorMessage true (some call.2)).Nodup ∧
    (reportAll initialWorld twoCalls).errorLog.map summary =
      ((twoCalls.map expectedSummary).reverse).take 100 :=
  ⟨twoCalls_spaced, by decide,
    (errorLog_most_recent_first twoCalls twoCalls_spaced (by decide)).1⟩

/-! ### Delivery to subscribers and exceptions -/

theorem foldl_callSubscriberCaught (subs : List Callback) (w : World)
    (error : Option ErrorDescriptor) :
    subs.foldl
        (fun o callback => if o.threw then o else callSubscriberCaught o.world callback error)
        { world := w, threw := false } =
      { world := { w with delivered := w.delivered ++ subs.map fun callback => (callback, error) }
        threw := false } := by
  induction subs generalizing w with
  | nil => simp
  | cons callback rest ih =>
    rw [List.foldl_cons]
    show List.foldl _
      ({ world := { w with delivered := w.delivered ++ [(callback, error)] }, threw := false } :
        Outcome)
      rest = _
    rw [ih]
    simp

/-- The loop run callback by callback is `notifySubscribers`: it never throws
and calls every subscriber, whichever of them throw. -/
theorem forEachSubscriber_eq (w : World) (error : Option ErrorDescriptor) :
    forEachSubscriber w error = { world := notifySubscribers w error, threw := false } := by
  unfold forEachSubscriber notifySubscribers
  exact foldl_callSubscriberCaught w.subscribers w error

theorem setAdd_nodup {α : Type} [DecidableEq α] (s : List α) (a : α) (h : s.Nodup) :
    (setAdd s a).Nodup := by
  unfold setAdd
  split_ifs with hmem
  · exact h
  · exact List.nodup_append.mpr ⟨h, List.nodup_singleton a, by simpa using hmem⟩

theorem setDelete_nodup {α : Type} [DecidableEq α] (s : List α) (a : α) (h : s.Nodup) :
    (setDelete s a).Nodup :=
  h.filter _

theorem handleError_subscribers (w : World) (now : Int) (error : Option ErrorDescriptor) :
    (handleError w now error).world.subscribers = w.subscribers := by
  unfold handleError
  split_ifs
  · rfl
  · cases error with
    | none =>
      simp only [handleErrorBody]
      split_ifs <;> rfl
    | some e =>
      simp only [handleErrorBody, handleErrorAction_subscribers, notifySubscribers]
      split_ifs <;> rfl

theorem applyOp_subscribers_nodup (w : World) (op : Op) (h : w.subscribers.Nodup) :
    (applyOp w op).subscribers.Nodup := by
  cases op with
  | handleError now error =>
    show (handleError w now error).world.subscribers.Nodup
    rw [handleError_subscribers]
    exact h
  | logError now error => exact h
  | showNotification now message type => exact h
  | subscribe callback => exact setAdd_nodup _ _ h
  | unsubscribe callback => exact setDelete_nodup _ _ h
  | advance t =>
    show (advance w t).subscribers.Nodup
    rw [advance_subscribers]
    exact h
  | setOnLine onLine => exact h

/-- The subscriber set of a reachable state has no duplicate. -/
theorem run_subscribers_nodup (ops : List Op) (w : World) (h : w.subscribers.Nodup) :
    (run w ops).subscribers.Nodup := by
  induction ops generalizing w with
  | nil => exact h
  | cons op rest ih => exact ih _ (applyOp_subscribers_nodup w op h)

theorem handleErrorAction_congr (w w2 : World) (e : ErrorDescriptor)
    (hloc : w2.location = w.location) (hstore : w2.sessionStorage = w.sessionStorage)
    (hthrows : w2.storageThrows = w.storageThrows) :
    (handleErrorAction w2 e).world.location = (handleErrorAction w e).world.location ∧
    (handleErrorAction w2 e).world.sessionStorage =
      (handleErrorAction w e).world.sessionStorage ∧
    (handleErrorAction w2 e).threw = (handleErrorAction w e).threw := by
  unfold handleErrorAction
  rw [hthrows]
  split_ifs <;> simp [hloc, hstore]

/-- The corrective action of an accepted report is the one `handleErrorAction`
performs on the state before the report. -/
theorem handleError_accepted_action (w : World) (now : Int) (e : ErrorDescriptor)
    (hflag : w.isHandlingError = false) (htime : 100 ≤ now - w.lastErrorTimestamp) :
    (handleError w now (some e)).world.location = (handleErrorAction w e).world.location ∧
    (handleError w now (some e)).world.sessionStorage =
      (handleErrorAction w e).world.sessionStorage ∧
    (handleError w now (some e)).threw = (handleErrorAction w e).threw := by
  rw [handleError_of_accepted w now (some e) hflag htime]
  simp only [handleErrorBody]
  split_ifs
  · exact handleErrorAction_congr w _ e rfl rfl rfl
  · exact handleErrorAction_congr w _ e rfl rfl rfl

/-- C21: every accepted report of a descriptor is delivered to every
registered subscriber, once each (the list of calls has no duplicate and holds
exactly the subscribers), with the original descriptor, whether or not its
message was already active; the loop catches what a subscriber throws,
so the remaining subscribers are still called, and the corrective action of
the descriptor's kind is then performed. -/
theorem handleError_delivers (w : World) (now : Int) (e : ErrorDescriptor)
    (hflag : w.isHandlingError = false) (htime : 100 ≤ now - w.lastErrorTimestamp)
    (hset : w.subscribers.Nodup) :
    (handleError w now (some e)).world.delivered =
      w.delivered ++ w.subscribers.map (fun callback => (callback, some e)) ∧
    (w.subscribers.map fun callback => (callback, some e)).Nodup ∧
    (∀ callback, (callback, some e) ∈ (w.subscribers.map fun callback => (callback, some e)) ↔
      callback ∈ w.subscribers) ∧
    forEachSubscriber w (some e) =
      { world := notifySubscribers w (some e), threw := false } ∧
    (handleError w now (some e)).world.location = (handleErrorAction w e).world.location ∧
    (handleError w now (some e)).world.sessionStorage =
      (handleErrorAction w e).world.sessionStorage ∧
    (handleError w now (some e)).threw = (handleErrorAction w e).threw := by
  have hinj : Function.Injective (fun callback : Callback => (callback, some e)) := by
    intro a b hab
    exact (Prod.mk.inj hab).1
  obtain ⟨h1, h2, h3⟩ := handleError_accepted_action w now e hflag htime
  refine ⟨(handleError_accepted_fields w now e hflag htime).1, ?_, ?_,
    forEachSubscriber_eq w (some e), h1, h2, h3⟩
  · exact hset.map hinj
  · intro callback
    exact List.mem_map_of_injective hinj

/-- Witness for C21: a report at time 1000 with a throwing callback subscribed
before `callbackB`. -/
theorem handleError_delivers_witness :
    throwingSubscribers.isHandlingError = false ∧
    (100 : Int) ≤ 1000 - throwingSubscribers.lastErrorTimestamp ∧
    throwingSubscribers.subscribers.Nodup ∧
    (handleError throwingSubscribers 1000 (some networkError)).world.delivered =
      throwingSubscribers.delivered ++
        throwingSubscribers.subscribers.map (fun callback => (callback, some networkError)) :=
  ⟨rfl, by decide, by decide,
    (handleError_delivers throwingSubscribers 1000 networkError rfl (by decide)
      (by decide)).1⟩

/-- C22: `handleError` can throw. A null argument that is accepted always
throws (the property access `error.type` fails), and so does an accepted
`auth` report when writing to `sessionStorage` throws: the `try` block has a
`finally` but no `catch`. In every other case, whatever the subscribers do,
`handleError` returns normally. -/
theorem handleError_throws :
    (handleError initialWorld 1000 none).threw = true ∧
    (handleError storageFailing 1000 (some (withAuthType networkError))).threw = true ∧
    (∀ (w : World) (now : Int),
      (handleError w now none).threw =
        !(w.isHandlingError || decide (now - w.lastErrorTimestamp < 100))) ∧
    (∀ (w : World) (now : Int) (e : ErrorDescriptor),
      (handleError w now (some e)).threw =
        (!(w.isHandlingError || decide (now - w.lastErrorTimestamp < 100)) &&
          (decide (e.type = some ErrorTypes.AUTH) && w.storageThrows))) := by
  refine ⟨by decide, by decide, ?_, ?_⟩
  · intro w now
    unfold handleError
    split_ifs with h
    · simp [h]
    · simp only [handleErrorBody]
      split_ifs <;> simp [h]
  · intro w now e
    unfold handleError
    split_ifs with h
    · simp [h]
    · simp only [handleErrorBody, handleErrorAction, notifySubscribers, logError,
        showNotification]
      split_ifs <;> simp_all

/-! ### Reports made off line -/

theorem getErrorMessage_offline (e : ErrorDescriptor) :
    getErrorMessage false (some e) = offlineMessage := by
  simp [getErrorMessage, offlineMessage]

/-- A report whose message is already active adds no notification and no log
entry, and sets no timer but the one that clears the flag. -/
theorem handleError_of_active (w : World) (now : Int) (e : ErrorDescriptor)
    (hm : getErrorMessage w.onLine (some e) ∈ w.activeNotifications) :
    (handleError w now (some e)).world.shown = w.shown ∧
    (handleError w now (some e)).world.errorLog = w.errorLog ∧
    (handleError w now (some e)).world.activeNotifications = w.activeNotifications ∧
    (handleError w now (some e)).world.onLine = w.onLine ∧
    (∀ x ∈ (handleError w now (some e)).world.timers,
      x ∈ w.timers ∨ x.action = TimerAction.resetHandling) := by
  by_cases hg : w.isHandlingError = true ∨ now - w.lastErrorTimestamp < 100
  · rw [handleError_of_dropped w now (some e) hg]
    exact ⟨rfl, rfl, rfl, rfl, fun x hx => Or.inl hx⟩
  · have hflag : w.isHandlingError = false := by
      cases hf : w.isHandlingError with
      | false => rfl
      | true => exact absurd (Or.inl hf) hg
    have htime : 100 ≤ now - w.lastErrorTimestamp := by
      by_contra hlt
      exact hg (Or.inr (by omega))
    have hf := handleError_accepted_fields w now e hflag htime
    simp only [hm, if_true] at hf
    obtain ⟨-, -, -, -, honline, hshown, hlog, hactive, htimers⟩ := hf
    refine ⟨hshown, hlog, hactive, honline, ?_⟩
    intro x hx
    rw [htimers] at hx
    rcases List.mem_append.mp hx with hx | hx
    · exact Or.inl hx
    · rw [List.mem_singleton.mp hx]
      exact Or.inr rfl

/-- Every timer pending after `advance` was pending before or is the removal
scheduled by a `fadeOut` timer that was pending before. -/
theorem advance_timers (w : World) (t : Int) (x : Timer) (h : x ∈ (advance w t).timers) :
    x ∈ w.timers ∨ ∃ y ∈ w.timers, ∃ m, y.action = TimerAction.fadeOut m ∧
      x = { due := y.due + 500, action := TimerAction.remove m } := by
  have hfrom : ∀ z, z ∈ (fireDue w t).timers →
      z ∈ w.timers ∨ ∃ y ∈ w.timers, ∃ m, y.action = TimerAction.fadeOut m ∧
        z = { due := y.due + 500, action := TimerAction.remove m } := by
    intro z hz
    rcases fireDue_timers w t z hz with ⟨hz1, -⟩ | ⟨y, hy, -, m, hm, hzy⟩
    · exact Or.inl hz1
    · exact Or.inr ⟨y, hy, m, hm, hzy⟩
  rcases fireDue_timers (fireDue w t) t x h with ⟨hx1, -⟩ | ⟨y, hy, -, m, hm, hxy⟩
  · exact hfrom x hx1
  · rcases hfrom y hy with hy1 | ⟨y2, -, m2, -, hy2⟩
    · exact Or.inr ⟨y, hy1, m, hm, hxy⟩
    · rw [hy2] at hm
      simp at hm

/-- While a message stays active (no removal of it is due by the time `T`), a
sequence of reports that all get this message, made by the time `T`, adds no
notification and no log entry. -/
theorem reportAll_of_active (calls : List (Int × ErrorDescriptor)) (w : World) (T : Int)
    (m : Str) (hmsg : ∀ e, getErrorMessage w.onLine (some e) = m)
    (hactive : m ∈ w.activeNotifications)
    (hremove : ∀ x ∈ w.timers, x.action = TimerAction.remove m → T < x.due)
    (hfade : ∀ x ∈ w.timers, x.action = TimerAction.fadeOut m → T < x.due + 500)
    (htimes : ∀ call ∈ calls, call.1 ≤ T) :
    (reportAll w calls).shown = w.shown ∧ (reportAll w calls).errorLog = w.errorLog := by
  induction calls generalizing w with
  | nil => exact ⟨rfl, rfl⟩
  | cons call rest ih =>
    have ht : call.1 ≤ T := htimes call (List.mem_cons_self _ _)
    have hkeep : m ∈ (advance w call.1).activeNotifications :=
      advance_keeps w call.1 m hactive
        (fun x hx ha => by have := hremove x hx ha; omega)
        (fun x hx ha => by have := hfade x hx ha; omega)
    have hmsg2 : getErrorMessage (advance w call.1).onLine (some call.2) = m := by
      rw [advance_onLine]
      exact hmsg call.2
    obtain ⟨hshown, hlog, hact, honline, htimers⟩ :=
      handleError_of_active (advance w call.1) call.1 call.2 (by rw [hmsg2]; exact hkeep)
    have hstep := ih (report w call)
      (by
        intro e
        show getErrorMessage (handleError (advance w call.1) call.1 (some call.2)).world.onLine
          (some e) = m
        rw [honline, advance_onLine]
        exact hmsg e)
      (by
        show m ∈ (handleError (advance w call.1) call.1 (some call.2)).world.activeNotifications
        rw [hact]
        exact hkeep)
      (by
        intro x hx ha
        rcases htimers x hx with hx2 | hx2
        · rcases advance_timers w call.1 x hx2 with hx3 | ⟨y, hy, m2, hy2, hxy⟩
          · exact hremove x hx3 ha
          · have hm2 : m2 = m := by
              rw [hxy] at ha
              simpa using ha
            subst hm2
            rw [hxy]
            exact hfade y hy hy2
        · rw [hx2] at ha
          simp at ha)
      (by
        intro x hx ha
        rcases htimers x hx with hx2 | hx2
        · rcases advance_timers w call.1 x hx2 with hx3 | ⟨y, hy, m2, hy2, hxy⟩
          · exact hfade x hx3 ha
          · rw [hxy] at ha
            simp at ha
        · rw [hx2] at ha
          simp at ha)
      (fun c hc => htimes c (List.mem_cons_of_mem _ hc))
    show (reportAll (report w call) rest).shown = w.shown ∧
      (reportAll (report w call) rest).errorLog = w.errorLog
    rw [hstep.1, hstep.2]
    refine ⟨?_, ?_⟩
    · show (handleError (advance w call.1) call.1 (some call.2)).world.shown = w.shown
      rw [hshown, advance_shown]
    · show (handleError (advance w call.1) call.1 (some call.2)).world.errorLog = w.errorLog
      rw [hlog, advance_errorLog]

/-- C27: while the browser is off line `getErrorMessage` returns the
connection message for every descriptor, whatever its kind, status or message.
Hence, off line, a report made while that message is active adds no
notification and no log entry; an accepted report made while it is not active
adds exactly one of each and makes the message active; and until the removal
of the message is due no sequence of reports adds any. -/
theorem offline_reports_share_message (w : World) (honline : w.onLine = false) :
    (∀ e, getErrorMessage false (some e) = offlineMessage) ∧
    (∀ now e, offlineMessage ∈ w.activeNotifications →
      (handleError w now (some e)).world.shown = w.shown ∧
      (handleError w now (some e)).world.errorLog = w.errorLog) ∧
    (∀ now e, w.isHandlingError = false → 100 ≤ now - w.lastErrorTimestamp →
      offlineMessage ∉ w.activeNotifications →
      (handleError w now (some e)).world.shown =
        w.shown ++ [(offlineMessage, e.type.getD "error".toList)] ∧
      (handleError w now (some e)).world.errorLog =
        (logError w now { e with message := some offlineMessage }).errorLog ∧
      offlineMessage ∈ (handleError w now (some e)).world.activeNotifications) ∧
    (∀ calls T, offlineMessage ∈ w.activeNotifications →
      (∀ x ∈ w.timers, x.action = TimerAction.remove offlineMessage → T < x.due) →
      (∀ x ∈ w.timers, x.action = TimerAction.fadeOut offlineMessage → T < x.due + 500) →
      (∀ call ∈ calls, call.1 ≤ T) →
      (reportAll w calls).shown = w.shown ∧ (reportAll w calls).errorLog = w.errorLog) := by
  have hmsg : ∀ e, getErrorMessage w.onLine (some e) = offlineMessage := by
    intro e
    rw [honline]
    exact getErrorMessage_offline e
  refine ⟨getErrorMessage_offline, ?_, ?_, ?_⟩
  · intro now e hactive
    obtain ⟨h1, h2, -⟩ := handleError_of_active w now e (by rw [hmsg e]; exact hactive)
    exact ⟨h1, h2⟩
  · intro now e hflag htime hfresh
    have hf := handleError_accepted_fields w now e hflag htime
    rw [hmsg e] at hf
    simp only [hfresh, if_false] at hf
    obtain ⟨-, -, -, -, -, hshown, hlog, hactive, -⟩ := hf
    refine ⟨hshown, hlog, ?_⟩
    rw [hactive]
    simp
  · intro calls T hactive hremove hfade htimes
    exact reportAll_of_active calls w T offlineMessage hmsg hactive hremove hfade htimes

/-- Witness for C27: off line, a `network` report and an `api` report get the
same message, and the first report at time 1000 shows it once. -/
theorem offline_reports_share_message_witness :
    offlineWorld.onLine = false ∧
    getErrorMessage false (some networkError) = getErrorMessage false (some (apiError (some 404))) ∧
    (handleError offlineWorld 1000 (some networkError)).world.shown =
      offlineWorld.shown ++ [(offlineMessage, networkError.type.getD "error".toList)] :=
  ⟨rfl,
    ((offline_reports_share_message offlineWorld rfl).1 networkError).trans
      ((offline_reports_share_message offlineWorld rfl).1 (apiError (some 404))).symm,
    ((offline_reports_share_message offlineWorld rfl).2.2.1 1000 networkError rfl (by decide)
      (by decide)).1⟩

/-! ### The interceptors -/

/-- C25, as stated, fails: an `XMLHttpRequest` that completes with status 401
is reported with the kind `auth`, not `api`. -/
theorem xhrLoadReport_401_counterexample :
    (401 : Int) ≥ 400 ∧
    (xhrLoadReport 401 [] 10).map (fun error => error.type) = some (some ErrorTypes.AUTH) ∧
    (xhrLoadReport 401 [] 10).map (fun error => error.type) ≠ some (some ErrorTypes.API) ∧
    ((xhrOnLoad { world := initialWorld, reported := [] } 1000 401 [] 10).reported.map
      fun error => error.type) = [some ErrorTypes.AUTH] := by
  decide

/-- C25, amended: an `XMLHttpRequest` that completes with a status `s` of 400
or more is reported to the hub with that status; the kind is `api` for every
such `s` other than 401, and `auth` for 401. -/
theorem xhrLoadReport_kind (status : Int) (statusText : Str) (duration now : Int)
    (m : Monitored) (hs : status ≥ 400) :
    (∃ error, xhrLoadReport status statusText duration = some error ∧
      error.status = some status ∧
      error.type = some (if status = 401 then ErrorTypes.AUTH else ErrorTypes.API) ∧
      (xhrOnLoad m now status statusText duration).reported = m.reported ++ [error] ∧
      (xhrOnLoad m now status statusText duration).world =
        (handleError m.world now (some error)).world) ∧
    (status ≠ 401 →
      (xhrLoadReport status statusText duration).map (fun error => error.type) =
        some (some ErrorTypes.API)) ∧
    (status = 401 →
      (xhrLoadReport status statusText duration).map (fun error => error.type) =
        some (some ErrorTypes.AUTH)) := by
  refine ⟨⟨_, if_pos hs, rfl, rfl, ?_, ?_⟩, ?_, ?_⟩
  · simp [xhrOnLoad, xhrLoadReport, hs]
  · simp [xhrOnLoad, xhrLoadReport, hs]
  · intro hne
    simp [xhrLoadReport, hs, hne]
  · intro heq
    simp [xhrLoadReport, heq]

/-- Witness for the amended C25 at the statuses 404 and 401. -/
theorem xhrLoadReport_kind_witness :
    (404 : Int) ≥ 400 ∧ (404 : Int) ≠ 401 ∧
    (xhrLoadReport 404 [] 10).map (fun error => error.type) = some (some ErrorTypes.API) ∧
    (xhrLoadReport 401 [] 10).map (fun error => error.type) = some (some ErrorTypes.AUTH) :=
  ⟨by decide, by decide,
    (xhrLoadReport_kind 404 [] 10 1000 { world := initialWorld, reported := [] }
      (by decide)).2.1 (by decide),
    (xhrLoadReport_kind 401 [] 10 1000 { world := initialWorld, reported := [] }
      (by decide)).2.2 rfl⟩

theorem successCount_append (w : World) (entry : Str × Str) (shown : List (Str × Str))
    (h : shown = w.shown ++ [entry]) :
    (shown.filter fun s => decide (s = connectionRestored)).length =
      successCount w + (if entry = connectionRestored then 1 else 0) := by
  rw [h, successCount, List.filter_append, List.length_append]
  by_cases he : entry = connectionRestored <;> simp [he]

/-- A report of `connectionLost` never shows a `Connection restored`
notification. -/
theorem handleError_successCount (w : World) (now : Int) :
    successCount (handleError w now (some connectionLost)).world = successCount w := by
  by_cases hg : w.isHandlingError = true ∨ now - w.lastErrorTimestamp < 100
  · rw [handleError_of_dropped w now _ hg]
  · have hflag : w.isHandlingError = false := by
      cases hf : w.isHandlingError with
      | false => rfl
      | true => exact absurd (Or.inl hf) hg
    have htime : 100 ≤ now - w.lastErrorTimestamp := by
      by_contra hlt
      exact hg (Or.inr (by omega))
    have hshown := (handleError_accepted_fields w now connectionLost hflag htime).2.2.2.2.2.1
    unfold successCount
    rw [hshown]
    split_ifs
    · rfl
    · have hne : ¬ ((getErrorMessage w.onLine (some connectionLost),
          connectionLost.type.getD "error".toList) = connectionRestored) := by
        intro heq
        have := (Prod.mk.inj heq).2
        exact absurd this (by decide)
      rw [List.filter_append, List.length_append,
        List.filter_cons_of_neg (by rw [decide_eq_true_eq]; exact hne)]
      rfl

theorem successCount_onLine (w : World) (b : Bool) :
    successCount { w with onLine := b } = successCount w := rfl

theorem dispatch_offline (c : Connectivity) (now : Int) :
    (dispatch c (now, ConnectivityEvent.offline)).wasOffline = true ∧
    (dispatch c (now, ConnectivityEvent.offline)).reported = c.reported ++ [connectionLost] ∧
    successCount (dispatch c (now, ConnectivityEvent.offline)).world = successCount c.world := by
  refine ⟨rfl, rfl, ?_⟩
  show successCount (handleError { advance c.world now with onLine := false } now
    (some connectionLost)).world = successCount c.world
  rw [handleError_successCount]
  show ((advance c.world now).shown.filter fun s => decide (s = connectionRestored)).length = _
  rw [advance_shown]
  rfl

theorem dispatch_online (c : Connectivity) (now : Int) :
    (dispatch c (now, ConnectivityEvent.online)).wasOffline = false ∧
    (dispatch c (now, ConnectivityEvent.online)).reported = c.reported ∧
    successCount (dispatch c (now, ConnectivityEvent.online)).world =
      successCount c.world + (if c.wasOffline then 1 else 0) := by
  cases hw : c.wasOffline with
  | false =>
    simp [dispatch, onOnline, hw]
    show ((advance c.world now).shown.filter fun s => decide (s = connectionRestored)).length = _
    rw [advance_shown]
    rfl
  | true =>
    refine ⟨by simp [dispatch, onOnline, hw], by simp [dispatch, onOnline, hw], ?_⟩
    simp only [dispatch, onOnline, hw, if_true]
    unfold successCount
    simp [showNotification, List.filter_append, advance_shown]

theorem dispatchAll_successCount (events : List (Int × ConnectivityEvent)) (c : Connectivity) :
    successCount (dispatchAll c events).world =
      successCount c.world + transitions c.wasOffline (events.map Prod.snd) := by
  induction events generalizing c with
  | nil => simp [dispatchAll, transitions]
  | cons event rest ih =>
    show successCount (dispatchAll (dispatch c event) rest).world = _
    rw [ih]
    obtain ⟨now, kind⟩ := event
    cases kind with
    | online =>
      obtain ⟨h1, -, h3⟩ := dispatch_online c now
      rw [h1, h3, List.map_cons]
      simp only [transitions]
      omega
    | offline =>
      obtain ⟨h1, -, h3⟩ := dispatch_offline c now
      rw [h1, h3, List.map_cons]
      simp only [transitions]

theorem transitions_le (events : List ConnectivityEvent) (offline : Bool) :
    transitions offline events ≤
      events.count ConnectivityEvent.offline + (if offline then 1 else 0) ∧
    transitions offline events ≤ events.count ConnectivityEvent.online := by
  induction events generalizing offline with
  | nil => simp [transitions]
  | cons event rest ih =>
    cases event with
    | online =>
      have h := ih false
      simp only [transitions, List.count_cons_self]
      have hc : List.count ConnectivityEvent.offline (ConnectivityEvent.online :: rest) =
          List.count ConnectivityEvent.offline rest := by
        simp
      rw [hc]
      simp only [Bool.false_eq_true, if_false] at h
      constructor
      · split_ifs <;> omega
      · split_ifs <;> omega
    | offline =>
      have h := ih true
      simp only [transitions, List.count_cons_self]
      have hc : List.count ConnectivityEvent.online (ConnectivityEvent.offline :: rest) =
          List.count ConnectivityEvent.online rest := by
        simp
      rw [hc]
      simp only [if_true] at h
      constructor
      · split_ifs <;> omega
      · omega

/-- C26: the connectivity listeners as a state machine over `wasOffline`.
Every `offline` event calls `handleError` with a `network` descriptor and sets
the flag; an `online` event shows `Connection restored` iff the flag is set and
clears it. So over every event sequence the number of these notifications is
the number of offline-then-online transitions, at most the number of `offline`
events (plus one when monitoring starts off line) and at most the number of
`online` events; a second consecutive `online` event shows nothing. -/
theorem connectivity_state_machine (c : Connectivity) (events : List (Int × ConnectivityEvent))
    (t1 t2 : Int) :
    ((dispatch c (t1, ConnectivityEvent.offline)).wasOffline = true ∧
      (dispatch c (t1, ConnectivityEvent.offline)).reported = c.reported ++ [connectionLost] ∧
      connectionLost.type = some ErrorTypes.NETWORK ∧
      successCount (dispatch c (t1, ConnectivityEvent.offline)).world = successCount c.world) ∧
    ((dispatch c (t1, ConnectivityEvent.online)).wasOffline = false ∧
      successCount (dispatch c (t1, ConnectivityEvent.online)).world =
        successCount c.world + (if c.wasOffline then 1 else 0)) ∧
    successCount (dispatchAll c events).world =
      successCount c.world + transitions c.wasOffline (events.map Prod.snd) ∧
    transitions c.wasOffline (events.map Prod.snd) ≤
      (events.map Prod.snd).count ConnectivityEvent.offline +
        (if c.wasOffline then 1 else 0) ∧
    transitions c.wasOffline (events.map Prod.snd) ≤
      (events.map Prod.snd).count ConnectivityEvent.online ∧
    successCount (dispatch (dispatch c (t1, ConnectivityEvent.online))
        (t2, ConnectivityEvent.online)).world =
      successCount (dispatch c (t1, ConnectivityEvent.online)).world := by
  obtain ⟨h1, h2, h3⟩ := dispatch_offline c t1
  obtain ⟨h4, -, h6⟩ := dispatch_online c t1
  refine ⟨⟨h1, h2, rfl, h3⟩, ⟨h4, h6⟩, dispatchAll_successCount events c,
    (transitions_le _ _).1, (transitions_le _ _).2, ?_⟩
  rw [(dispatch_online (dispatch c (t1, ConnectivityEvent.online)) t2).2.2, h4]
  simp

theorem raceTimeout_of_early_resolved (ok : Bool) (status d : Int) (hd : d < 30000) :
    raceTimeout (Settled.resolved ok status d) = Settled.resolved ok status d := by
  simp [raceTimeout, hd]

theorem raceTimeout_of_early_rejected (m : Str) (d : Int) (hd : d < 30000) :
    raceTimeout (Settled.rejected m d) = Settled.rejected m d := by
  simp [raceTimeout, hd]

theorem fetchWrapper_of_rejected (w : World) (start : Int) (endpoint m : Str) (d : Int)
    (network : Settled) (h : raceTimeout network = Settled.rejected m d) :
    fetchWrapper originalFetch w start endpoint network =
      { world := (handleError w (start + d) (some (fetchFailure m endpoint d))).world
        reported := [fetchFailure m endpoint d]
        settled := Settled.rejected m d } := by
  simp [fetchWrapper, originalFetch, h]

theorem fetchWrapper_of_resolved (w : World) (start : Int) (endpoint : Str) (ok : Bool)
    (status d : Int) (network : Settled)
    (h : raceTimeout network = Settled.resolved ok status d) :
    fetchWrapper originalFetch w start endpoint network =
      (if !ok then
        { world := (handleError w (start + d) (some (apiFailure status endpoint d))).world
          reported := [apiFailure status endpoint d]
          settled := Settled.resolved ok status d }
       else { world := w, reported := [], settled := Settled.resolved ok status d }) := by
  simp [fetchWrapper, originalFetch, h]

/-- C24, as stated, fails: when the underlying call rejects after 10 ms with an
error whose message is `Request timeout`, the timer has not won, yet the
wrapper reports a `timeout` error, not a `network` error. -/
theorem fetchWrapper_message_counterexample :
    raceTimeout (Settled.rejected "Request timeout".toList 10) =
      Settled.rejected "Request timeout".toList 10 ∧
    ((windowFetch loaded initialWorld 1000 jobsEndpoint
        (Settled.rejected "Request timeout".toList 10)).reported.map fun error => error.type) =
      [some ErrorTypes.TIMEOUT] ∧
    ((windowFetch loaded initialWorld 1000 jobsEndpoint
        (Settled.rejected "Request timeout".toList 10)).reported.map fun error => error.type) ≠
      [some ErrorTypes.NETWORK] := by
  decide

/-- C24, amended: the `fetch` wrapper classifies every outcome. An ok response
is returned and nothing is reported; a response that is not ok is returned
after one `api` report carrying its status; when the 30000 ms timer wins, one
`timeout` report is made and the wrapper rejects with `Request timeout`; when
the underlying call rejects first, the wrapper rejects with the same error
after one report, of kind `network`, or of kind `timeout` when the message of
the error is `Request timeout`, the message by which the timer is recognised. -/
theorem fetchWrapper_classifies (w : World) (start : Int) (endpoint : Str)
    (status d late : Int) (m : Str)
    (hd : d < 30000) (hlate : 30000 ≤ late) (hm : m ≠ "Request timeout".toList) :
    windowFetch loaded w start endpoint (Settled.resolved true status d) =
      { world := w, reported := [], settled := Settled.resolved true status d } ∧
    (windowFetch loaded w start endpoint (Settled.resolved false status d) =
        { world := (handleError w (start + d) (some (apiFailure status endpoint d))).world
          reported := [apiFailure status endpoint d]
          settled := Settled.resolved false status d } ∧
      (apiFailure status endpoint d).type = some ErrorTypes.API ∧
      (apiFailure status endpoint d).status = some status) ∧
    ((∀ network ∈ [Settled.pending, Settled.resolved true status late,
          Settled.resolved false status late, Settled.rejected m late],
        windowFetch loaded w start endpoint network =
          { world := (handleError w (start + 30000)
              (some (fetchFailure "Request timeout".toList endpoint 30000))).world
            reported := [fetchFailure "Request timeout".toList endpoint 30000]
            settled := Settled.rejected "Request timeout".toList 30000 }) ∧
      (fetchFailure "Request timeout".toList endpoint 30000).type = some ErrorTypes.TIMEOUT) ∧
    (windowFetch loaded w start endpoint (Settled.rejected m d) =
        { world := (handleError w (start + d) (some (fetchFailure m endpoint d))).world
          reported := [fetchFailure m endpoint d]
          settled := Settled.rejected m d } ∧
      (fetchFailure m endpoint d).type = some ErrorTypes.NETWORK) ∧
    (windowFetch loaded w start endpoint (Settled.rejected "Request timeout".toList d) =
        { world := (handleError w (start + d)
            (some (fetchFailure "Request timeout".toList endpoint d))).world
          reported := [fetchFailure "Request timeout".toList endpoint d]
          settled := Settled.rejected "Request timeout".toList d } ∧
      (fetchFailure "Request timeout".toList endpoint d).type = some ErrorTypes.TIMEOUT) := by
  have hnl : ¬ late < 30000 := by omega
  refine ⟨?_, ⟨?_, rfl, rfl⟩, ⟨?_, by simp [fetchFailure]⟩, ⟨?_, by rw [fetchFailure, if_neg hm]⟩,
    ⟨?_, by simp [fetchFailure]⟩⟩
  · show fetchWrapper originalFetch w start endpoint _ = _
    rw [fetchWrapper_of_resolved w start endpoint true status d _
      (raceTimeout_of_early_resolved true status d hd)]
    rfl
  · show fetchWrapper originalFetch w start endpoint _ = _
    rw [fetchWrapper_of_resolved w start endpoint false status d _
      (raceTimeout_of_early_resolved false status d hd)]
    rfl
  · intro network hnet
    show fetchWrapper originalFetch w start endpoint _ = _
    apply fetchWrapper_of_rejected
    simp only [List.mem_cons, List.mem_singleton, List.not_mem_nil, or_false] at hnet
    rcases hnet with rfl | rfl | rfl | rfl <;> simp [raceTimeout, hnl]
  · show fetchWrapper originalFetch w start endpoint _ = _
    exact fetchWrapper_of_rejected w start endpoint m d _ (raceTimeout_of_early_rejected m d hd)
  · show fetchWrapper originalFetch w start endpoint _ = _
    exact fetchWrapper_of_rejected w start endpoint _ d _
      (raceTimeout_of_early_rejected _ d hd)

/-- Witness for the amended C24: a response with status 500 after 50 ms and a
rejection `Failed to fetch` after 50 ms. -/
theorem fetchWrapper_classifies_witness :
    (50 : Int) < 30000 ∧ (30000 : Int) ≤ 40000 ∧
    "Failed to fetch".toList ≠ "Request timeout".toList ∧
    (windowFetch loaded initialWorld 1000 jobsEndpoint (Settled.resolved false 500 50)).reported =
      [apiFailure 500 jobsEndpoint 50] ∧
    (windowFetch loaded initialWorld 1000 jobsEndpoint
        (Settled.rejected "Failed to fetch".toList 50)).reported =
      [fetchFailure "Failed to fetch".toList jobsEndpoint 50] :=
  ⟨by decide, by decide, by decide,
    congrArg FetchOutcome.reported
      (fetchWrapper_classifies initialWorld 1000 jobsEndpoint 500 50 40000
        "Failed to fetch".toList (by decide) (by decide) (by decide)).2.1.1,
    congrArg FetchOutcome.reported
      (fetchWrapper_classifies initialWorld 1000 jobsEndpoint 500 50 40000
        "Failed to fetch".toList (by decide) (by decide) (by decide)).2.2.2.1.1⟩

/-- C23, as stated, fails: a second run of `initializeErrorTracking` wraps
`fetch` and `XMLHttpRequest` a second time and registers second listeners, and
a single response with status 500 then makes two `handleError` calls instead
of one. -/
theorem initializeErrorTracking_twice_counterexample :
    initializeErrorTracking loaded ≠ loaded ∧
    (initializeErrorTracking loaded).fetchLayers = 2 ∧
    (initializeErrorTracking loaded).xhrLayers = 2 ∧
    (initializeErrorTracking loaded).offlineListeners = 2 ∧
    (windowFetch loaded initialWorld 1000 jobsEndpoint
      (Settled.resolved false 500 50)).reported.length = 1 ∧
    (windowFetch (initializeErrorTracking loaded) initialWorld 1000 jobsEndpoint
      (Settled.resolved false 500 50)).reported.length = 2 := by
  decide

/-- C23, amended: `initializeErrorTracking` is not idempotent. Every run adds
one wrapper around `window.fetch` and around `window.XMLHttpRequest` and one
listener for each of `online`, `offline`, `submit` and `change`; the module
runs it once. After a second run a response that is not ok makes two
`handleError` calls with the same descriptor; on a quiescent hub the first is
accepted and the second is dropped by the rate limit, so the hub is left as
after a single run. -/
theorem initializeErrorTracking_adds_layer (i : Interceptors) (w : World)
    (start : Int) (endpoint : Str) (status d : Int)
    (hd : d < 30000) (hflag : w.isHandlingError = false)
    (htime : 100 ≤ start + d - w.lastErrorTimestamp) :
    ((initializeErrorTracking i).fetchLayers = i.fetchLayers + 1 ∧
      (initializeErrorTracking i).xhrLayers = i.xhrLayers + 1 ∧
      (initializeErrorTracking i).onlineListeners = i.onlineListeners + 1 ∧
      (initializeErrorTracking i).offlineListeners = i.offlineListeners + 1 ∧
      (initializeErrorTracking i).submitListeners = i.submitListeners + 1 ∧
      (initializeErrorTracking i).changeListeners = i.changeListeners + 1) ∧
    initializeErrorTracking (initializeErrorTracking i) ≠ initializeErrorTracking i ∧
    loaded.fetchLayers = 1 ∧
    windowFetch (initializeErrorTracking loaded) w start endpoint
        (Settled.resolved false status d) =
      { world := (windowFetch loaded w start endpoint (Settled.resolved false status d)).world
        reported := [apiFailure status endpoint d, apiFailure status endpoint d]
        settled := Settled.resolved false status d } := by
  refine ⟨⟨rfl, rfl, rfl, rfl, rfl, rfl⟩, ?_, rfl, ?_⟩
  · intro heq
    have := congrArg Interceptors.fetchLayers heq
    simp [initializeErrorTracking] at this
  · have hrace := raceTimeout_of_early_resolved false status d hd
    have hinner : windowFetch loaded w start endpoint (Settled.resolved false status d) =
        { world := (handleError w (start + d) (some (apiFailure status endpoint d))).world
          reported := [apiFailure status endpoint d]
          settled := Settled.resolved false status d } := by
      show fetchWrapper originalFetch w start endpoint _ = _
      rw [fetchWrapper_of_resolved w start endpoint false status d _ hrace]
      rfl
    have hflag2 : (handleError w (start + d)
        (some (apiFailure status endpoint d))).world.isHandlingError = true :=
      (handleError_accepted_fields w (start + d) _ hflag htime).2.2.2.1
    show fetchWrapper (wrapTimes 1) w start endpoint _ = _
    have hw1 : wrapTimes 1 w start endpoint (Settled.resolved false status d) =
        windowFetch loaded w start endpoint (Settled.resolved false status d) := rfl
    simp only [fetchWrapper, hw1, hinner, hrace]
    rw [handleError_of_dropped _ _ _ (Or.inl hflag2)]
    rfl

/-- Witness for the amended C23: a response with status 500 after 50 ms to a
request started at time 1000 in the initial state. -/
theorem initializeErrorTracking_adds_layer_witness :
    (50 : Int) < 30000 ∧ initialWorld.isHandlingError = false ∧
    (100 : Int) ≤ 1000 + 50 - initialWorld.lastErrorTimestamp ∧
    (windowFetch (initializeErrorTracking loaded) initialWorld 1000 jobsEndpoint
        (Settled.resolved false 500 50)).reported =
      [apiFailure 500 jobsEndpoint 50, apiFailure 500 jobsEndpoint 50] :=
  ⟨by decide, rfl, by decide,
    congrArg FetchOutcome.reported
      (initializeErrorTracking_adds_layer loaded initialWorld 1000 jobsEndpoint 500 50
        (by decide) rfl (by decide)).2.2.2⟩

/-! ### The route guard -/

/-- C28, as stated, fails: an unauthenticated visitor is not always redirected
to `/login`. With the error `User profile not found` set, or while loading,
the visitor gets the error panel or the spinner; and an empty `requiredRole`
lets a `jobseeker` see the children although it is neither absent nor equal to
the role. -/
theorem ProtectedRoute_counterexample :
    ProtectedRoute false (some "User profile not found".toList) none none
        (some "employer".toList) =
      View.authError "User profile not found".toList ∧
    ProtectedRoute false (some "User profile not found".toList) none none
        (some "employer".toList) ≠ View.redirectLogin ∧
    ProtectedRoute true none none none (some "employer".toList) = View.loading ∧
    ProtectedRoute false none (some "u1".toList) (some "jobseeker".toList) (some []) =
      View.children := by
  decide

/-- C28, amended: `ProtectedRoute` renders the children iff loading is false,
error is empty, the user is present and (the role is `admin`, or `requiredRole`
is absent or empty, or the role equals `requiredRole`). An unauthenticated
visitor never sees the children and is redirected to `/login` exactly when
loading is false and error is empty; `Access Denied` is shown exactly when
loading is false, error is empty, the user is present and is not `admin`, and
a non-empty `requiredRole` differs from the role. -/
theorem ProtectedRoute_decision (loading : Bool) (error currentUser userRole
    requiredRole : Option Str) :
    (ProtectedRoute loading error currentUser userRole requiredRole = View.children ↔
      loading = false ∧ truthy error = false ∧ currentUser.isSome = true ∧
        (userRole = some "admin".toList ∨ truthy requiredRole = false ∨
          userRole = requiredRole)) ∧
    ProtectedRoute loading error none userRole requiredRole ≠ View.children ∧
    (ProtectedRoute loading error currentUser userRole requiredRole = View.redirectLogin ↔
      loading = false ∧ truthy error = false ∧ currentUser = none) ∧
    (ProtectedRoute loading error currentUser userRole requiredRole = View.accessDenied ↔
      loading = false ∧ truthy error = false ∧ currentUser.isSome = true ∧
        userRole ≠ some "admin".toList ∧ truthy requiredRole = true ∧
        userRole ≠ requiredRole) := by
  refine ⟨?_, ?_, ?_, ?_⟩
  · unfold ProtectedRoute
    cases loading <;> cases he : truthy error <;> cases currentUser <;>
      by_cases ha : userRole = some ['a', 'd', 'm', 'i', 'n'] <;>
      cases hr : truthy requiredRole <;>
      by_cases hq : userRole = requiredRole <;> simp [ha, hq]
  · unfold ProtectedRoute
    cases loading <;> cases he : truthy error <;> simp
  · unfold ProtectedRoute
    cases loading <;> cases he : truthy error <;> cases currentUser <;>
      by_cases ha : userRole = some ['a', 'd', 'm', 'i', 'n'] <;>
      cases hr : truthy requiredRole <;>
      by_cases hq : userRole = requiredRole <;> simp [ha, hq]
  · unfold ProtectedRoute
    cases loading <;> cases he : truthy error <;> cases currentUser <;>
      by_cases ha : userRole = some ['a', 'd', 'm', 'i', 'n'] <;>
      cases hr : truthy requiredRole <;>
      by_cases hq : userRole = requiredRole <;> simp [ha, hq]

/-! ### The job form -/

theorem setItem_ne_nil (store : List (Str × Str)) (key value : Str) :
    setItem store key value ≠ [] := by
  simp [setItem]

theorem foldl_required_eq_nil (fields : List (Str × Option Str)) (errors : List (Str × Str)) :
    fields.foldl
        (fun errors field =>
          if isBlank field.2 then
            setItem errors field.1 (capitalize field.1 ++ " is required".toList)
          else errors)
        errors = [] ↔
      errors = [] ∧ ∀ field ∈ fields, isBlank field.2 = false := by
  induction fields generalizing errors with
  | nil => simp
  | cons field rest ih =>
    rw [List.foldl_cons, ih]
    cases hb : isBlank field.2 with
    | true => simp [hb, setItem_ne_nil]
    | false => simp [hb]

theorem isDecimalDigit_iff (c : Char) :
    isDecimalDigit c = true ↔ 48 ≤ c.toNat ∧ c.toNat ≤ 57 := by
  simp [isDecimalDigit]

theorem digitChar_of_isDecimalDigit (c : Char) (h : isDecimalDigit c = true) :
    Nat.digitChar (c.toNat - 48) = c ∧ c.toNat - 48 < 10 := by
  obtain ⟨h1, h2⟩ := (isDecimalDigit_iff c).mp h
  refine ⟨?_, by omega⟩
  rw [← Char.ofNat_toNat c]
  generalize c.toNat = n at *
  interval_cases n <;> rfl

theorem isWhiteSpace_of_isDecimalDigit (c : Char) (h : isDecimalDigit c = true) :
    isWhiteSpace c = false := by
  obtain ⟨h1, h2⟩ := (isDecimalDigit_iff c).mp h
  unfold isWhiteSpace
  simp
  omega

theorem map_digitChar_digitsOf (s : Str) (h : s.all isDecimalDigit = true) :
    (digitsOf s).map Nat.digitChar = s ∧ ∀ d ∈ digitsOf s, d < 10 := by
  induction s with
  | nil => simp [digitsOf]
  | cons c cs ih =>
    rw [List.all_cons, Bool.and_eq_true] at h
    obtain ⟨hc, hcs⟩ := h
    obtain ⟨h1, h2⟩ := ih hcs
    obtain ⟨h3, h4⟩ := digitChar_of_isDecimalDigit c hc
    constructor
    · show Nat.digitChar (c.toNat - 48) :: (digitsOf cs).map Nat.digitChar = c :: cs
      rw [h3, h1]
    · intro d hd
      rcases List.mem_cons.mp hd with rfl | hd
      · exact h4
      · exact h2 d hd

/-- The builtin `parseInt` reads a string of digits as the Number value of the
integer it denotes. -/
theorem parseInt_of_isDigitString (s : Str) (h : isDigitString s = true) :
    parseInt s = numberValue false (Nat.ofDigits 10 (digitsOf s).reverse) := by
  simp only [isDigitString, Bool.and_eq_true, Bool.not_eq_true'] at h
  obtain ⟨hne, hall⟩ := h
  obtain ⟨hmap, hlt⟩ := map_digitChar_digitsOf s hall
  have hds : digitsOf s ≠ [] := by
    intro hnil
    rw [hnil] at hmap
    rw [← hmap] at hne
    simp at hne
  have := parseInt_digits (digitsOf s) hds hlt
  rw [hmap] at this
  exact this

theorem isBlank_of_isDigitString (s : Str) (h : isDigitString s = true) :
    isBlank (some s) = false := by
  simp only [isDigitString, Bool.and_eq_true, Bool.not_eq_true'] at h
  obtain ⟨hne, hall⟩ := h
  cases s with
  | nil => simp at hne
  | cons c cs =>
    have hc : isWhiteSpace c = false :=
      isWhiteSpace_of_isDecimalDigit c (by
        rw [List.all_cons, Bool.and_eq_true] at hall
        exact hall.1)
    have hrun : [c] <:+: trim (c :: cs) :=
      isInfix_trim (c :: cs) [c] (by simpa using hc) ⟨[], cs, rfl⟩
    cases ht : trim (c :: cs) with
    | nil =>
      rw [ht] at hrun
      simp at hrun
    | cons a as => simp [isBlank, ht]

theorem validateForm_iff (form : JobForm) :
    validateForm form = true ↔
      (isBlank form.title = false ∧ isBlank form.description = false ∧
        isBlank form.category = false ∧ isBlank form.salary = false ∧
        isBlank form.deadline = false ∧ isBlank form.type = false ∧
        isBlank form.company = false ∧ isBlank form.location = false) ∧
      isDigitString (form.salary.getD []) = true := by
  have hreq := foldl_required_eq_nil (requiredFields form) []
  unfold validateForm newErrors
  rw [List.isEmpty_iff]
  cases hd : isDigitString (form.salary.getD []) with
  | true =>
    simp only [Bool.not_true, Bool.and_false, Bool.false_eq_true, if_false, hreq]
    simp [requiredFields]
  | false =>
    cases ht : truthy form.salary with
    | true => simp [setItem_ne_nil]
    | false =>
      simp only [Bool.not_false, Bool.and_true, Bool.false_eq_true, if_false, hreq]
      have hblank : isBlank form.salary = true := by
        cases hs : form.salary with
        | none => rfl
        | some s =>
          cases s with
          | nil => simp [isBlank, trim]
          | cons c cs => simp [hs, truthy] at ht
      simp [requiredFields, hblank]

/-- The Number value of a non-negative integer is a non-negative integer or
`Infinity`, never `NaN` and never negative. -/
theorem numberValue_false_cases (n : Nat) :
    numberValue false n = JSNumber.finite (roundToDouble n) ∨
      numberValue false n = JSNumber.infinity false := by
  unfold numberValue
  by_cases h : 2 ^ 1024 ≤ roundToDouble n
  · right
    exact if_pos h
  · left
    exact if_neg h

set_option exponentiation.threshold 2048 in
set_option maxRecDepth 100000 in
/-- C30, as stated, fails for long salaries: the form with salary
`9007199254740993` is accepted, and the salary stored is the double
9007199254740992, not the integer the digits denote; the form whose salary
is 400 digits `9` is accepted and the salary stored is `Infinity`. -/
theorem validateForm_rounding_counterexample :
    validateForm { sampleForm with salary := some "9007199254740993".toList } = true ∧
    Nat.ofDigits 10 (digitsOf "9007199254740993".toList).reverse = 9007199254740993 ∧
    (handleSubmit { sampleForm with salary := some "9007199254740993".toList }).map
        (fun job => job.salary) = some (JSNumber.finite 9007199254740992) ∧
    validateForm { sampleForm with salary := some (List.replicate 400 '9') } = true ∧
    (handleSubmit { sampleForm with salary := some (List.replicate 400 '9') }).map
        (fun job => job.salary) = some (JSNumber.infinity false) := by
  refine ⟨by decide, by decide, by decide, by decide, by decide⟩

/-- C30, amended: `validateForm` accepts a form iff each of title, description,
category, salary, deadline, type, company and location is non-blank after
trimming and the salary is made of decimal digits only; nothing is stored for
a rejected form; for an accepted form every character of the salary text is a
digit, so no sign, point or padding is ever stored, and the salary that
`handleSubmit` stores is the Number value of the integer the digits denote:
that integer itself when it is below 2^53, and in every case a non-negative
integer or `Infinity`. -/
theorem validateForm_accepts (form : JobForm) :
    (validateForm form = true ↔
      (isBlank form.title = false ∧ isBlank form.description = false ∧
        isBlank form.category = false ∧ isBlank form.salary = false ∧
        isBlank form.deadline = false ∧ isBlank form.type = false ∧
        isBlank form.company = false ∧ isBlank form.location = false) ∧
      isDigitString (form.salary.getD []) = true) ∧
    (validateForm form = true ↔
      (isBlank form.title = false ∧ isBlank form.description = false ∧
        isBlank form.category = false ∧ isBlank form.deadline = false ∧
        isBlank form.type = false ∧ isBlank form.company = false ∧
        isBlank form.location = false) ∧
      ∃ s, form.salary = some s ∧ s ≠ [] ∧ ∀ ch ∈ s, isDecimalDigit ch = true) ∧
    (validateForm form = false → handleSubmit form = none) ∧
    (validateForm form = true →
      ∃ s, form.salary = some s ∧ (∀ ch ∈ s, isDecimalDigit ch = true) ∧
        (handleSubmit form).map (fun job => job.salary) =
          some (numberValue false (Nat.ofDigits 10 (digitsOf s).reverse)) ∧
        (Nat.ofDigits 10 (digitsOf s).reverse < 2 ^ 53 →
          (handleSubmit form).map (fun job => job.salary) =
            some (JSNumber.finite ((Nat.ofDigits 10 (digitsOf s).reverse : Nat) : Int))) ∧
        ((∃ v : Nat, (handleSubmit form).map (fun job => job.salary) =
            some (JSNumber.finite (v : Int))) ∨
          (handleSubmit form).map (fun job => job.salary) =
            some (JSNumber.infinity false))) := by
  have hiff := validateForm_iff form
  have hdigits : ∀ s : Str, isDigitString s = true ↔ s ≠ [] ∧ ∀ ch ∈ s, isDecimalDigit ch = true := by
    intro s
    cases s <;> simp [isDigitString]
  refine ⟨hiff, ?_, ?_, ?_⟩
  · rw [hiff]
    constructor
    · rintro ⟨⟨h1, h2, h3, h4, h5, h6, h7, h8⟩, hd⟩
      refine ⟨⟨h1, h2, h3, h5, h6, h7, h8⟩, ?_⟩
      cases hs : form.salary with
      | none => rw [hs] at h4; simp [isBlank] at h4
      | some s =>
        rw [hs] at hd
        exact ⟨s, rfl, (hdigits s).mp hd⟩
    · rintro ⟨⟨h1, h2, h3, h5, h6, h7, h8⟩, s, hs, hne, hall⟩
      have hd : isDigitString s = true := (hdigits s).mpr ⟨hne, hall⟩
      refine ⟨⟨h1, h2, h3, ?_, h5, h6, h7, h8⟩, ?_⟩
      · rw [hs]
        exact isBlank_of_isDigitString s hd
      · rw [hs]
        exact hd
  · intro hv
    simp [handleSubmit, hv]
  · intro hv
    obtain ⟨⟨-, -, -, h4, -⟩, hd⟩ := hiff.mp hv
    cases hs : form.salary with
    | none => rw [hs] at h4; simp [isBlank] at h4
    | some s =>
      rw [hs] at hd
      have hstored : (handleSubmit form).map (fun job => job.salary) =
          some (numberValue false (Nat.ofDigits 10 (digitsOf s).reverse)) := by
        simp only [handleSubmit, hv, if_true, Option.map_some', hs, Option.getD_some]
        rw [parseInt_of_isDigitString s hd]
      refine ⟨s, rfl, ((hdigits s).mp hd).2, hstored, ?_, ?_⟩
      · intro hlt
        rw [hstored, numberValue_of_lt false _ hlt]
        rfl
      · rw [hstored]
        rcases numberValue_false_cases (Nat.ofDigits 10 (digitsOf s).reverse) with h | h
        · exact Or.inl ⟨roundToDouble (Nat.ofDigits 10 (digitsOf s).reverse), by rw [h]⟩
        · exact Or.inr (by rw [h])

set_option exponentiation.threshold 2048 in
/-- Witness for the amended C30: the sample form, with salary `50000`, is
accepted and 50000 is stored; the same form with salary `-5` is rejected. -/
theorem validateForm_accepts_witness :
    validateForm sampleForm = true ∧
    validateForm { sampleForm with salary := some "-5".toList } = false ∧
    (∃ s, sampleForm.salary = some s ∧ (∀ ch ∈ s, isDecimalDigit ch = true) ∧
      (handleSubmit sampleForm).map (fun job => job.salary) =
        some (numberValue false (Nat.ofDigits 10 (digitsOf s).reverse)) ∧
      (Nat.ofDigits 10 (digitsOf s).reverse < 2 ^ 53 →
        (handleSubmit sampleForm).map (fun job => job.salary) =
          some (JSNumber.finite ((Nat.ofDigits 10 (digitsOf s).reverse : Nat) : Int))) ∧
      ((∃ v : Nat, (handleSubmit sampleForm).map (fun job => job.salary) =
          some (JSNumber.finite (v : Int))) ∨
        (handleSubmit sampleForm).map (fun job => job.salary) =
          some (JSNumber.infinity false))) ∧
    handleSubmit { sampleForm with salary := some "-5".toList } = none ∧
    (handleSubmit sampleForm).map (fun job => job.salary) = some (JSNumber.finite 50000) :=
  ⟨by decide, by decide, (validateForm_accepts sampleForm).2.2.2 (by decide),
    (validateForm_accepts { sampleForm with salary := some "-5".toList }).2.2.1 (by decide),
    by decide⟩

/-! ### Spaces in the search string -/

theorem toLower_eq_space (c : Char) : Char.toLower c = ' ' ↔ c = ' ' := by
  by_cases h : 65 ≤ c.toNat ∧ c.toNat ≤ 90
  · have hl := toNat_toLower c
    rw [if_pos h] at hl
    constructor
    · intro heq
      rw [heq] at hl
      have : (' ' : Char).toNat = 32 := rfl
      omega
    · intro heq
      rw [heq] at h
      have : (' ' : Char).toNat = 32 := rfl
      omega
  · rw [toLower_of_not_upper c h]

theorem toLowerCase_collapseSpaces (s : Str) :
    toLowerCase (collapseSpaces s) = collapseSpaces (toLowerCase s) := by
  induction s with
  | nil => rfl
  | cons c cs ih =>
    have hhead : (toLowerCase cs).head? = some ' ' ↔ cs.head? = some ' ' := by
      cases cs with
      | nil => simp [toLowerCase]
      | cons d ds => simp [toLowerCase, toLower_eq_space]
    by_cases h : c = ' ' ∧ cs.head? = some ' '
    · have h2 : Char.toLower c = ' ' ∧ (toLowerCase cs).head? = some ' ' :=
        ⟨(toLower_eq_space c).mpr h.1, hhead.mpr h.2⟩
      show toLowerCase (collapseSpaces (c :: cs)) =
        collapseSpaces (Char.toLower c :: toLowerCase cs)
      rw [collapseSpaces, if_pos h, collapseSpaces, if_pos h2, ih]
    · have h2 : ¬ (Char.toLower c = ' ' ∧ (toLowerCase cs).head? = some ' ') :=
        fun hh => h ⟨(toLower_eq_space c).mp hh.1, hhead.mp hh.2⟩
      show toLowerCase (collapseSpaces (c :: cs)) =
        collapseSpaces (Char.toLower c :: toLowerCase cs)
      rw [collapseSpaces, if_neg h, collapseSpaces, if_neg h2, ← ih]
      rfl

theorem toLowerCase_dropWhile (s : Str) :
    toLowerCase (s.dropWhile isWhiteSpace) = (toLowerCase s).dropWhile isWhiteSpace := by
  induction s with
  | nil => rfl
  | cons c cs ih =>
    show toLowerCase ((c :: cs).dropWhile isWhiteSpace) =
      (Char.toLower c :: toLowerCase cs).dropWhile isWhiteSpace
    cases hc : isWhiteSpace c with
    | true =>
      have hc2 : isWhiteSpace (Char.toLower c) = true := by rw [isWhiteSpace_toLower, hc]
      rw [List.dropWhile_cons_of_pos hc, List.dropWhile_cons_of_pos hc2, ih]
    | false =>
      have hc2 : ¬ isWhiteSpace (Char.toLower c) = true := by
        rw [isWhiteSpace_toLower, hc]
        simp
      rw [List.dropWhile_cons_of_neg (by simp [hc]), List.dropWhile_cons_of_neg hc2]
      rfl

theorem toLowerCase_reverse (s : Str) : toLowerCase s.reverse = (toLowerCase s).reverse := by
  simp [toLowerCase, List.map_reverse]

theorem toLowerCase_trim (s : Str) : toLowerCase (trim s) = trim (toLowerCase s) := by
  unfold trim List.rdropWhile
  rw [toLowerCase_reverse, toLowerCase_dropWhile, toLowerCase_reverse, toLowerCase_dropWhile]

/-- A prefix without a space survives the collapsing of runs of spaces. -/
theorem isPrefix_collapseSpaces (s t : Str) (hsp : ' ' ∉ t) (ht : t <+: s) :
    t <+: collapseSpaces s := by
  induction s generalizing t with
  | nil =>
    rw [List.prefix_nil.mp ht]
    exact List.nil_prefix
  | cons c cs ih =>
    rcases List.prefix_cons_iff.mp ht with rfl | ⟨t2, rfl, ht2⟩
    · exact List.nil_prefix
    · have hc : c ≠ ' ' := fun heq => hsp (by simp [heq])
      have hsp2 : ' ' ∉ t2 := fun hmem => hsp (List.mem_cons_of_mem c hmem)
      rw [collapseSpaces, if_neg (fun hh => hc hh.1)]
      exact List.cons_prefix_cons.mpr ⟨rfl, ih t2 hsp2 ht2⟩

/-- A run without a space survives the collapsing of runs of spaces. -/
theorem isInfix_collapseSpaces (s t : Str) (hsp : ' ' ∉ t) (ht : t <:+: s) :
    t <:+: collapseSpaces s := by
  induction s with
  | nil =>
    rw [List.infix_nil.mp ht]
    exact List.nil_infix
  | cons c cs ih =>
    rcases List.infix_cons_iff.mp ht with hp | hi
    · exact (isPrefix_collapseSpaces (c :: cs) t hsp hp).isInfix
    · have h2 := ih hi
      rw [collapseSpaces]
      split_ifs
      · exact h2
      · exact h2.trans (List.suffix_cons c _).isInfix

theorem collapseSpaces_head (s : Str) (h : s.head? = some ' ') :
    (collapseSpaces s).head? = some ' ' := by
  induction s with
  | nil => simp at h
  | cons c cs ih =>
    have hc : c = ' ' := by simpa using h
    rw [collapseSpaces]
    split_ifs with hh
    · exact ih hh.2
    · simp [hc]

/-- A prefix without a space of the collapsed string is a prefix of the string. -/
theorem isPrefix_of_collapseSpaces (s t : Str) (hsp : ' ' ∉ t) (ht : t <+: collapseSpaces s) :
    t <+: s := by
  induction s generalizing t with
  | nil =>
    have : t = [] := List.prefix_nil.mp ht
    rw [this]
  | cons c cs ih =>
    cases t with
    | nil => exact List.nil_prefix
    | cons e t2 =>
      have he : e ≠ ' ' := fun heq => hsp (by simp [heq])
      have hsp2 : ' ' ∉ t2 := fun hmem => hsp (List.mem_cons_of_mem e hmem)
      rw [collapseSpaces] at ht
      split_ifs at ht with hh
      · have hhead := collapseSpaces_head cs hh.2
        cases hcs : collapseSpaces cs with
        | nil =>
          rw [hcs] at ht
          simp at ht
        | cons a as =>
          rw [hcs] at ht hhead
          have ha : a = ' ' := by simpa using hhead
          have hea : e = a := (List.cons_prefix_cons.mp ht).1
          exact absurd (hea.trans ha) he
      · obtain ⟨hec, ht3⟩ := List.cons_prefix_cons.mp ht
        rw [hec]
        exact List.cons_prefix_cons.mpr ⟨rfl, ih t2 hsp2 ht3⟩

/-- A run without a space of the collapsed string is a run of the string. -/
theorem isInfix_of_collapseSpaces (s t : Str) (hsp : ' ' ∉ t) (ht : t <:+: collapseSpaces s) :
    t <:+: s := by
  induction s with
  | nil =>
    have : t = [] := List.infix_nil.mp ht
    rw [this]
  | cons c cs ih =>
    rw [collapseSpaces] at ht
    split_ifs at ht with hh
    · exact (ih ht).trans (List.suffix_cons c cs).isInfix
    · rcases List.infix_cons_iff.mp ht with hp | hi
      · have hp2 : t <+: collapseSpaces (c :: cs) := by
          rw [collapseSpaces, if_neg hh]
          exact hp
        exact (isPrefix_of_collapseSpaces (c :: cs) t hsp hp2).isInfix
      · exact (ih hi).trans (List.suffix_cons c cs).isInfix

/-- Two strings with the same runs without a space give search terms that
accept the same fields. -/
theorem split_all_congr (x y : Str) (fields : List Str)
    (h : ∀ t, ' ' ∉ t → t <:+: x → t <:+: y) :
    (∀ term ∈ split ' ' y, ∃ field ∈ fields, term <:+: field) →
      ∀ term ∈ split ' ' x, ∃ field ∈ fields, term <:+: field := by
  intro hy term hterm
  obtain ⟨hrun, hsp⟩ := mem_split ' ' x term hterm
  obtain ⟨u, hu, htu⟩ := isInfix_split ' ' y term hsp (h term hsp hrun)
  obtain ⟨field, hfield, huf⟩ := hy u hu
  exact ⟨field, hfield, htu.trans huf⟩

theorem matchesSearch_normalizeSpaces (c : Criteria) (s : Str) (job : Job)
    (h : ∀ ch ∈ s, isWhiteSpace ch = true → ch = ' ') :
    matchesSearch (withSearchTerm c s) job =
      matchesSearch (withSearchTerm c (normalizeSpaces s)) job := by
  have hlow : ∀ ch ∈ toLowerCase s, isWhiteSpace ch = true → ch = ' ' := by
    intro ch hch hw
    obtain ⟨d, hd, rfl⟩ := List.mem_map.mp hch
    have hwd : isWhiteSpace d = true := by rw [← isWhiteSpace_toLower, hw]
    rw [toLower_of_isWhiteSpace d hwd]
    exact h d hd hwd
  have hnorm : toLowerCase (normalizeSpaces s) = collapseSpaces (trim (toLowerCase s)) := by
    rw [normalizeSpaces, toLowerCase_collapseSpaces, toLowerCase_trim]
  have hto : ∀ t, ' ' ∉ t → t <:+: toLowerCase s → t <:+: toLowerCase (normalizeSpaces s) := by
    intro t hsp ht
    rw [hnorm]
    apply isInfix_collapseSpaces _ t hsp
    apply isInfix_trim _ t _ ht
    intro ch hch
    cases hw : isWhiteSpace ch with
    | false => rfl
    | true =>
      have : ch = ' ' := hlow ch (ht.subset hch) hw
      rw [this] at hch
      exact absurd hch hsp
  have hfrom : ∀ t, ' ' ∉ t → t <:+: toLowerCase (normalizeSpaces s) → t <:+: toLowerCase s := by
    intro t hsp ht
    rw [hnorm] at ht
    exact (isInfix_of_collapseSpaces _ t hsp ht).trans (trim_isInfix _)
  have hiff : matchesSearch (withSearchTerm c s) job = true ↔
      matchesSearch (withSearchTerm c (normalizeSpaces s)) job = true := by
    rw [matchesSearch_iff, matchesSearch_iff]
    exact ⟨split_all_congr _ _ _ hfrom, split_all_congr _ _ _ hto⟩
  cases h1 : matchesSearch (withSearchTerm c s) job with
  | true => exact (hiff.mp h1).symm
  | false =>
    cases h2 : matchesSearch (withSearchTerm c (normalizeSpaces s)) job with
    | false => rfl
    | true =>
      rw [hiff.mpr h2] at h1
      exact absurd h1 (by simp)

/-- C29: leading, trailing and repeated spaces in the search string do not
change the result. For a search string whose only white space is the space
character, filtering with it gives the same list as filtering with the string
trimmed and with each run of spaces collapsed to one; an empty search term is
included in every field. -/
theorem filteredJobs_normalizeSpaces (J : List Job) (c : Criteria) (s : Str)
    (h : ∀ ch ∈ s, isWhiteSpace ch = true → ch = ' ') :
    filteredJobs J (withSearchTerm c s) = filteredJobs J (withSearchTerm c (normalizeSpaces s)) ∧
    ∀ field, includes field [] = true := by
  refine ⟨?_, includes_nil⟩
  unfold filteredJobs
  congr 1
  funext job
  have hs := matchesSearch_normalizeSpaces c s job h
  simp only [keeps, hs]
  rfl

/-- Witness for C29: the search string `senior react` with leading, repeated
and trailing spaces. -/
theorem filteredJobs_normalizeSpaces_witness :
    (∀ ch ∈ paddedSearch, isWhiteSpace ch = true → ch = ' ') ∧
    normalizeSpaces paddedSearch = "senior react".toList ∧
    filteredJobs [seniorReactJob, tabJob] (withSearchTerm defaultCriteria paddedSearch) =
      filteredJobs [seniorReactJob, tabJob]
        (withSearchTerm defaultCriteria (normalizeSpaces paddedSearch)) :=
  ⟨by decide, by decide,
    (filteredJobs_normalizeSpaces [seniorReactJob, tabJob] defaultCriteria paddedSearch
      (by decide)).1⟩

end JobConnect
